import Mathlib

/-!
The portfolio site: its service worker (`src/sw.js`) and, further down, three
functions of its page scripts (`src/enhanced-script.js`, `src/script.js`).

A shallow embedding of the caching engine of `src/sw.js`: the rule tables, the
two URL predicates `isStatic` and `isNetworkFirst`, the three caching
strategies, the `fetch` listener that dispatches between them, and the
`install`, `activate` and `message` listeners with `updateCache`.

Modelling conventions.

* JavaScript strings are Lean `String`s.  `includes` and `endsWith` compare
  UTF-16 code units in JavaScript and code points here; every pattern of the
  source is ASCII, for which the two notions of "substring" and "suffix" agree
  on well-formed strings.
* The platform (Cache API, `fetch`) is not code of the repository.  The cache
  storage is an ordered list of named generations, each an ordered list of
  (request, response) entries; the network is an oracle answering a request with
  a response or with a rejection.  `async` code is run to completion: the world
  returned by a strategy is the one reached once every promise it started has
  settled (this matters for `cache.put`, which the source never awaits).
* `cache.put` overwrites the entry stored under the same key, unless the
  platform refuses the write: a request that is not a GET request for an
  http(s) URL, a partial-content response (status 206) or a response with
  `Vary: *` makes the promise of `put` reject and stores nothing. The source
  never awaits that promise, so the rejection is unhandled and is recorded in
  the log only.
* `cache.addAll` is the all-or-nothing bulk population of the platform: every
  URL is fetched, and the responses are stored only when every fetch resolved
  with a response in the success range that is neither a partial-content
  response nor one with `Vary: *`. The resolution of a manifest URL against the
  location of the worker is a parameter; the location of a worker is an http(s)
  URL, and so is every resolved manifest URL. A manifest in which two URLs
  resolve to the same request, which the platform refuses, is outside the
  model.
* `caches.delete` may fail; which deletions fail is a parameter of the
  `activate` listener.
* Every platform call is recorded in a log, so that "no network call" or
  "exactly one cache write" are statements about the log. Console output is not
  modelled.
-/

namespace ServiceWorker

/-! ## Strings -/

/-- Substring test on character lists: does `p` occur in `s` at some offset. -/
def includesChars : List Char → List Char → Bool
  | [], p => p.isPrefixOf []
  | c :: s, p => p.isPrefixOf (c :: s) || includesChars s p

/-- The method `String.prototype.includes(p)` of JavaScript. -/
def includes (s p : String) : Bool := includesChars s.data p.data

/-- The method `String.prototype.endsWith(p)` of JavaScript. -/
def endsWith (s p : String) : Bool := p.data.isSuffixOf s.data

/-- The method `String.prototype.startsWith(p)` of JavaScript. -/
def startsWith (s p : String) : Bool := p.data.isPrefixOf s.data

/-! ## Rule tables (`src/sw.js`, lines 4-31) -/

def CACHE_NAME : String := "cesar-portfolio-v1.0.0"
def STATIC_CACHE : String := "cesar-static-v1.0.0"
def DYNAMIC_CACHE : String := "cesar-dynamic-v1.0.0"

def STATIC_FILES : List String :=
  [ "/",
    "/index.html",
    "/styles.css",
    "/enhanced-script.js",
    "/manifest.json",
    "/foto-ibm.jpeg",
    "https://fonts.googleapis.com/css2?family=Inter:wght@300;400;500;600;700;800&family=JetBrains+Mono:wght@400;500;600&display=swap",
    "https://cdnjs.cloudflare.com/ajax/libs/font-awesome/6.4.0/css/all.min.css" ]

def DYNAMIC_FILES : List String :=
  [ "https://api.github.com/users/Ceskard26/repos",
    "https://www.credly.com/users/cesar-augusto-carrasco-rojas" ]

def NETWORK_FIRST : List String :=
  [ "https://eujpxsoz2tqoqqk6tnpiqgjbne0oxymx.lambda-url.us-east-2.on.aws/",
    "https://api.github.com/",
    "https://calendly.com/" ]

/-! ## Helper functions (`src/sw.js`, lines 186-201) -/

/-- The function `isStatic(url)`. -/
def isStatic (url : String) : Bool :=
  STATIC_FILES.any (fun file => includes url file) ||
  includes url "fonts.googleapis.com" ||
  includes url "cdnjs.cloudflare.com" ||
  endsWith url ".css" ||
  endsWith url ".js" ||
  endsWith url ".png" ||
  endsWith url ".jpg" ||
  endsWith url ".jpeg" ||
  endsWith url ".gif" ||
  endsWith url ".svg"

/-- The function `isNetworkFirst(url)`. -/
def isNetworkFirst (url : String) : Bool :=
  NETWORK_FIRST.any (fun pattern => includes url pattern)

/-! ## Data model -/

/-- A request as the service worker sees it: `request.url`, `request.method`
and the headers, which the source never reads. -/
structure Request where
  url : String
  method : String
  headers : List (String × String)
deriving DecidableEq, Repr

/-- A response: status, the headers given at construction, and the body. -/
structure Response where
  status : Nat
  headers : List (String × String)
  body : String
deriving DecidableEq, Repr

/-- The getter `response.ok`: the status is in the range 200-299. -/
def Response.ok (r : Response) : Bool := decide (200 ≤ r.status) && decide (r.status ≤ 299)

/-- The method `response.clone()`: a response snapshot with the same content. -/
def Response.clone (r : Response) : Response := r

/-- Cache key identity: the Cache API compares method and URL of two requests
and ignores their other headers. -/
def sameKey (a b : Request) : Bool := a.url == b.url && a.method == b.method

/-- One cache generation: its entries, oldest first. -/
abbrev Generation := List (Request × Response)

/-- The `caches` object: the named generations, in creation order. -/
abbrev CacheStorage := List (String × Generation)

/-- The platform calls a strategy or a lifecycle handler can make. -/
inductive Event where
  | fetch (req : Request)
  | cachesMatch (req : Request)
  | cachesOpen (name : String)
  | cacheMatch (name : String) (req : Request)
  | cachePut (name : String) (req : Request) (resp : Response)
  | cachePutRejected (name : String) (req : Request) (resp : Response)
  | cachesKeys
  | cachesDelete (name : String)
  | skipWaiting
  | clientsClaim
deriving DecidableEq, Repr

/-- The state a handler runs in: the cache storage and the log of platform
calls made so far. -/
structure World where
  caches : CacheStorage
  log : List Event
deriving DecidableEq, Repr

/-- The network: `fetch(request)` resolves with a response (`some`) or rejects
(`none`). -/
abbrev Network := Request → Option Response

/-- How a promise settles.  A fulfilled promise carries a JavaScript value that
is a response (`some`) or `undefined` (`none`). -/
inductive Settled where
  | fulfilled (value : Option Response)
  | rejected
deriving DecidableEq, Repr

/-! ## Cache store primitives -/

/-- The method `cache.match(request)` on the entries of one generation. -/
def Generation.lookup (g : Generation) (req : Request) : Option Response :=
  (g.find? (fun e => sameKey e.1 req)).map Prod.snd

/-- The method `cache.put(request, response)` on the entries of one generation:
the entry stored under the same key is replaced. -/
def Generation.put (g : Generation) (req : Request) (resp : Response) : Generation :=
  g.filter (fun e => !sameKey e.1 req) ++ [(req, resp)]

/-- The entries of the generation called `name`, if it exists. -/
def CacheStorage.generation (cs : CacheStorage) (name : String) : Option Generation :=
  (cs.find? (fun c => c.1 == name)).map Prod.snd

/-- Lookup in the generation called `name`; a generation that does not exist
holds nothing. -/
def CacheStorage.lookupIn (cs : CacheStorage) (name : String) (req : Request) :
    Option Response :=
  match cs.generation name with
  | some g => g.lookup req
  | none => none

/-- The method `caches.match(request)`: the first hit, trying the generations
in creation order. -/
def CacheStorage.lookupAny : CacheStorage → Request → Option Response
  | [], _ => none
  | (_, g) :: rest, req =>
    match g.lookup req with
    | some r => some r
    | none => CacheStorage.lookupAny rest req

/-- The method `caches.open(name)`: the generation is created empty when it does
not exist yet. -/
def CacheStorage.ensure (cs : CacheStorage) (name : String) : CacheStorage :=
  if cs.any (fun c => c.1 == name) then cs else cs ++ [(name, [])]

/-- Write into the generation called `name`. -/
def CacheStorage.putIn (cs : CacheStorage) (name : String) (req : Request)
    (resp : Response) : CacheStorage :=
  cs.map (fun c => if c.1 == name then (c.1, c.2.put req resp) else c)

/-- Run `fetch(request)` and log it. -/
def doFetch (net : Network) (w : World) (req : Request) : Option Response × World :=
  (net req, { w with log := w.log ++ [Event.fetch req] })

/-- Run `caches.match(request)` and log it. -/
def doCachesMatch (w : World) (req : Request) : Option Response × World :=
  (w.caches.lookupAny req, { w with log := w.log ++ [Event.cachesMatch req] })

/-- Run `caches.open(name)` and log it. -/
def doCachesOpen (w : World) (name : String) : World :=
  { caches := w.caches.ensure name, log := w.log ++ [Event.cachesOpen name] }

/-- Run `cache.match(request)` on the opened generation `name` and log it. -/
def doCacheMatch (w : World) (name : String) (req : Request) : Option Response × World :=
  (w.caches.lookupIn name req, { w with log := w.log ++ [Event.cacheMatch name req] })

/-- ASCII space and horizontal tab, the optional white space around a member of
a header value. -/
def isOws (c : Char) : Bool := c == ' ' || c == '\t'

/-- The members of a comma-separated header value, as character lists. -/
def splitComma : List Char → List (List Char)
  | [] => [[]]
  | c :: cs =>
    match splitComma cs with
    | [] => [[]]
    | x :: xs => if c == ',' then [] :: x :: xs else (c :: x) :: xs

/-- A header member without the white space around it. -/
def trimOws (cs : List Char) : List Char :=
  ((cs.dropWhile isOws).reverse.dropWhile isOws).reverse

/-- The response carries a `Vary` header with the member `*`; header names
compare without regard to case. -/
def varyStar (r : Response) : Bool :=
  r.headers.any (fun h =>
    h.1.data.map Char.toLower == "vary".data &&
      (splitComma h.2.data).any (fun m => trimOws m == ['*']))

/-- The URL has the scheme `http` or `https`. -/
def isHttpUrl (url : String) : Bool :=
  startsWith url "http://" || startsWith url "https://"

/-- The platform's test in `cache.put(request, response)`: the promise rejects
with a `TypeError`, and nothing is stored, unless the request is a GET request
for an http(s) URL and the response is neither a partial-content response
(status 206) nor one with `Vary: *`. -/
def putAccepted (req : Request) (resp : Response) : Bool :=
  req.method == "GET" && isHttpUrl req.url && resp.status != 206 && !varyStar resp

/-- The platform's test on a response fetched by `cache.addAll`: the status is
in the success range and the response is neither a partial-content response nor
one with `Vary: *`. -/
def addAllAccepts (r : Response) : Bool :=
  r.ok && r.status != 206 && !varyStar r

/-- The write of an accepted entry into the generation `name`, logged. -/
def storeEntry (w : World) (name : String) (req : Request) (resp : Response) : World :=
  { caches := w.caches.putIn name req resp, log := w.log ++ [Event.cachePut name req resp] }

/-- Run `cache.put(request, response)` on the opened generation `name` and log
it. A write the platform refuses stores nothing; the promise of `put` rejects,
and since the source never awaits it the caller is not affected. -/
def doCachePut (w : World) (name : String) (req : Request) (resp : Response) : World :=
  if putAccepted req resp then storeEntry w name req resp
  else { w with log := w.log ++ [Event.cachePutRejected name req resp] }

/-! ## Synthesised responses -/

/-- A value of the object literals the source serialises: a string or a
boolean. -/
inductive JSValue where
  | str (s : String)
  | bool (b : Bool)
deriving DecidableEq, Repr

/-- Serialisation of one value.  Strings are quoted without escaping, which is
what `JSON.stringify` does for a string with no quote, backslash or control
character. -/
def JSValue.render : JSValue → String
  | .str s => "\"" ++ s ++ "\""
  | .bool true => "true"
  | .bool false => "false"

/-- The function `JSON.stringify` on a flat object literal, given as its fields
in source order. -/
def JSON.stringify (obj : List (String × JSValue)) : String :=
  "\x7b" ++ ",".intercalate (obj.map (fun f => "\"" ++ f.1 ++ "\":" ++ f.2.render)) ++ "\x7d"

/-- The object literal serialised at lines 145-148. -/
def offlineObject : List (String × JSValue) :=
  [("message", .str "Offline - GitHub data unavailable"), ("offline", .bool true)]

/-- The response built at line 119. -/
def offlineContentResponse : Response :=
  { status := 503, headers := [], body := "Offline content not available" }

/-- The response built at lines 145-151. -/
def offlineApiResponse : Response :=
  { status := 503,
    headers := [("Content-Type", "application/json")],
    body := JSON.stringify offlineObject }

/-- The response built at line 154. -/
def networkErrorResponse : Response :=
  { status := 503, headers := [], body := "Network error occurred" }

/-! ## Caching strategies (`src/sw.js`, lines 99-182) -/

/-- The function `cacheFirst(request)`.  The `catch` block is reached when
`fetch` rejects. -/
def cacheFirst (net : Network) (w : World) (request : Request) : Settled × World :=
  let (cachedResponse, w1) := doCachesMatch w request
  match cachedResponse with
  | some cached => (.fulfilled (some cached), w1)
  | none =>
    let (fetched, w2) := doFetch net w1 request
    match fetched with
    | some networkResponse =>
      let w3 :=
        if networkResponse.ok then
          doCachePut (doCachesOpen w2 STATIC_CACHE) STATIC_CACHE request networkResponse.clone
        else w2
      (.fulfilled (some networkResponse), w3)
    | none => (.fulfilled (some offlineContentResponse), w2)

/-- The function `networkFirst(request)`.  The `catch` block is reached when
`fetch` rejects. -/
def networkFirst (net : Network) (w : World) (request : Request) : Settled × World :=
  let (fetched, w1) := doFetch net w request
  match fetched with
  | some networkResponse =>
    let w2 :=
      if networkResponse.ok then
        doCachePut (doCachesOpen w1 DYNAMIC_CACHE) DYNAMIC_CACHE request networkResponse.clone
      else w1
    (.fulfilled (some networkResponse), w2)
  | none =>
    let (cachedResponse, w2) := doCachesMatch w1 request
    match cachedResponse with
    | some cached => (.fulfilled (some cached), w2)
    | none =>
      if includes request.url "api.github.com" then
        (.fulfilled (some offlineApiResponse), w2)
      else
        (.fulfilled (some networkErrorResponse), w2)

/-- The function `staleWhileRevalidate(request)`.  The background fetch is
always started; its `catch` handler turns a rejection into `undefined`. -/
def staleWhileRevalidate (net : Network) (w : World) (request : Request) :
    Settled × World :=
  let w1 := doCachesOpen w DYNAMIC_CACHE
  let (cachedResponse, w2) := doCacheMatch w1 DYNAMIC_CACHE request
  let (fetched, w3) := doFetch net w2 request
  let (fetchResult, w4) : Option Response × World :=
    match fetched with
    | some networkResponse =>
      (some networkResponse,
        if networkResponse.ok then doCachePut w3 DYNAMIC_CACHE request networkResponse.clone
        else w3)
    | none => (none, w3)
  match cachedResponse with
  | some cached => (.fulfilled (some cached), w4)
  | none => (.fulfilled fetchResult, w4)

/-! ## The fetch listener (`src/sw.js`, lines 77-94) -/

/-- The three strategies, as tags. -/
inductive Strategy where
  | networkFirst
  | cacheFirst
  | staleWhileRevalidate
deriving DecidableEq, Repr

/-- The strategy function a tag stands for. -/
def Strategy.run : Strategy → Network → World → Request → Settled × World
  | .networkFirst => ServiceWorker.networkFirst
  | .cacheFirst => ServiceWorker.cacheFirst
  | .staleWhileRevalidate => ServiceWorker.staleWhileRevalidate

/-- What a strategy logs first. -/
def Strategy.firstEvent (s : Strategy) (req : Request) : Event :=
  match s with
  | .networkFirst => Event.fetch req
  | .cacheFirst => Event.cachesMatch req
  | .staleWhileRevalidate => Event.cachesOpen DYNAMIC_CACHE

/-- The call `event.respondWith(promise)`: the event is answered with what the
promise settles to. -/
def respondWith (p : Settled × World) : Option Settled × World := (some p.1, p.2)

/-- The `fetch` listener.  Its result is `none` when the listener returns
without calling `event.respondWith`.  The `new URL(request.url)` of line 79 is
not modelled: its value is never used, and it cannot throw because the `url` of
a `Request` object is always a serialised absolute URL. -/
def onFetch (net : Network) (w : World) (request : Request) : Option Settled × World :=
  if request.method != "GET" then
    (none, w)
  else if isNetworkFirst request.url then
    respondWith (networkFirst net w request)
  else if isStatic request.url then
    respondWith (cacheFirst net w request)
  else
    respondWith (staleWhileRevalidate net w request)

/-- The strategy the if-chain of the listener (lines 87-93) selects for a URL. -/
def classify (url : String) : Strategy :=
  if isNetworkFirst url then .networkFirst
  else if isStatic url then .cacheFirst
  else .staleWhileRevalidate

/-- The suffix rules of `isStatic` (lines 190-196). -/
def endsWithStaticSuffix (url : String) : Bool :=
  endsWith url ".css" || endsWith url ".js" || endsWith url ".png" || endsWith url ".jpg" ||
  endsWith url ".jpeg" || endsWith url ".gif" || endsWith url ".svg"

/-- The host rules of `isStatic` (lines 188-189). -/
def matchesTrustedHost (url : String) : Bool :=
  includes url "fonts.googleapis.com" || includes url "cdnjs.cloudflare.com"

/-! ## Lifecycle handlers (`src/sw.js`, lines 34-74 and 256-272) -/

/-- How the promise handed to `event.waitUntil` settles. -/
inductive Awaited where
  | resolved
  | rejected
deriving DecidableEq, Repr

/-- The request `new Request(url)` that `cache.addAll` builds from a URL string:
a GET request for the URL resolved against the location of the worker. The
resolution is the platform's and is taken as the parameter `resolve`. -/
def newRequest (resolve : String → String) (url : String) : Request :=
  { url := resolve url, method := "GET", headers := [] }

/-- The fetches of `cache.addAll`: the responses paired with their requests when
every fetch resolves with a response that `addAll` accepts, `none` as soon as
one fetch rejects or answers with another response. -/
def fetchAll (net : Network) : List Request → Option (List (Request × Response))
  | [] => some []
  | req :: rest =>
    match net req with
    | some r =>
      if addAllAccepts r then (fetchAll net rest).map (fun es => (req, r) :: es) else none
    | none => none

/-- The fetch of `req` succeeds for `cache.addAll`: it resolves with a response
that `addAll` accepts. -/
def fetchSucceeds (net : Network) (req : Request) : Bool :=
  match net req with
  | some r => addAllAccepts r
  | none => false

/-- The writes of `cache.addAll`, one per fetched entry. -/
def putAll (name : String) (w : World) (entries : List (Request × Response)) : World :=
  entries.foldl (fun acc e => storeEntry acc name e.1 e.2) w

/-- The method `cache.addAll(urls)` on the opened generation `name`: every URL is
fetched; the responses are stored only when all fetches succeeded, otherwise
the promise rejects and nothing is written. -/
def doCacheAddAll (resolve : String → String) (net : Network) (w : World) (name : String)
    (urls : List String) : Awaited × World :=
  let requests := urls.map (newRequest resolve)
  let w1 : World := { w with log := w.log ++ requests.map Event.fetch }
  match fetchAll net requests with
  | some entries => (.resolved, putAll name w1 entries)
  | none => (.rejected, w1)

/-- The storage without the generation called `name`. -/
def CacheStorage.remove (cs : CacheStorage) (name : String) : CacheStorage :=
  cs.filter (fun c => c.1 != name)

/-- Run `caches.delete(name)` and log it. The platform may fail to delete a
generation: `deleteFails name` says that the promise rejects, and then the
generation stays. The result is `true` when the promise resolves. -/
def doCachesDelete (deleteFails : String → Bool) (w : World) (name : String) : Bool × World :=
  if deleteFails name then
    (false, { w with log := w.log ++ [Event.cachesDelete name] })
  else
    (true, { caches := w.caches.remove name, log := w.log ++ [Event.cachesDelete name] })

/-- The `install` listener: the settlement of the promise handed to
`event.waitUntil`, and the world afterwards. A rejection of `cache.addAll` skips
the `then` that calls `skipWaiting` and reaches the `catch` handler, which
writes to the console and returns, so that the promise of the chain is
fulfilled. -/
def onInstall (resolve : String → String) (net : Network) (w : World) : Awaited × World :=
  let w1 := doCachesOpen w STATIC_CACHE
  match doCacheAddAll resolve net w1 STATIC_CACHE STATIC_FILES with
  | (.resolved, w2) => (.resolved, { w2 with log := w2.log ++ [Event.skipWaiting] })
  | (.rejected, w2) => (.resolved, w2)

/-- The callback mapped over the cache names by the `activate` listener (lines
61-66). The first component records whether every `caches.delete` promise so far
resolved. -/
def activateStep (deleteFails : String → Bool) (acc : Bool × World) (cacheName : String) :
    Bool × World :=
  if cacheName != STATIC_CACHE && cacheName != DYNAMIC_CACHE then
    let (ok, w2) := doCachesDelete deleteFails acc.2 cacheName
    (acc.1 && ok, w2)
  else acc

/-- The `activate` listener: the settlement of the promise handed to
`event.waitUntil`, and the world afterwards. Every `caches.delete` is started
before `Promise.all` is awaited; `Promise.all` rejects when one of them rejects,
and then the `then` that calls `clients.claim` is skipped. -/
def onActivate (deleteFails : String → Bool) (w : World) : Awaited × World :=
  let cacheNames := w.caches.map Prod.fst
  let w1 : World := { w with log := w.log ++ [Event.cachesKeys] }
  let (allDeleted, w2) := cacheNames.foldl (activateStep deleteFails) (true, w1)
  if allDeleted then
    (.resolved, { w2 with log := w2.log ++ [Event.clientsClaim] })
  else
    (.rejected, w2)

/-- The function `updateCache()`. -/
def updateCache (resolve : String → String) (net : Network) (w : World) : Awaited × World :=
  let w1 := doCachesOpen w STATIC_CACHE
  doCacheAddAll resolve net w1 STATIC_CACHE STATIC_FILES

/-- The value of `event.data` of a message, when it is truthy: its `type`
property, if it is a string. -/
structure MessageData where
  type : Option String
deriving DecidableEq, Repr

/-- The `message` listener. The first component is the settlement of the promise
handed to `event.waitUntil`, when the listener calls it. -/
def onMessage (resolve : String → String) (net : Network) (w : World)
    (data : Option MessageData) : Option Awaited × World :=
  let w1 : World :=
    match data with
    | some d =>
      if d.type == some "SKIP_WAITING" then { w with log := w.log ++ [Event.skipWaiting] } else w
    | none => w
  match data with
  | some d =>
    if d.type == some "CACHE_UPDATE" then
      let (p, w2) := updateCache resolve net w1
      (some p, w2)
    else (none, w1)
  | none => (none, w1)

/-- The generation names that are neither `STATIC_CACHE` nor `DYNAMIC_CACHE`. -/
def superseded (name : String) : Bool := name != STATIC_CACHE && name != DYNAMIC_CACHE

/-- The names passed to `caches.delete` in a log, in order. -/
def deleteCalls (log : List Event) : List String :=
  log.filterMap (fun e => match e with | .cachesDelete n => some n | _ => none)

/-- The requests passed to `fetch` in a log, in order. -/
def fetchCalls (log : List Event) : List Request :=
  log.filterMap (fun e => match e with | .fetch r => some r | _ => none)

/-! ## Reading the log -/

/-- The number of `fetch` calls in a log. -/
def fetchCount (log : List Event) : Nat :=
  log.countP (fun e => match e with | .fetch _ => true | _ => false)

/-- The cache writes in a log, in order. -/
def cacheWrites (log : List Event) : List Event :=
  log.filter (fun e => match e with | .cachePut _ _ _ => true | _ => false)

/-- The platform calls made between world `w` and the later world `w2`. -/
def newEvents (w w2 : World) : List Event := w2.log.drop w.log.length

/-- The request `req` has an entry in some generation of the storage. -/
def hasEntry (cs : CacheStorage) (req : Request) : Bool :=
  cs.any (fun c => c.2.any (fun e => sameKey e.1 req))

/-! ## Predicates used by the statements -/

/-- Every entry of every generation holds a response in the success range. -/
def allCachedOk (cs : CacheStorage) : Bool :=
  cs.all (fun c => c.2.all (fun e => e.2.ok))

/-- The number of entries a generation holds under the key of `req`. -/
def entriesFor (g : Generation) (req : Request) : Nat :=
  (g.filter (fun e => sameKey e.1 req)).length

/-- The entries of one generation after the writes of `cache.addAll`. -/
def Generation.putAll (g : Generation) (entries : List (Request × Response)) : Generation :=
  entries.foldl (fun acc e => acc.put e.1 e.2) g

/-! ## Sample data used by the concrete checks -/

/-- A GET request for `url`, without headers. -/
def getRequest (url : String) : Request := { url := url, method := "GET", headers := [] }

/-- A successful response with the given body. -/
def okResponse (body : String) : Response := { status := 200, headers := [], body := body }

/-- A request whose method is not GET. -/
def postRequest (url : String) : Request := { url := url, method := "POST", headers := [] }

/-- A partial-content response: status 206, which is in the success range. -/
def partialResponse (body : String) : Response := { status := 206, headers := [], body := body }

/-- The world before anything has been cached or logged. -/
def emptyWorld : World := { caches := [], log := [] }

/-- The network that is down: every fetch rejects. -/
def offline : Network := fun _ => none

/-- The network that answers every request with the same response. -/
def always (r : Response) : Network := fun _ => some r

/-- URL resolution against the origin `origin`: a path is appended to the
origin, an absolute URL is kept. -/
def resolveAt (origin : String) (url : String) : String :=
  if url.data.head? = some '/' then origin ++ url else url

/-- The network on which exactly the requests for `url` fail. -/
def failingOn (url : String) (r : Response) : Network :=
  fun req => if req.url = url then none else some r

/-- A storage holding two generations of an older version next to the current
ones. -/
def twoVersions : World :=
  { caches :=
      [("cesar-static-v0.9.0", [(getRequest "https://cesar.example/", okResponse "old home")]),
        ("cesar-dynamic-v0.9.0", []),
        (STATIC_CACHE, [(getRequest "https://cesar.example/", okResponse "home")]),
        (DYNAMIC_CACHE, [(getRequest "https://cesar.example/blog", okResponse "blog")])],
    log := [] }

end ServiceWorker

/-! ## The page scripts (`src/enhanced-script.js`, `src/script.js`)

The typing animation, the testimonial carousel and the validation of the contact
form. The DOM is reduced to the values the functions write: the text of the
typing element, the offset of the carousel track and the `active` class of the
dots. Timers are not modelled: a call of `type` is one step of the animation. -/

namespace PortfolioPage

/-! ### Typing animation (`src/enhanced-script.js`, lines 122-165) -/

def phrases : List String :=
  [ "Cloud Builder & AWS Enthusiast",
    "Cybersecurity Engineering Student",
    "AI/ML Developer",
    "IBM Cloud Specialist",
    "Maritime Rescue Innovator" ]

/-- The variables of `setupTypingAnimation` and the text content of the typing
element. -/
structure TypingState where
  phraseIndex : Nat
  charIndex : Int
  isDeleting : Bool
  text : String
deriving DecidableEq, Repr

/-- The call `s.substring(0, stop)`: the first `stop` characters; a negative
`stop` counts as 0 and one beyond the length as the length. -/
def substring (s : String) (stop : Int) : String := String.mk (s.data.take stop.toNat)

/-- The state in which `setupTypingAnimation` starts the animation; the element
shows the text of the page. -/
def typingStart (pageText : String) : TypingState :=
  { phraseIndex := 0, charIndex := 0, isDeleting := false, text := pageText }

/-- One call of `type()`. The result is `none` when `phrases[phraseIndex]` is
`undefined`, on which `substring` throws. -/
def type (s : TypingState) : Option TypingState :=
  match phrases.get? s.phraseIndex with
  | none => none
  | some currentPhrase =>
    let text :=
      if s.isDeleting then substring currentPhrase (s.charIndex - 1)
      else substring currentPhrase (s.charIndex + 1)
    let charIndex := if s.isDeleting then s.charIndex - 1 else s.charIndex + 1
    if !s.isDeleting && charIndex == (currentPhrase.length : Int) then
      some { phraseIndex := s.phraseIndex, charIndex := charIndex, isDeleting := true,
             text := text }
    else if s.isDeleting && charIndex == 0 then
      some { phraseIndex := (s.phraseIndex + 1) % phrases.length, charIndex := charIndex,
             isDeleting := false, text := text }
    else
      some { phraseIndex := s.phraseIndex, charIndex := charIndex, isDeleting := s.isDeleting,
             text := text }

/-- The state after `n` calls of `type()`. -/
def typeSteps : Nat → TypingState → Option TypingState
  | 0, s => some s
  | n + 1, s =>
    match type s with
    | some s2 => typeSteps n s2
    | none => none

/-! ### Testimonial carousel (`src/enhanced-script.js`, lines 294-330 and 689-696) -/

/-- The carousel: the number in `this.currentTestimonial`, the percentage `p` of
the track style `translateX(-p%)`, and the `active` class of each dot. -/
structure Carousel where
  currentTestimonial : Int
  translate : Int
  dots : List Bool
deriving DecidableEq, Repr

/-- The method `moveTestimonial(direction)`, for `cards` testimonial cards. -/
def moveTestimonial (cards : Nat) (s : Carousel) (direction : Int) : Carousel :=
  let moved := s.currentTestimonial + direction
  let current :=
    if moved ≥ (cards : Int) then 0
    else if moved < 0 then (cards : Int) - 1
    else moved
  { currentTestimonial := current,
    translate := current * 100,
    dots := (List.range s.dots.length).map (fun (index : Nat) => decide ((index : Int) = current)) }

/-- What the expression `app.currentTestimonial` evaluates to: the method of the
class as long as the object has no own property of that name, the stored number
once line 295 (or `moveTestimonial`) has assigned one. -/
inductive Member where
  | method
  | number (n : Int)
deriving DecidableEq, Repr

/-- The app object, as far as the carousel goes. -/
structure PortfolioApp where
  currentTestimonial : Member
  translate : Int
  dots : List Bool
deriving DecidableEq, Repr

/-- The method `setupTestimonialsCarousel()`: line 295 assigns the own property
`currentTestimonial`. The autoplay timer and the hover listeners are not
modelled. -/
def setupTestimonialsCarousel (app : PortfolioApp) : PortfolioApp :=
  { app with currentTestimonial := Member.number 0 }

/-- The object `new PortfolioApp()`: a fresh object finds `currentTestimonial` on
the class, and the constructor runs `init()`, which calls
`setupTestimonialsCarousel()`. -/
def newPortfolioApp (translate : Int) (dots : List Bool) : PortfolioApp :=
  setupTestimonialsCarousel
    { currentTestimonial := Member.method, translate := translate, dots := dots }

/-- The body of the method `currentTestimonial(index)` (lines 328-329). -/
def currentTestimonialBody (cards : Nat) (app : PortfolioApp) (index : Int) : PortfolioApp :=
  let moved := moveTestimonial cards
    { currentTestimonial := index - 1, translate := app.translate, dots := app.dots } 0
  { currentTestimonial := Member.number moved.currentTestimonial,
    translate := moved.translate,
    dots := moved.dots }

/-- The global function `currentTestimonial(index)`, which evaluates
`app.currentTestimonial(index)`: calling a value that is not a function
throws a `TypeError`. -/
def currentTestimonial (cards : Nat) (app : PortfolioApp) (index : Int) :
    Except String PortfolioApp :=
  match app.currentTestimonial with
  | Member.method => Except.ok (currentTestimonialBody cards app index)
  | Member.number _ => Except.error "TypeError: app.currentTestimonial is not a function"

/-! ### Form validation (`src/script.js`, lines 246-254) -/

/-- The class `\s` of a JavaScript regular expression: white space and line
terminators. -/
def isWhitespace (c : Char) : Bool :=
  let n := c.toNat
  n == 0x09 || n == 0x0A || n == 0x0B || n == 0x0C || n == 0x0D || n == 0x20 || n == 0xA0 ||
  n == 0x1680 || (decide (0x2000 ≤ n) && decide (n ≤ 0x200A)) || n == 0x2028 || n == 0x2029 ||
  n == 0x202F || n == 0x205F || n == 0x3000 || n == 0xFEFF

/-- The characters as the regular expression of `validateForm` tells them
apart. -/
inductive CharClass where
  | at
  | space
  | dot
  | other
deriving DecidableEq, Repr

/-- The class of a character. -/
def charClass (c : Char) : CharClass :=
  if c = '@' then CharClass.at
  else if isWhitespace c then CharClass.space
  else if c = '.' then CharClass.dot
  else CharClass.other

/-- The class `[^\s@]`. -/
def notSpaceAt : RegularExpression CharClass :=
  RegularExpression.char CharClass.dot + RegularExpression.char CharClass.other

/-- The repetition `P+`. -/
def oneOrMore (P : RegularExpression CharClass) : RegularExpression CharClass :=
  P * RegularExpression.star P

/-- The body of `emailRegex`, between `^` and `$`: `[^\s@]+@[^\s@]+\.[^\s@]+`. -/
def emailRegex : RegularExpression CharClass :=
  oneOrMore notSpaceAt * (RegularExpression.char CharClass.at *
    (oneOrMore notSpaceAt * (RegularExpression.char CharClass.dot * oneOrMore notSpaceAt)))

/-- The call `emailRegex.test(s)`: the expression is anchored at both ends, so
the whole string has to match. -/
def emailRegexTest (s : String) : Bool :=
  emailRegex.rmatch (s.data.map charClass)

/-- The property `s.length`: the number of UTF-16 code units. -/
def jsLength (s : String) : Nat :=
  (s.data.map (fun c => if c.toNat < 0x10000 then 1 else 2)).sum

/-- The values the operands of `validateForm` take. -/
inductive Value where
  | str (s : String)
  | bool (b : Bool)
deriving DecidableEq, Repr

/-- Truthiness: the empty string and `false` are falsy. -/
def Value.truthy : Value → Bool
  | Value.str s => !s.data.isEmpty
  | Value.bool b => b

/-- The operator `a && b`. -/
def Value.and (a b : Value) : Value := if a.truthy then b else a

/-- The object `formData`. -/
structure FormData where
  name : String
  email : String
  message : String
deriving DecidableEq, Repr

/-- The function `validateForm(data)`; `&&` associates to the left. -/
def validateForm (data : FormData) : Value :=
  (((((Value.str data.name).and (Value.bool (decide (jsLength data.name ≥ 2)))).and
    (Value.str data.email)).and (Value.bool (emailRegexTest data.email))).and
    (Value.str data.message)).and (Value.bool (decide (jsLength data.message ≥ 10)))

end PortfolioPage

namespace ServiceWorker

/-! ## Lemmas on strings -/

theorem includesChars_iff_occurs (s p : List Char) :
    includesChars s p = true ↔ p <:+: s := by
  induction s with
  | nil => simp [includesChars]
  | cons c s ih => simp [includesChars, ih, List.infix_cons_iff]

theorem includesChars_self (s : List Char) : includesChars s s = true :=
  (includesChars_iff_occurs s s).2 (List.infix_refl s)

theorem includes_self (s : String) : includes s s = true := includesChars_self s.data

theorem isNetworkFirst_eq_true_iff (url : String) :
    isNetworkFirst url = true ↔ ∃ p ∈ NETWORK_FIRST, includes url p = true := by
  simp [isNetworkFirst]

theorem isNetworkFirst_eq_false_iff (url : String) :
    isNetworkFirst url = false ↔ ∀ p ∈ NETWORK_FIRST, includes url p = false := by
  simp [isNetworkFirst]

theorem isStatic_eq (url : String) :
    isStatic url =
      (STATIC_FILES.any (fun file => includes url file) || matchesTrustedHost url ||
        endsWithStaticSuffix url) := by
  simp [isStatic, matchesTrustedHost, endsWithStaticSuffix, Bool.or_assoc]

/-! ## Lemmas on the listener -/

theorem onFetch_get (net : Network) (w : World) (req : Request) (hget : req.method = "GET") :
    onFetch net w req = respondWith ((classify req.url).run net w req) := by
  unfold onFetch classify
  simp only [hget, bne_self_eq_false, Bool.false_eq_true, if_false]
  by_cases h1 : isNetworkFirst req.url = true
  · simp [h1, Strategy.run]
  · by_cases h2 : isStatic req.url = true
    · simp [h1, h2, Strategy.run]
    · simp [h1, h2, Strategy.run]

/-! ## The paths of the strategies -/

theorem cacheFirst_hit (net : Network) (w : World) (req : Request) (c : Response)
    (hc : w.caches.lookupAny req = some c) :
    cacheFirst net w req =
      (.fulfilled (some c), { caches := w.caches, log := w.log ++ [Event.cachesMatch req] }) := by
  simp [cacheFirst, doCachesMatch, hc]

theorem cacheFirst_miss_ok (net : Network) (w : World) (req : Request) (r : Response)
    (hc : w.caches.lookupAny req = none) (hn : net req = some r) (hok : r.ok = true) :
    cacheFirst net w req =
      (.fulfilled (some r),
        { caches :=
            if putAccepted req r then (w.caches.ensure STATIC_CACHE).putIn STATIC_CACHE req r
            else w.caches.ensure STATIC_CACHE,
          log := w.log ++ [Event.cachesMatch req, Event.fetch req, Event.cachesOpen STATIC_CACHE,
            if putAccepted req r then Event.cachePut STATIC_CACHE req r
            else Event.cachePutRejected STATIC_CACHE req r] }) := by
  cases hacc : putAccepted req r <;>
    simp [cacheFirst, doCachesMatch, doFetch, doCachesOpen, doCachePut, storeEntry,
      Response.clone, hc, hn, hok, hacc]

theorem cacheFirst_miss_notOk (net : Network) (w : World) (req : Request) (r : Response)
    (hc : w.caches.lookupAny req = none) (hn : net req = some r) (hok : r.ok = false) :
    cacheFirst net w req =
      (.fulfilled (some r),
        { caches := w.caches, log := w.log ++ [Event.cachesMatch req, Event.fetch req] }) := by
  simp [cacheFirst, doCachesMatch, doFetch, hc, hn, hok]

theorem cacheFirst_miss_fail (net : Network) (w : World) (req : Request)
    (hc : w.caches.lookupAny req = none) (hn : net req = none) :
    cacheFirst net w req =
      (.fulfilled (some offlineContentResponse),
        { caches := w.caches, log := w.log ++ [Event.cachesMatch req, Event.fetch req] }) := by
  simp [cacheFirst, doCachesMatch, doFetch, hc, hn]

theorem networkFirst_ok (net : Network) (w : World) (req : Request) (r : Response)
    (hn : net req = some r) (hok : r.ok = true) :
    networkFirst net w req =
      (.fulfilled (some r),
        { caches :=
            if putAccepted req r then (w.caches.ensure DYNAMIC_CACHE).putIn DYNAMIC_CACHE req r
            else w.caches.ensure DYNAMIC_CACHE,
          log := w.log ++ [Event.fetch req, Event.cachesOpen DYNAMIC_CACHE,
            if putAccepted req r then Event.cachePut DYNAMIC_CACHE req r
            else Event.cachePutRejected DYNAMIC_CACHE req r] }) := by
  cases hacc : putAccepted req r <;>
    simp [networkFirst, doFetch, doCachesOpen, doCachePut, storeEntry, Response.clone, hn, hok,
      hacc]

theorem networkFirst_notOk (net : Network) (w : World) (req : Request) (r : Response)
    (hn : net req = some r) (hok : r.ok = false) :
    networkFirst net w req =
      (.fulfilled (some r), { caches := w.caches, log := w.log ++ [Event.fetch req] }) := by
  simp [networkFirst, doFetch, hn, hok]

theorem networkFirst_fail_hit (net : Network) (w : World) (req : Request) (c : Response)
    (hn : net req = none) (hc : w.caches.lookupAny req = some c) :
    networkFirst net w req =
      (.fulfilled (some c),
        { caches := w.caches, log := w.log ++ [Event.fetch req, Event.cachesMatch req] }) := by
  simp [networkFirst, doFetch, doCachesMatch, hn, hc]

theorem networkFirst_fail_miss (net : Network) (w : World) (req : Request)
    (hn : net req = none) (hc : w.caches.lookupAny req = none) :
    networkFirst net w req =
      (.fulfilled (some (if includes req.url "api.github.com" then offlineApiResponse
          else networkErrorResponse)),
        { caches := w.caches, log := w.log ++ [Event.fetch req, Event.cachesMatch req] }) := by
  by_cases hu : includes req.url "api.github.com" = true <;>
    simp [networkFirst, doFetch, doCachesMatch, hn, hc, hu]

theorem staleWhileRevalidate_ok (net : Network) (w : World) (req : Request) (r : Response)
    (hn : net req = some r) (hok : r.ok = true) :
    staleWhileRevalidate net w req =
      (.fulfilled (some (((w.caches.ensure DYNAMIC_CACHE).lookupIn DYNAMIC_CACHE req).getD r)),
        { caches :=
            if putAccepted req r then (w.caches.ensure DYNAMIC_CACHE).putIn DYNAMIC_CACHE req r
            else w.caches.ensure DYNAMIC_CACHE,
          log := w.log ++ [Event.cachesOpen DYNAMIC_CACHE, Event.cacheMatch DYNAMIC_CACHE req,
            Event.fetch req,
            if putAccepted req r then Event.cachePut DYNAMIC_CACHE req r
            else Event.cachePutRejected DYNAMIC_CACHE req r] }) := by
  cases hc : (w.caches.ensure DYNAMIC_CACHE).lookupIn DYNAMIC_CACHE req <;>
    cases hacc : putAccepted req r <;>
    simp [staleWhileRevalidate, doFetch, doCachesOpen, doCacheMatch, doCachePut, storeEntry,
      Response.clone, hn, hok, hc, hacc]

theorem staleWhileRevalidate_notOk (net : Network) (w : World) (req : Request) (r : Response)
    (hn : net req = some r) (hok : r.ok = false) :
    staleWhileRevalidate net w req =
      (.fulfilled (some (((w.caches.ensure DYNAMIC_CACHE).lookupIn DYNAMIC_CACHE req).getD r)),
        { caches := w.caches.ensure DYNAMIC_CACHE,
          log := w.log ++ [Event.cachesOpen DYNAMIC_CACHE, Event.cacheMatch DYNAMIC_CACHE req,
            Event.fetch req] }) := by
  cases hc : (w.caches.ensure DYNAMIC_CACHE).lookupIn DYNAMIC_CACHE req <;>
    simp [staleWhileRevalidate, doFetch, doCachesOpen, doCacheMatch, hn, hok, hc]

theorem staleWhileRevalidate_fail (net : Network) (w : World) (req : Request)
    (hn : net req = none) :
    staleWhileRevalidate net w req =
      (.fulfilled ((w.caches.ensure DYNAMIC_CACHE).lookupIn DYNAMIC_CACHE req),
        { caches := w.caches.ensure DYNAMIC_CACHE,
          log := w.log ++ [Event.cachesOpen DYNAMIC_CACHE, Event.cacheMatch DYNAMIC_CACHE req,
            Event.fetch req] }) := by
  cases hc : (w.caches.ensure DYNAMIC_CACHE).lookupIn DYNAMIC_CACHE req <;>
    simp [staleWhileRevalidate, doFetch, doCachesOpen, doCacheMatch, hn, hc]

theorem cacheFirst_miss_stored (net : Network) (w : World) (req : Request) (r : Response)
    (hc : w.caches.lookupAny req = none) (hn : net req = some r) (hok : r.ok = true)
    (hacc : putAccepted req r = true) :
    cacheFirst net w req =
      (.fulfilled (some r),
        { caches := (w.caches.ensure STATIC_CACHE).putIn STATIC_CACHE req r,
          log := w.log ++ [Event.cachesMatch req, Event.fetch req, Event.cachesOpen STATIC_CACHE,
            Event.cachePut STATIC_CACHE req r] }) := by
  rw [cacheFirst_miss_ok net w req r hc hn hok]
  simp [hacc]

theorem networkFirst_stored (net : Network) (w : World) (req : Request) (r : Response)
    (hn : net req = some r) (hok : r.ok = true) (hacc : putAccepted req r = true) :
    networkFirst net w req =
      (.fulfilled (some r),
        { caches := (w.caches.ensure DYNAMIC_CACHE).putIn DYNAMIC_CACHE req r,
          log := w.log ++ [Event.fetch req, Event.cachesOpen DYNAMIC_CACHE,
            Event.cachePut DYNAMIC_CACHE req r] }) := by
  rw [networkFirst_ok net w req r hn hok]
  simp [hacc]

theorem staleWhileRevalidate_stored (net : Network) (w : World) (req : Request) (r : Response)
    (hn : net req = some r) (hok : r.ok = true) (hacc : putAccepted req r = true) :
    staleWhileRevalidate net w req =
      (.fulfilled (some (((w.caches.ensure DYNAMIC_CACHE).lookupIn DYNAMIC_CACHE req).getD r)),
        { caches := (w.caches.ensure DYNAMIC_CACHE).putIn DYNAMIC_CACHE req r,
          log := w.log ++ [Event.cachesOpen DYNAMIC_CACHE, Event.cacheMatch DYNAMIC_CACHE req,
            Event.fetch req, Event.cachePut DYNAMIC_CACHE req r] }) := by
  rw [staleWhileRevalidate_ok net w req r hn hok]
  simp [hacc]

theorem networkFirst_log (net : Network) (w : World) (req : Request) :
    ∃ rest, (networkFirst net w req).2.log = w.log ++ Event.fetch req :: rest := by
  cases hn : net req with
  | some r =>
    cases hok : r.ok
    · exact ⟨_, by rw [networkFirst_notOk net w req r hn hok]⟩
    · exact ⟨_, by rw [networkFirst_ok net w req r hn hok]⟩
  | none =>
    cases hc : w.caches.lookupAny req with
    | some c => exact ⟨_, by rw [networkFirst_fail_hit net w req c hn hc]⟩
    | none => exact ⟨_, by rw [networkFirst_fail_miss net w req hn hc]⟩

theorem cacheFirst_log (net : Network) (w : World) (req : Request) :
    ∃ rest, (cacheFirst net w req).2.log = w.log ++ Event.cachesMatch req :: rest := by
  cases hc : w.caches.lookupAny req with
  | some c => exact ⟨_, by rw [cacheFirst_hit net w req c hc]⟩
  | none =>
    cases hn : net req with
    | some r =>
      cases hok : r.ok
      · exact ⟨_, by rw [cacheFirst_miss_notOk net w req r hc hn hok]⟩
      · exact ⟨_, by rw [cacheFirst_miss_ok net w req r hc hn hok]⟩
    | none => exact ⟨_, by rw [cacheFirst_miss_fail net w req hc hn]⟩

theorem staleWhileRevalidate_log (net : Network) (w : World) (req : Request) :
    ∃ rest, (staleWhileRevalidate net w req).2.log =
      w.log ++ Event.cachesOpen DYNAMIC_CACHE :: rest := by
  cases hn : net req with
  | some r =>
    cases hok : r.ok
    · exact ⟨_, by rw [staleWhileRevalidate_notOk net w req r hn hok]⟩
    · exact ⟨_, by rw [staleWhileRevalidate_ok net w req r hn hok]⟩
  | none => exact ⟨_, by rw [staleWhileRevalidate_fail net w req hn]⟩

theorem Strategy.run_log (s : Strategy) (net : Network) (w : World) (req : Request) :
    ∃ rest, (s.run net w req).2.log = w.log ++ s.firstEvent req :: rest := by
  cases s
  · exact networkFirst_log net w req
  · exact cacheFirst_log net w req
  · exact staleWhileRevalidate_log net w req

theorem Strategy.run_injective (net : Network) (w : World) (req : Request) (s t : Strategy)
    (h : respondWith (s.run net w req) = respondWith (t.run net w req)) : s = t := by
  have h2 : (s.run net w req).2.log = (t.run net w req).2.log := by
    have := congrArg (fun p => p.2.log) h
    simpa [respondWith] using this
  obtain ⟨r1, h1⟩ := Strategy.run_log s net w req
  obtain ⟨r2, h3⟩ := Strategy.run_log t net w req
  rw [h1, h3] at h2
  have h4 := List.append_cancel_left h2
  have h5 : s.firstEvent req = t.firstEvent req := (List.cons.inj h4).1
  cases s <;> cases t <;> simp [Strategy.firstEvent] at h5 <;> rfl

/-! ## Lemmas on the cache store -/

theorem sameKey_iff (a b : Request) :
    sameKey a b = true ↔ a.url = b.url ∧ a.method = b.method := by
  simp [sameKey]

theorem sameKey_refl (a : Request) : sameKey a a = true := by simp [sameKey]

theorem sameKey_comm (a b : Request) : sameKey a b = sameKey b a := by
  rw [Bool.eq_iff_iff, sameKey_iff, sameKey_iff]
  constructor <;> rintro ⟨h1, h2⟩ <;> exact ⟨h1.symm, h2.symm⟩

theorem sameKey_congr_left {a b : Request} (h : sameKey a b = true) (c : Request) :
    sameKey a c = sameKey b c := by
  rw [sameKey_iff] at h
  simp [sameKey, h.1, h.2]

theorem Generation.lookup_eq_none_iff (g : Generation) (req : Request) :
    g.lookup req = none ↔ g.any (fun e => sameKey e.1 req) = false := by
  simp [Generation.lookup]

theorem Generation.lookup_some_mem (g : Generation) (req : Request) (r : Response)
    (h : g.lookup req = some r) : ∃ e ∈ g, sameKey e.1 req = true ∧ e.2 = r := by
  unfold Generation.lookup at h
  rw [Option.map_eq_some'] at h
  obtain ⟨e, he, hr⟩ := h
  exact ⟨e, List.mem_of_find?_eq_some he, by simpa using List.find?_some he, hr⟩

theorem CacheStorage.lookupAny_eq_none_iff (cs : CacheStorage) (req : Request) :
    cs.lookupAny req = none ↔ hasEntry cs req = false := by
  induction cs with
  | nil => simp [CacheStorage.lookupAny, hasEntry]
  | cons c cs ih =>
    obtain ⟨n, g⟩ := c
    have hh : hasEntry ((n, g) :: cs) req =
        (g.any (fun e => sameKey e.1 req) || hasEntry cs req) := by
      simp [hasEntry]
    rw [hh]
    unfold CacheStorage.lookupAny
    cases hg : g.lookup req with
    | some r =>
      have : g.any (fun e => sameKey e.1 req) ≠ false := by
        intro hf
        rw [← Generation.lookup_eq_none_iff] at hf
        rw [hf] at hg
        cases hg
      simp [this]
    | none =>
      have : g.any (fun e => sameKey e.1 req) = false :=
        (Generation.lookup_eq_none_iff g req).1 hg
      simp [this, ih]

theorem CacheStorage.lookupAny_some_mem (cs : CacheStorage) (req : Request) (r : Response)
    (h : cs.lookupAny req = some r) :
    ∃ c ∈ cs, ∃ e ∈ c.2, sameKey e.1 req = true ∧ e.2 = r := by
  induction cs with
  | nil => simp [CacheStorage.lookupAny] at h
  | cons c cs ih =>
    obtain ⟨n, g⟩ := c
    unfold CacheStorage.lookupAny at h
    cases hg : g.lookup req with
    | some r2 =>
      rw [hg] at h
      simp only [Option.some.injEq] at h
      subst h
      obtain ⟨e, he, hk, hr⟩ := Generation.lookup_some_mem g req r2 hg
      exact ⟨(n, g), List.mem_cons_self _ _, e, he, hk, hr⟩
    | none =>
      rw [hg] at h
      obtain ⟨c, hc, e, he, hk, hr⟩ := ih h
      exact ⟨c, List.mem_cons_of_mem _ hc, e, he, hk, hr⟩

theorem CacheStorage.lookupAny_isSome_of_hasEntry (cs : CacheStorage) (req : Request)
    (h : hasEntry cs req = true) : ∃ r, cs.lookupAny req = some r := by
  cases hl : cs.lookupAny req with
  | some r => exact ⟨r, rfl⟩
  | none =>
    rw [CacheStorage.lookupAny_eq_none_iff] at hl
    rw [hl] at h
    cases h

theorem Generation.lookup_put_self (g : Generation) (req : Request) (r : Response) :
    (g.put req r).lookup req = some r := by
  unfold Generation.put Generation.lookup
  rw [List.find?_append]
  have : (g.filter (fun e => !sameKey e.1 req)).find? (fun e => sameKey e.1 req) = none := by
    rw [List.find?_eq_none]
    intro e he
    have := (List.mem_filter.1 he).2
    simpa using this
  simp [this, sameKey_refl]

theorem Generation.lookup_put_of_ne (g : Generation) (req k : Request) (r : Response)
    (h : sameKey k req = false) :
    (g.put req r).lookup k = g.lookup k := by
  have h2 : sameKey req k = false := by rw [sameKey_comm]; exact h
  unfold Generation.put Generation.lookup
  rw [List.find?_append]
  have hf : (g.filter (fun e => !sameKey e.1 req)).find? (fun e => sameKey e.1 k) =
      g.find? (fun e => sameKey e.1 k) := by
    induction g with
    | nil => rfl
    | cons e g ih =>
      by_cases he : sameKey e.1 req = true
      · have hk : sameKey e.1 k = false := by rw [sameKey_congr_left he k]; exact h2
        simp [List.filter_cons, he, List.find?_cons, hk, ih]
      · have he2 : sameKey e.1 req = false := by simpa using he
        by_cases hk : sameKey e.1 k = true
        · simp [List.filter_cons, he2, List.find?_cons, hk]
        · have hk2 : sameKey e.1 k = false := by simpa using hk
          simp [List.filter_cons, he2, List.find?_cons, hk2, ih]
  rw [hf]
  cases hg : g.find? (fun e => sameKey e.1 k) with
  | some e => simp
  | none => simp [List.find?_cons, h2]

theorem CacheStorage.generation_ensure_of_ne (cs : CacheStorage) (n name : String)
    (h : name ≠ n) : (cs.ensure n).generation name = cs.generation name := by
  unfold CacheStorage.ensure CacheStorage.generation
  split
  · rfl
  · rw [List.find?_append]
    cases hg : cs.find? (fun c => c.1 == name) with
    | some c => simp
    | none =>
      have : (n == name) = false := by simpa using fun hh => h hh.symm
      simp [List.find?_cons, this]

theorem CacheStorage.generation_ensure_self (cs : CacheStorage) (n : String) :
    (cs.ensure n).generation n = some ((cs.generation n).getD []) := by
  unfold CacheStorage.ensure CacheStorage.generation
  split
  · rename_i h
    rw [List.any_eq_true] at h
    obtain ⟨c, hc, hn⟩ := h
    cases hg : cs.find? (fun c => c.1 == n) with
    | some c => simp
    | none =>
      rw [List.find?_eq_none] at hg
      exact absurd hn (hg c hc)
  · rename_i h
    have hnone : cs.find? (fun c => c.1 == n) = none := by
      rw [List.find?_eq_none]
      intro c hc hn
      exact h (List.any_eq_true.2 ⟨c, hc, hn⟩)
    rw [List.find?_append, hnone]
    simp [List.find?_cons]

theorem CacheStorage.generation_cons (cn : String) (cg : Generation) (cs : CacheStorage)
    (name : String) :
    CacheStorage.generation ((cn, cg) :: cs) name =
      if cn == name then some cg else CacheStorage.generation cs name := by
  unfold CacheStorage.generation
  cases h : (cn == name) <;> simp [List.find?_cons, h]

theorem CacheStorage.putIn_cons (cn : String) (cg : Generation) (cs : CacheStorage)
    (n : String) (req : Request) (r : Response) :
    CacheStorage.putIn ((cn, cg) :: cs) n req r =
      (cn, if cn == n then cg.put req r else cg) :: CacheStorage.putIn cs n req r := by
  unfold CacheStorage.putIn
  by_cases h : cn = n
  · simp [h]
  · simp [h]

theorem CacheStorage.generation_putIn_of_ne (cs : CacheStorage) (n name : String)
    (req : Request) (r : Response) (h : name ≠ n) :
    (cs.putIn n req r).generation name = cs.generation name := by
  induction cs with
  | nil => rfl
  | cons c cs ih =>
    obtain ⟨cn, cg⟩ := c
    rw [CacheStorage.putIn_cons, CacheStorage.generation_cons, CacheStorage.generation_cons, ih]
    cases hcn : (cn == name)
    · rfl
    · have h1 : cn = name := by simpa using hcn
      have h2 : (cn == n) = false := by
        rw [h1]
        simpa using h
      simp [h2]

theorem CacheStorage.generation_putIn_self (cs : CacheStorage) (n : String)
    (req : Request) (r : Response) :
    (cs.putIn n req r).generation n = (cs.generation n).map (fun g => g.put req r) := by
  induction cs with
  | nil => rfl
  | cons c cs ih =>
    obtain ⟨cn, cg⟩ := c
    rw [CacheStorage.putIn_cons, CacheStorage.generation_cons, CacheStorage.generation_cons, ih]
    cases hcn : (cn == n) <;> simp

/-- After `caches.open(n)` and `cache.put(req, r)`, generation `n` answers `req`
with `r`. -/
theorem CacheStorage.lookupIn_open_put_self (cs : CacheStorage) (n : String)
    (req : Request) (r : Response) :
    ((cs.ensure n).putIn n req r).lookupIn n req = some r := by
  unfold CacheStorage.lookupIn
  rw [CacheStorage.generation_putIn_self, CacheStorage.generation_ensure_self]
  simp [Generation.lookup_put_self]

/-- After `caches.open(n)` and `cache.put(req, r)`, generation `n` answers every
other key as before. -/
theorem CacheStorage.lookupIn_open_put_of_ne (cs : CacheStorage) (n : String)
    (req k : Request) (r : Response) (h : sameKey k req = false) :
    ((cs.ensure n).putIn n req r).lookupIn n k = cs.lookupIn n k := by
  unfold CacheStorage.lookupIn
  rw [CacheStorage.generation_putIn_self, CacheStorage.generation_ensure_self]
  cases hg : cs.generation n with
  | some g => simp [Generation.lookup_put_of_ne g req k r h]
  | none =>
    simp only [Option.getD_none, Option.map_some', Option.map_none']
    rw [Generation.lookup_put_of_ne [] req k r h]
    rfl

/-- After `caches.open(n)` and `cache.put(req, r)`, every other generation is
as before. -/
theorem CacheStorage.generation_open_put_of_ne (cs : CacheStorage) (n name : String)
    (req : Request) (r : Response) (h : name ≠ n) :
    ((cs.ensure n).putIn n req r).generation name = cs.generation name := by
  rw [CacheStorage.generation_putIn_of_ne _ _ _ _ _ h, CacheStorage.generation_ensure_of_ne _ _ _ h]

theorem newEvents_append (w : World) (cs : CacheStorage) (evs : List Event) :
    newEvents w { caches := cs, log := w.log ++ evs } = evs := by
  simp [newEvents]

theorem CacheStorage.lookupIn_cons (cn : String) (cg : Generation) (cs : CacheStorage)
    (name : String) (req : Request) :
    CacheStorage.lookupIn ((cn, cg) :: cs) name req =
      if cn == name then cg.lookup req else CacheStorage.lookupIn cs name req := by
  unfold CacheStorage.lookupIn
  rw [CacheStorage.generation_cons]
  cases h : (cn == name) <;> simp

/-- When only generation `name` holds `req`, `caches.match` finds the entry of
that generation. -/
theorem CacheStorage.lookupAny_of_only (cs : CacheStorage) (name : String) (req : Request)
    (r : Response) (honly : ∀ c ∈ cs, c.1 ≠ name → c.2.lookup req = none)
    (h : cs.lookupIn name req = some r) : cs.lookupAny req = some r := by
  induction cs with
  | nil => simp [CacheStorage.lookupIn, CacheStorage.generation] at h
  | cons c cs ih =>
    obtain ⟨cn, cg⟩ := c
    rw [CacheStorage.lookupIn_cons] at h
    unfold CacheStorage.lookupAny
    by_cases hcn : cn = name
    · have h1 : (cn == name) = true := by simpa using hcn
      rw [h1] at h
      simp only [if_true] at h
      rw [h]
    · have h1 : (cn == name) = false := by simpa using hcn
      rw [h1] at h
      simp only [Bool.false_eq_true, if_false] at h
      have hnone : cg.lookup req = none := honly (cn, cg) (List.mem_cons_self _ _) hcn
      rw [hnone]
      exact ih (fun c hc => honly c (List.mem_cons_of_mem _ hc)) h

/-! ## More lemmas on the cache store -/

theorem CacheStorage.lookupIn_ensure (cs : CacheStorage) (n name : String) (req : Request) :
    (cs.ensure n).lookupIn name req = cs.lookupIn name req := by
  unfold CacheStorage.lookupIn
  by_cases h : name = n
  · subst h
    rw [CacheStorage.generation_ensure_self]
    cases hg : cs.generation name with
    | some g => rfl
    | none => rfl
  · rw [CacheStorage.generation_ensure_of_ne cs n name h]

theorem CacheStorage.generation_ensure_of_some (cs : CacheStorage) (n name : String)
    (g : Generation) (h : cs.generation name = some g) :
    (cs.ensure n).generation name = some g := by
  by_cases hn : name = n
  · subst hn
    rw [CacheStorage.generation_ensure_self, h]
    rfl
  · rw [CacheStorage.generation_ensure_of_ne cs n name hn, h]

theorem CacheStorage.lookupIn_eq_none_of_not_hasEntry (cs : CacheStorage) (name : String)
    (req : Request) (h : hasEntry cs req = false) : cs.lookupIn name req = none := by
  induction cs with
  | nil => rfl
  | cons c cs ih =>
    obtain ⟨cn, cg⟩ := c
    have hh : hasEntry ((cn, cg) :: cs) req =
        (cg.any (fun e => sameKey e.1 req) || hasEntry cs req) := by
      simp [hasEntry]
    rw [hh, Bool.or_eq_false_iff] at h
    rw [CacheStorage.lookupIn_cons]
    split
    · exact (Generation.lookup_eq_none_iff cg req).2 h.1
    · exact ih h.2

/-! ## The results of the strategies -/

theorem cacheFirst_returns_response (net : Network) (w : World) (req : Request) :
    ∃ r, (cacheFirst net w req).1 = .fulfilled (some r) := by
  cases hc : w.caches.lookupAny req with
  | some c => exact ⟨c, by rw [cacheFirst_hit net w req c hc]⟩
  | none =>
    cases hn : net req with
    | some r =>
      cases hok : r.ok
      · exact ⟨r, by rw [cacheFirst_miss_notOk net w req r hc hn hok]⟩
      · exact ⟨r, by rw [cacheFirst_miss_ok net w req r hc hn hok]⟩
    | none => exact ⟨_, by rw [cacheFirst_miss_fail net w req hc hn]⟩

theorem networkFirst_returns_response (net : Network) (w : World) (req : Request) :
    ∃ r, (networkFirst net w req).1 = .fulfilled (some r) := by
  cases hn : net req with
  | some r =>
    cases hok : r.ok
    · exact ⟨r, by rw [networkFirst_notOk net w req r hn hok]⟩
    · exact ⟨r, by rw [networkFirst_ok net w req r hn hok]⟩
  | none =>
    cases hc : w.caches.lookupAny req with
    | some c => exact ⟨c, by rw [networkFirst_fail_hit net w req c hn hc]⟩
    | none => exact ⟨_, by rw [networkFirst_fail_miss net w req hn hc]⟩

/-- The strategy `staleWhileRevalidate` is always fulfilled, and with
`undefined` exactly when the fetch rejects and DYNAMIC does not hold the
request. -/
theorem staleWhileRevalidate_undefined_iff (net : Network) (w : World) (req : Request) :
    (staleWhileRevalidate net w req).1 = .fulfilled none ↔
      net req = none ∧ w.caches.lookupIn DYNAMIC_CACHE req = none := by
  cases hn : net req with
  | some r =>
    cases hok : r.ok
    · rw [staleWhileRevalidate_notOk net w req r hn hok]
      simp
    · rw [staleWhileRevalidate_ok net w req r hn hok]
      simp
  | none =>
    rw [staleWhileRevalidate_fail net w req hn, CacheStorage.lookupIn_ensure]
    simp

theorem staleWhileRevalidate_of_cached (net : Network) (w : World) (req : Request)
    (c : Response) (hc : w.caches.lookupIn DYNAMIC_CACHE req = some c) :
    (staleWhileRevalidate net w req).1 = .fulfilled (some c) := by
  have hc2 : (w.caches.ensure DYNAMIC_CACHE).lookupIn DYNAMIC_CACHE req = some c := by
    rw [CacheStorage.lookupIn_ensure]
    exact hc
  cases hn : net req with
  | some r =>
    cases hok : r.ok
    · rw [staleWhileRevalidate_notOk net w req r hn hok, hc2]
      rfl
    · rw [staleWhileRevalidate_ok net w req r hn hok, hc2]
      rfl
  | none => rw [staleWhileRevalidate_fail net w req hn, hc2]

theorem staleWhileRevalidate_of_miss (net : Network) (w : World) (req : Request)
    (r : Response) (hc : w.caches.lookupIn DYNAMIC_CACHE req = none) (hn : net req = some r) :
    (staleWhileRevalidate net w req).1 = .fulfilled (some r) ∧
    (staleWhileRevalidate net w req).2.caches =
      if r.ok && putAccepted req r then
        (w.caches.ensure DYNAMIC_CACHE).putIn DYNAMIC_CACHE req r
      else w.caches.ensure DYNAMIC_CACHE := by
  have hc2 : (w.caches.ensure DYNAMIC_CACHE).lookupIn DYNAMIC_CACHE req = none := by
    rw [CacheStorage.lookupIn_ensure]
    exact hc
  cases hok : r.ok
  · rw [staleWhileRevalidate_notOk net w req r hn hok, hc2]
    simp
  · rw [staleWhileRevalidate_ok net w req r hn hok, hc2]
    simp

/-! ## Lemmas on the activate listener -/

theorem activateStep_eq (deleteFails : String → Bool) (acc : Bool × World) (n : String) :
    activateStep deleteFails acc n =
      if superseded n then
        (acc.1 && !deleteFails n,
          { caches := if deleteFails n then acc.2.caches else acc.2.caches.remove n,
            log := acc.2.log ++ [Event.cachesDelete n] })
      else acc := by
  unfold activateStep superseded doCachesDelete
  by_cases hs : (n != STATIC_CACHE && n != DYNAMIC_CACHE) = true
  · by_cases hf : deleteFails n = true
    · simp [hs, hf]
    · simp [hs, hf]
  · simp [hs]

theorem activate_foldl (deleteFails : String → Bool) (ns : List String) (acc : Bool × World) :
    ns.foldl (activateStep deleteFails) acc =
      (acc.1 && !((ns.filter superseded).any deleteFails),
        { caches := acc.2.caches.filter
            (fun c => !(ns.contains c.1 && superseded c.1 && !deleteFails c.1)),
          log := acc.2.log ++ (ns.filter superseded).map Event.cachesDelete }) := by
  induction ns generalizing acc with
  | nil =>
    obtain ⟨b, w⟩ := acc
    simp
  | cons n ns ih =>
    rw [List.foldl_cons, ih, activateStep_eq]
    by_cases hs : superseded n = true
    · by_cases hf : deleteFails n = true
      · simp only [hs, hf, if_true, List.filter_cons, List.any_cons, List.map_cons,
          Bool.not_true, Bool.and_false, Bool.false_and, Bool.true_or, Bool.not_true,
          List.append_assoc, List.singleton_append]
        congr 2
        apply List.filter_congr
        intro c _
        by_cases hc : c.1 = n
        · simp [hc, hf]
        · simp [List.contains_cons, hc]
      · have hf2 : deleteFails n = false := by simpa using hf
        simp only [hs, hf2, if_true, List.filter_cons, List.any_cons, List.map_cons,
          Bool.not_false, Bool.and_true, Bool.false_or, Bool.false_eq_true, if_false,
          List.append_assoc, List.singleton_append]
        congr 2
        unfold CacheStorage.remove
        rw [List.filter_filter]
        apply List.filter_congr
        intro c _
        by_cases hc : c.1 = n
        · simp [hc, hs, hf2]
        · simp [List.contains_cons, hc]
    · have hs2 : superseded n = false := by simpa using hs
      simp only [hs2, Bool.false_eq_true, if_false, List.filter_cons]
      congr 2
      apply List.filter_congr
      intro c _
      by_cases hc : c.1 = n
      · simp [hc, hs2]
      · simp [List.contains_cons, hc]

/-- The storage the activate listener leaves: a generation goes when it is
superseded and its deletion does not fail. -/
theorem onActivate_eq (deleteFails : String → Bool) (w : World) :
    onActivate deleteFails w =
      if ((w.caches.map Prod.fst).filter superseded).any deleteFails then
        (.rejected,
          { caches := w.caches.filter (fun c => !(superseded c.1 && !deleteFails c.1)),
            log := w.log ++ Event.cachesKeys ::
              ((w.caches.map Prod.fst).filter superseded).map Event.cachesDelete })
      else
        (.resolved,
          { caches := w.caches.filter (fun c => !(superseded c.1 && !deleteFails c.1)),
            log := w.log ++ Event.cachesKeys ::
              (((w.caches.map Prod.fst).filter superseded).map Event.cachesDelete ++
                [Event.clientsClaim]) }) := by
  have hcs : w.caches.filter
        (fun c => !((w.caches.map Prod.fst).contains c.1 && superseded c.1 && !deleteFails c.1)) =
      w.caches.filter (fun c => !(superseded c.1 && !deleteFails c.1)) := by
    apply List.filter_congr
    intro c hc
    have hm : c.1 ∈ w.caches.map Prod.fst := List.mem_map_of_mem Prod.fst hc
    simp [hm]
  unfold onActivate
  simp only [activate_foldl, hcs, Bool.true_and]
  by_cases h : ((w.caches.map Prod.fst).filter superseded).any deleteFails = true
  · simp [h]
  · have h2 : ((w.caches.map Prod.fst).filter superseded).any deleteFails = false := by
      simpa using h
    simp [h2]

theorem deleteCalls_append (l1 l2 : List Event) :
    deleteCalls (l1 ++ l2) = deleteCalls l1 ++ deleteCalls l2 := by
  simp [deleteCalls]

theorem deleteCalls_map (ns : List String) : deleteCalls (ns.map Event.cachesDelete) = ns := by
  induction ns with
  | nil => rfl
  | cons n ns ih =>
    have : deleteCalls (Event.cachesDelete n :: ns.map Event.cachesDelete) =
        n :: deleteCalls (ns.map Event.cachesDelete) := rfl
    rw [List.map_cons, this, ih]

theorem CacheStorage.generation_filter (cs : CacheStorage) (p : String → Bool) (name : String) :
    CacheStorage.generation (cs.filter (fun c => p c.1)) name =
      if p name then cs.generation name else none := by
  induction cs with
  | nil => simp [CacheStorage.generation]
  | cons c cs ih =>
    obtain ⟨cn, cg⟩ := c
    by_cases hp : p cn = true
    · rw [List.filter_cons_of_pos (by simpa using hp), CacheStorage.generation_cons,
        CacheStorage.generation_cons, ih]
      by_cases hn : cn = name
      · subst hn
        simp [hp]
      · have : (cn == name) = false := by simpa using hn
        simp [this]
    · rw [List.filter_cons_of_neg (by simpa using hp), CacheStorage.generation_cons, ih]
      by_cases hn : cn = name
      · subst hn
        simp [hp]
      · have : (cn == name) = false := by simpa using hn
        simp [this]

/-! ## Lemmas on `cache.addAll` -/

theorem fetchAll_eq_none (net : Network) (reqs : List Request)
    (h : ∃ q ∈ reqs, fetchSucceeds net q = false) : fetchAll net reqs = none := by
  induction reqs with
  | nil =>
    obtain ⟨q, hq, _⟩ := h
    cases hq
  | cons a reqs ih =>
    unfold fetchAll
    cases hn : net a with
    | none => rfl
    | some r =>
      cases hok : addAllAccepts r
      · simp [hok]
      · obtain ⟨q, hq, hf⟩ := h
        rcases List.mem_cons.1 hq with rfl | hq2
        · simp [fetchSucceeds, hn, hok] at hf
        · simp [ih ⟨q, hq2, hf⟩]

theorem fetchAll_eq_some (net : Network) (reqs : List Request)
    (h : ∀ q ∈ reqs, fetchSucceeds net q = true) :
    ∃ es, fetchAll net reqs = some es ∧ es.map Prod.fst = reqs ∧
      ∀ e ∈ es, net e.1 = some e.2 := by
  induction reqs with
  | nil => exact ⟨[], rfl, rfl, fun e he => by cases he⟩
  | cons a reqs ih =>
    obtain ⟨es, hes, hmap, hnet⟩ := ih (fun q hq => h q (List.mem_cons_of_mem _ hq))
    have ha := h a (List.mem_cons_self _ _)
    unfold fetchSucceeds at ha
    cases hn : net a with
    | none => simp [hn] at ha
    | some r =>
      rw [hn] at ha
      refine ⟨(a, r) :: es, ?_, ?_, ?_⟩
      · unfold fetchAll
        simp [hn, hes]
        exact ha
      · simp [hmap]
      · intro e he
        rcases List.mem_cons.1 he with rfl | he2
        · exact hn
        · exact hnet e he2

theorem putAll_nil (name : String) (w : World) : putAll name w [] = w := rfl

theorem putAll_cons (name : String) (w : World) (e : Request × Response)
    (es : List (Request × Response)) :
    putAll name w (e :: es) = putAll name (storeEntry w name e.1 e.2) es := rfl

theorem putAll_log (name : String) (w : World) (es : List (Request × Response)) :
    (putAll name w es).log = w.log ++ es.map (fun e => Event.cachePut name e.1 e.2) := by
  induction es generalizing w with
  | nil => simp [putAll_nil]
  | cons e es ih => simp [putAll_cons, ih, storeEntry]

theorem putAll_generation_of_ne (name other : String) (w : World)
    (es : List (Request × Response)) (h : other ≠ name) :
    (putAll name w es).caches.generation other = w.caches.generation other := by
  induction es generalizing w with
  | nil => rfl
  | cons e es ih =>
    rw [putAll_cons, ih]
    exact CacheStorage.generation_putIn_of_ne _ _ _ _ _ h

theorem CacheStorage.lookupIn_putIn (cs : CacheStorage) (n : String) (req k : Request)
    (r : Response) (hgen : (cs.generation n).isSome = true) :
    (cs.putIn n req r).lookupIn n k =
      if sameKey k req then some r else cs.lookupIn n k := by
  unfold CacheStorage.lookupIn
  rw [CacheStorage.generation_putIn_self]
  cases hg : cs.generation n with
  | none => simp [hg] at hgen
  | some g =>
    simp only [Option.map_some']
    by_cases hk : sameKey k req = true
    · rw [if_pos hk]
      unfold Generation.put Generation.lookup
      rw [List.find?_append]
      have hnone : (g.filter (fun e => !sameKey e.1 req)).find? (fun e => sameKey e.1 k) =
          none := by
        rw [List.find?_eq_none]
        intro e he
        have h1 := (List.mem_filter.1 he).2
        have h2 : sameKey e.1 req = false := by simpa using h1
        have h3 : sameKey e.1 k = sameKey e.1 req := by
          rw [sameKey_comm e.1 k, sameKey_comm e.1 req]
          exact sameKey_congr_left hk e.1
        simp [h3, h2]
      have hrk : sameKey req k = true := by rw [sameKey_comm]; exact hk
      simp [hnone, List.find?_cons, hrk]
    · have hk2 : sameKey k req = false := by simpa using hk
      rw [if_neg hk]
      exact Generation.lookup_put_of_ne g req k r hk2

theorem CacheStorage.generation_putIn_isSome (cs : CacheStorage) (n : String) (req : Request)
    (r : Response) (hgen : (cs.generation n).isSome = true) :
    ((cs.putIn n req r).generation n).isSome = true := by
  rw [CacheStorage.generation_putIn_self]
  cases hg : cs.generation n with
  | none => simp [hg] at hgen
  | some g => rfl

theorem sameKey_eq_of_plain (a b : Request) (ha : a.headers = []) (hb : b.headers = [])
    (h : sameKey a b = true) : a = b := by
  rw [sameKey_iff] at h
  cases a
  cases b
  simp_all

/-- After the writes of `cache.addAll`, the generation answers a request that was
written with the response fetched for it, and every other request as before. -/
theorem putAll_lookupIn (net : Network) (name : String) (es : List (Request × Response))
    (w : World) (k : Request)
    (hgen : (w.caches.generation name).isSome = true)
    (hnet : ∀ e ∈ es, net e.1 = some e.2)
    (hplain : ∀ e ∈ es, e.1.headers = []) (hk : k.headers = []) :
    (putAll name w es).caches.lookupIn name k =
      if k ∈ es.map Prod.fst then net k else w.caches.lookupIn name k := by
  induction es generalizing w with
  | nil => simp [putAll_nil]
  | cons e es ih =>
    rw [putAll_cons]
    have hgen2 : ((storeEntry w name e.1 e.2).caches.generation name).isSome = true :=
      CacheStorage.generation_putIn_isSome _ _ _ _ hgen
    rw [ih (storeEntry w name e.1 e.2) hgen2
      (fun x hx => hnet x (List.mem_cons_of_mem _ hx))
      (fun x hx => hplain x (List.mem_cons_of_mem _ hx))]
    have hput : (storeEntry w name e.1 e.2).caches.lookupIn name k =
        if sameKey k e.1 then some e.2 else w.caches.lookupIn name k :=
      CacheStorage.lookupIn_putIn w.caches name e.1 k e.2 hgen
    rw [hput]
    by_cases hmem : k ∈ es.map Prod.fst
    · have : k ∈ (e :: es).map Prod.fst := by
        rw [List.map_cons]
        exact List.mem_cons_of_mem _ hmem
      rw [if_pos hmem, if_pos this]
    · rw [if_neg hmem]
      by_cases hs : sameKey k e.1 = true
      · have hke : k = e.1 :=
          sameKey_eq_of_plain k e.1 hk (hplain e (List.mem_cons_self _ _)) hs
        have : k ∈ (e :: es).map Prod.fst := by
          rw [List.map_cons, hke]
          exact List.mem_cons_self _ _
        rw [if_pos hs, if_pos this, hke]
        exact (hnet e (List.mem_cons_self _ _)).symm
      · have hne : k ≠ e.1 := by
          intro h
          rw [h, sameKey_refl] at hs
          exact hs rfl
        have : k ∉ (e :: es).map Prod.fst := by
          rw [List.map_cons]
          intro hin
          rcases List.mem_cons.1 hin with h1 | h1
          · exact hne h1
          · exact hmem h1
        rw [if_neg hs, if_neg this]

theorem doCacheAddAll_failure (resolve : String → String) (net : Network) (w : World)
    (name : String) (urls : List String)
    (h : ∃ url ∈ urls, fetchSucceeds net (newRequest resolve url) = false) :
    doCacheAddAll resolve net (doCachesOpen w name) name urls =
      (.rejected,
        { caches := w.caches.ensure name,
          log := w.log ++ Event.cachesOpen name ::
            (urls.map (newRequest resolve)).map Event.fetch }) := by
  have hq : ∃ q ∈ urls.map (newRequest resolve), fetchSucceeds net q = false := by
    obtain ⟨url, hu, hf⟩ := h
    exact ⟨newRequest resolve url, List.mem_map_of_mem _ hu, hf⟩
  unfold doCacheAddAll
  simp [fetchAll_eq_none net _ hq, doCachesOpen]

theorem doCacheAddAll_success (resolve : String → String) (net : Network) (w : World)
    (name : String) (urls : List String)
    (h : ∀ url ∈ urls, fetchSucceeds net (newRequest resolve url) = true) :
    ∃ es, es.map Prod.fst = urls.map (newRequest resolve) ∧ (∀ e ∈ es, net e.1 = some e.2) ∧
      doCacheAddAll resolve net (doCachesOpen w name) name urls =
        (.resolved,
          putAll name
            { caches := w.caches.ensure name,
              log := w.log ++ Event.cachesOpen name ::
                (urls.map (newRequest resolve)).map Event.fetch } es) := by
  have hq : ∀ q ∈ urls.map (newRequest resolve), fetchSucceeds net q = true := by
    intro q hq
    obtain ⟨url, hu, rfl⟩ := List.mem_map.1 hq
    exact h url hu
  obtain ⟨es, hes, hmap, hnet⟩ := fetchAll_eq_some net _ hq
  refine ⟨es, hmap, hnet, ?_⟩
  unfold doCacheAddAll
  simp [hes, doCachesOpen]

theorem fetchSucceeds_cases (resolve : String → String) (net : Network) (urls : List String) :
    (∃ url ∈ urls, fetchSucceeds net (newRequest resolve url) = false) ∨
      ∀ url ∈ urls, fetchSucceeds net (newRequest resolve url) = true := by
  by_cases h : ∃ url ∈ urls, fetchSucceeds net (newRequest resolve url) = false
  · exact Or.inl h
  · right
    intro url hu
    cases hf : fetchSucceeds net (newRequest resolve url)
    · exact absurd ⟨url, hu, hf⟩ h
    · rfl

theorem fetchCalls_append (l1 l2 : List Event) :
    fetchCalls (l1 ++ l2) = fetchCalls l1 ++ fetchCalls l2 := by
  simp [fetchCalls]

theorem fetchCalls_map_fetch (reqs : List Request) :
    fetchCalls (reqs.map Event.fetch) = reqs := by
  induction reqs with
  | nil => rfl
  | cons q reqs ih =>
    have : fetchCalls (Event.fetch q :: reqs.map Event.fetch) =
        q :: fetchCalls (reqs.map Event.fetch) := rfl
    rw [List.map_cons, this, ih]

theorem fetchCalls_map_put (name : String) (es : List (Request × Response)) :
    fetchCalls (es.map (fun e => Event.cachePut name e.1 e.2)) = [] := by
  induction es with
  | nil => rfl
  | cons e es ih =>
    have : fetchCalls (Event.cachePut name e.1 e.2 ::
        es.map (fun e => Event.cachePut name e.1 e.2)) =
        fetchCalls (es.map (fun e => Event.cachePut name e.1 e.2)) := rfl
    rw [List.map_cons, this, ih]

theorem cacheWrites_map_fetch (reqs : List Request) :
    cacheWrites (reqs.map Event.fetch) = [] := by
  induction reqs with
  | nil => rfl
  | cons q reqs ih =>
    have : cacheWrites (Event.fetch q :: reqs.map Event.fetch) =
        cacheWrites (reqs.map Event.fetch) := rfl
    rw [List.map_cons, this, ih]

theorem newEvents_of_log (w w2 : World) (evs : List Event) (h : w2.log = w.log ++ evs) :
    newEvents w w2 = evs := by
  simp [newEvents, h]

/-- The bulk population of a generation, as `onInstall` and `updateCache` run it:
what it fetches, what it leaves of the other generations, and what the
generation answers afterwards. -/
theorem populate_spec (resolve : String → String) (net : Network) (w : World)
    (name : String) (urls : List String) :
    fetchCalls (newEvents w (doCacheAddAll resolve net (doCachesOpen w name) name urls).2) =
      urls.map (newRequest resolve) ∧
    (∀ other, other ≠ name →
      (doCacheAddAll resolve net (doCachesOpen w name) name urls).2.caches.generation other =
        w.caches.generation other) ∧
    ((∃ url ∈ urls, fetchSucceeds net (newRequest resolve url) = false) →
      (doCacheAddAll resolve net (doCachesOpen w name) name urls).1 = .rejected ∧
      (doCacheAddAll resolve net (doCachesOpen w name) name urls).2.caches =
        w.caches.ensure name ∧
      cacheWrites
        (newEvents w (doCacheAddAll resolve net (doCachesOpen w name) name urls).2) = []) ∧
    ((∀ url ∈ urls, fetchSucceeds net (newRequest resolve url) = true) →
      (doCacheAddAll resolve net (doCachesOpen w name) name urls).1 = .resolved ∧
      ∀ url ∈ urls,
        (doCacheAddAll resolve net (doCachesOpen w name) name urls).2.caches.lookupIn name
          (newRequest resolve url) = net (newRequest resolve url)) := by
  have hfail : (∃ url ∈ urls, fetchSucceeds net (newRequest resolve url) = false) →
      fetchCalls (newEvents w (doCacheAddAll resolve net (doCachesOpen w name) name urls).2) =
        urls.map (newRequest resolve) ∧
      (∀ other, other ≠ name →
        (doCacheAddAll resolve net (doCachesOpen w name) name urls).2.caches.generation other =
          w.caches.generation other) ∧
      (doCacheAddAll resolve net (doCachesOpen w name) name urls).1 = .rejected ∧
      (doCacheAddAll resolve net (doCachesOpen w name) name urls).2.caches =
        w.caches.ensure name ∧
      cacheWrites
        (newEvents w (doCacheAddAll resolve net (doCachesOpen w name) name urls).2) = [] := by
    intro h
    rw [doCacheAddAll_failure resolve net w name urls h, newEvents_append]
    refine ⟨?_, ?_, rfl, rfl, ?_⟩
    · exact fetchCalls_map_fetch _
    · intro other ho
      exact CacheStorage.generation_ensure_of_ne _ _ _ ho
    · exact cacheWrites_map_fetch _
  have hsucc : (∀ url ∈ urls, fetchSucceeds net (newRequest resolve url) = true) →
      fetchCalls (newEvents w (doCacheAddAll resolve net (doCachesOpen w name) name urls).2) =
        urls.map (newRequest resolve) ∧
      (∀ other, other ≠ name →
        (doCacheAddAll resolve net (doCachesOpen w name) name urls).2.caches.generation other =
          w.caches.generation other) ∧
      (doCacheAddAll resolve net (doCachesOpen w name) name urls).1 = .resolved ∧
      ∀ url ∈ urls,
        (doCacheAddAll resolve net (doCachesOpen w name) name urls).2.caches.lookupIn name
          (newRequest resolve url) = net (newRequest resolve url) := by
    intro h
    obtain ⟨es, hmap, hnet, heq⟩ := doCacheAddAll_success resolve net w name urls h
    rw [heq]
    have hplain : ∀ e ∈ es, e.1.headers = [] := by
      intro e he
      have : e.1 ∈ urls.map (newRequest resolve) := by
        rw [← hmap]
        exact List.mem_map_of_mem _ he
      obtain ⟨url, _, hu⟩ := List.mem_map.1 this
      rw [← hu]
      rfl
    refine ⟨?_, ?_, rfl, ?_⟩
    · rw [newEvents_of_log w _ _ (by rw [putAll_log, List.append_assoc])]
      have hcons : ∀ l, fetchCalls (Event.cachesOpen name :: l) = fetchCalls l := fun _ => rfl
      rw [List.cons_append, hcons, fetchCalls_append, fetchCalls_map_put, List.append_nil]
      exact fetchCalls_map_fetch _
    · intro other ho
      rw [putAll_generation_of_ne _ _ _ _ ho]
      exact CacheStorage.generation_ensure_of_ne _ _ _ ho
    · intro url hu
      rw [putAll_lookupIn net name es _ (newRequest resolve url)
        (by rw [CacheStorage.generation_ensure_self]; rfl) hnet hplain rfl]
      rw [if_pos (by rw [hmap]; exact List.mem_map_of_mem _ hu)]
  rcases fetchSucceeds_cases resolve net urls with h | h
  · obtain ⟨h1, h2, h3, h4, h5⟩ := hfail h
    refine ⟨h1, h2, fun _ => ⟨h3, h4, h5⟩, fun hall => ?_⟩
    obtain ⟨url, hu, hf⟩ := h
    rw [hall url hu] at hf
    cases hf
  · obtain ⟨h1, h2, h3, h4⟩ := hsucc h
    refine ⟨h1, h2, fun hex => ?_, fun _ => ⟨h3, h4⟩⟩
    obtain ⟨url, hu, hf⟩ := hex
    rw [h url hu] at hf
    cases hf

/-! ## Lemmas on the install listener -/

theorem onInstall_unfold (resolve : String → String) (net : Network) (w : World) :
    onInstall resolve net w =
      match doCacheAddAll resolve net (doCachesOpen w STATIC_CACHE) STATIC_CACHE STATIC_FILES with
      | (.resolved, w2) => (.resolved, { w2 with log := w2.log ++ [Event.skipWaiting] })
      | (.rejected, w2) => (.resolved, w2) := rfl

theorem onInstall_failure (resolve : String → String) (net : Network) (w : World)
    (h : ∃ url ∈ STATIC_FILES, fetchSucceeds net (newRequest resolve url) = false) :
    onInstall resolve net w =
      (.resolved,
        { caches := w.caches.ensure STATIC_CACHE,
          log := w.log ++ Event.cachesOpen STATIC_CACHE ::
            (STATIC_FILES.map (newRequest resolve)).map Event.fetch }) := by
  rw [onInstall_unfold, doCacheAddAll_failure resolve net w STATIC_CACHE STATIC_FILES h]

theorem onInstall_caches (resolve : String → String) (net : Network) (w : World) :
    (onInstall resolve net w).2.caches =
      (doCacheAddAll resolve net (doCachesOpen w STATIC_CACHE) STATIC_CACHE
        STATIC_FILES).2.caches := by
  rw [onInstall_unfold]
  rcases doCacheAddAll resolve net (doCachesOpen w STATIC_CACHE) STATIC_CACHE STATIC_FILES
    with ⟨a, w2⟩
  cases a <;> rfl

theorem onInstall_resolved (resolve : String → String) (net : Network) (w : World) :
    (onInstall resolve net w).1 = .resolved := by
  rw [onInstall_unfold]
  rcases doCacheAddAll resolve net (doCachesOpen w STATIC_CACHE) STATIC_CACHE STATIC_FILES
    with ⟨a, w2⟩
  cases a <;> rfl

/-! ## Lemmas on the message listener -/

theorem updateCache_log (resolve : String → String) (net : Network) (w : World) :
    ∃ es : List (Request × Response),
      (updateCache resolve net w).2.log =
        w.log ++ Event.cachesOpen STATIC_CACHE ::
          ((STATIC_FILES.map (newRequest resolve)).map Event.fetch ++
            es.map (fun e => Event.cachePut STATIC_CACHE e.1 e.2)) := by
  have hu : updateCache resolve net w =
      doCacheAddAll resolve net (doCachesOpen w STATIC_CACHE) STATIC_CACHE STATIC_FILES := rfl
  rcases fetchSucceeds_cases resolve net STATIC_FILES with h | h
  · refine ⟨[], ?_⟩
    rw [hu, doCacheAddAll_failure resolve net w STATIC_CACHE STATIC_FILES h]
    simp
  · obtain ⟨es, _, _, heq⟩ := doCacheAddAll_success resolve net w STATIC_CACHE STATIC_FILES h
    refine ⟨es, ?_⟩
    rw [hu, heq, putAll_log]
    simp

theorem startsWith_includes_slash (url p : String) (hp : includes p "/" = true)
    (h : startsWith url p = true) : includes url "/" = true := by
  unfold includes at hp ⊢
  rw [includesChars_iff_occurs] at hp ⊢
  unfold startsWith at h
  rw [List.isPrefixOf_iff_prefix] at h
  exact hp.trans h.isInfix

/-! ## Lemmas on the invariant of the cached statuses -/

theorem allCachedOk_iff (cs : CacheStorage) :
    allCachedOk cs = true ↔ ∀ c ∈ cs, ∀ e ∈ c.2, e.2.ok = true := by
  simp [allCachedOk, List.all_eq_true]

theorem allCachedOk_ensure (cs : CacheStorage) (n : String) (h : allCachedOk cs = true) :
    allCachedOk (cs.ensure n) = true := by
  rw [allCachedOk_iff] at h ⊢
  unfold CacheStorage.ensure
  split
  · exact h
  · intro c hc e he
    rcases List.mem_append.1 hc with h1 | h1
    · exact h c h1 e he
    · rw [List.mem_singleton] at h1
      rw [h1] at he
      cases he

theorem allCachedOk_putIn (cs : CacheStorage) (n : String) (req : Request) (r : Response)
    (h : allCachedOk cs = true) (hok : r.ok = true) :
    allCachedOk (cs.putIn n req r) = true := by
  rw [allCachedOk_iff] at h ⊢
  intro c hc e he
  unfold CacheStorage.putIn at hc
  obtain ⟨c0, hc0, hceq⟩ := List.mem_map.1 hc
  by_cases hn : (c0.1 == n) = true
  · rw [if_pos hn] at hceq
    rw [← hceq] at he
    unfold Generation.put at he
    rcases List.mem_append.1 he with h1 | h1
    · exact h c0 hc0 e (List.mem_filter.1 h1).1
    · rw [List.mem_singleton] at h1
      rw [h1]
      exact hok
  · rw [if_neg hn] at hceq
    rw [← hceq] at he
    exact h c0 hc0 e he

theorem allCachedOk_filter (cs : CacheStorage) (p : String × Generation → Bool)
    (h : allCachedOk cs = true) : allCachedOk (cs.filter p) = true := by
  rw [allCachedOk_iff] at h ⊢
  intro c hc e he
  exact h c (List.mem_filter.1 hc).1 e he

theorem allCachedOk_putAll (name : String) (w : World) (es : List (Request × Response))
    (h : allCachedOk w.caches = true) (hok : ∀ e ∈ es, e.2.ok = true) :
    allCachedOk (putAll name w es).caches = true := by
  induction es generalizing w with
  | nil => exact h
  | cons e es ih =>
    rw [putAll_cons]
    apply ih
    · exact allCachedOk_putIn w.caches name e.1 e.2 h (hok e (List.mem_cons_self _ _))
    · intro x hx
      exact hok x (List.mem_cons_of_mem _ hx)

theorem allCachedOk_doCacheAddAll (resolve : String → String) (net : Network) (w : World)
    (name : String) (urls : List String) (h : allCachedOk w.caches = true) :
    allCachedOk (doCacheAddAll resolve net (doCachesOpen w name) name urls).2.caches = true := by
  rcases fetchSucceeds_cases resolve net urls with hf | hs
  · rw [doCacheAddAll_failure resolve net w name urls hf]
    exact allCachedOk_ensure w.caches name h
  · obtain ⟨es, hmap, hnet, heq⟩ := doCacheAddAll_success resolve net w name urls hs
    rw [heq]
    apply allCachedOk_putAll
    · exact allCachedOk_ensure w.caches name h
    · intro e he
      have hmem : e.1 ∈ urls.map (newRequest resolve) := by
        rw [← hmap]
        exact List.mem_map_of_mem _ he
      obtain ⟨url, hu, hq⟩ := List.mem_map.1 hmem
      have := hs url hu
      rw [hq] at this
      unfold fetchSucceeds at this
      rw [hnet e he] at this
      simp only [addAllAccepts, Bool.and_eq_true] at this
      exact this.1.1

theorem allCachedOk_cacheFirst (net : Network) (w : World) (req : Request)
    (h : allCachedOk w.caches = true) : allCachedOk (cacheFirst net w req).2.caches = true := by
  cases hc : w.caches.lookupAny req with
  | some c =>
    rw [cacheFirst_hit net w req c hc]
    exact h
  | none =>
    cases hn : net req with
    | some r =>
      cases hok : r.ok
      · rw [cacheFirst_miss_notOk net w req r hc hn hok]
        exact h
      · rw [cacheFirst_miss_ok net w req r hc hn hok]
        show allCachedOk (if putAccepted req r then _ else _) = true
        split
        · exact allCachedOk_putIn _ _ _ _ (allCachedOk_ensure _ _ h) hok
        · exact allCachedOk_ensure _ _ h
    | none =>
      rw [cacheFirst_miss_fail net w req hc hn]
      exact h

theorem allCachedOk_networkFirst (net : Network) (w : World) (req : Request)
    (h : allCachedOk w.caches = true) : allCachedOk (networkFirst net w req).2.caches = true := by
  cases hn : net req with
  | some r =>
    cases hok : r.ok
    · rw [networkFirst_notOk net w req r hn hok]
      exact h
    · rw [networkFirst_ok net w req r hn hok]
      show allCachedOk (if putAccepted req r then _ else _) = true
      split
      · exact allCachedOk_putIn _ _ _ _ (allCachedOk_ensure _ _ h) hok
      · exact allCachedOk_ensure _ _ h
  | none =>
    cases hc : w.caches.lookupAny req with
    | some c =>
      rw [networkFirst_fail_hit net w req c hn hc]
      exact h
    | none =>
      rw [networkFirst_fail_miss net w req hn hc]
      exact h

theorem allCachedOk_staleWhileRevalidate (net : Network) (w : World) (req : Request)
    (h : allCachedOk w.caches = true) :
    allCachedOk (staleWhileRevalidate net w req).2.caches = true := by
  cases hn : net req with
  | some r =>
    cases hok : r.ok
    · rw [staleWhileRevalidate_notOk net w req r hn hok]
      exact allCachedOk_ensure _ _ h
    · rw [staleWhileRevalidate_ok net w req r hn hok]
      show allCachedOk (if putAccepted req r then _ else _) = true
      split
      · exact allCachedOk_putIn _ _ _ _ (allCachedOk_ensure _ _ h) hok
      · exact allCachedOk_ensure _ _ h
  | none =>
    rw [staleWhileRevalidate_fail net w req hn]
    exact allCachedOk_ensure _ _ h

theorem allCachedOk_updateCache (resolve : String → String) (net : Network) (w : World)
    (h : allCachedOk w.caches = true) :
    allCachedOk (updateCache resolve net w).2.caches = true :=
  allCachedOk_doCacheAddAll resolve net w STATIC_CACHE STATIC_FILES h

theorem allCachedOk_onMessage (resolve : String → String) (net : Network) (w : World)
    (data : Option MessageData) (h : allCachedOk w.caches = true) :
    allCachedOk (onMessage resolve net w data).2.caches = true := by
  cases data with
  | none => exact h
  | some d =>
    by_cases h1 : d.type = some "SKIP_WAITING"
    · have : onMessage resolve net w (some d) =
          (none, { caches := w.caches, log := w.log ++ [Event.skipWaiting] }) := by
        simp [onMessage, h1]
      rw [this]
      exact h
    · by_cases h2 : d.type = some "CACHE_UPDATE"
      · have : onMessage resolve net w (some d) =
            (some (updateCache resolve net w).1, (updateCache resolve net w).2) := by
          simp [onMessage, h2]
        rw [this]
        exact allCachedOk_updateCache resolve net w h
      · have : onMessage resolve net w (some d) = (none, w) := by
          simp [onMessage, h1, h2]
        rw [this]
        exact h

theorem allCachedOk_onActivate (deleteFails : String → Bool) (w : World)
    (h : allCachedOk w.caches = true) :
    allCachedOk (onActivate deleteFails w).2.caches = true := by
  rw [onActivate_eq]
  split <;> exact allCachedOk_filter _ _ h

/-! ## Lemmas on repeated population -/

theorem Generation.putAll_empty (g : Generation) : Generation.putAll g [] = g := rfl

theorem Generation.putAll_step (g : Generation) (e : Request × Response)
    (es : List (Request × Response)) :
    Generation.putAll g (e :: es) = Generation.putAll (g.put e.1 e.2) es := rfl

theorem putAll_caches (name : String) (w : World) (es : List (Request × Response)) :
    (putAll name w es).caches =
      w.caches.map (fun c => if c.1 == name then (c.1, Generation.putAll c.2 es) else c) := by
  induction es generalizing w with
  | nil =>
    rw [putAll_nil]
    have : (fun c : String × Generation =>
        if c.1 == name then (c.1, Generation.putAll c.2 []) else c) = id := by
      funext c
      by_cases h : (c.1 == name) = true <;> simp [h, Generation.putAll_empty]
    rw [this, List.map_id]
  | cons e es ih =>
    rw [putAll_cons, ih]
    have hc : (storeEntry w name e.1 e.2).caches = w.caches.putIn name e.1 e.2 := rfl
    rw [hc]
    unfold CacheStorage.putIn
    rw [List.map_map]
    apply List.map_congr_left
    intro c _
    by_cases h : (c.1 == name) = true
    · simp [Function.comp, h, Generation.putAll_step]
    · simp [Function.comp, h]

/-- With pairwise different keys, the writes of `cache.addAll` drop the old
entries stored under those keys and append the new entries in order. -/
theorem Generation.putAll_eq (g : Generation) (es : List (Request × Response))
    (hpw : es.Pairwise (fun a b => sameKey a.1 b.1 = false)) :
    Generation.putAll g es =
      g.filter (fun x => es.all (fun e => !sameKey x.1 e.1)) ++ es := by
  induction es generalizing g with
  | nil => simp [Generation.putAll_empty]
  | cons e es ih =>
    rw [Generation.putAll_step, ih _ (List.pairwise_cons.1 hpw).2]
    unfold Generation.put
    rw [List.filter_append, List.filter_filter]
    have he : [(e.1, e.2)].filter (fun x => es.all (fun y => !sameKey x.1 y.1)) =
        [(e.1, e.2)] := by
      rw [List.filter_eq_self]
      intro x hx
      rw [List.mem_singleton] at hx
      rw [hx, List.all_eq_true]
      intro y hy
      simp [(List.pairwise_cons.1 hpw).1 y hy]
    rw [he]
    have hf : g.filter (fun x => es.all (fun y => !sameKey x.1 y.1) && !sameKey x.1 e.1) =
        g.filter (fun x => (e :: es).all (fun y => !sameKey x.1 y.1)) := by
      apply List.filter_congr
      intro x _
      simp [List.all_cons, Bool.and_comm]
    rw [hf]
    simp

theorem Generation.putAll_idempotent (g : Generation) (es : List (Request × Response))
    (hpw : es.Pairwise (fun a b => sameKey a.1 b.1 = false)) :
    Generation.putAll (Generation.putAll g es) es = Generation.putAll g es := by
  rw [Generation.putAll_eq _ es hpw, Generation.putAll_eq g es hpw, List.filter_append,
    List.filter_filter]
  have h1 : es.filter (fun x => es.all (fun e => !sameKey x.1 e.1)) = [] := by
    rw [List.filter_eq_nil_iff]
    intro x hx hall
    rw [List.all_eq_true] at hall
    have := hall x hx
    simp [sameKey_refl] at this
  rw [h1, List.append_nil]
  congr 1
  apply List.filter_congr
  intro x _
  simp

theorem entriesFor_of_pairwise (es : List (Request × Response)) (q : Request)
    (hpw : es.Pairwise (fun a b => sameKey a.1 b.1 = false))
    (hq : q ∈ es.map Prod.fst) : entriesFor es q = 1 := by
  induction es with
  | nil => cases hq
  | cons e es ih =>
    obtain ⟨hhead, htail⟩ := List.pairwise_cons.1 hpw
    unfold entriesFor at ih ⊢
    rw [List.map_cons] at hq
    by_cases he : e.1 = q
    · have hrest : es.filter (fun x => sameKey x.1 q) = [] := by
        rw [List.filter_eq_nil_iff]
        intro x hx hs
        have h1 := hhead x hx
        rw [he, sameKey_comm] at h1
        rw [h1] at hs
        cases hs
      rw [List.filter_cons_of_pos (by rw [he]; exact sameKey_refl q), hrest]
      rfl
    · have hq2 : q ∈ es.map Prod.fst := by
        rcases List.mem_cons.1 hq with h1 | h1
        · exact absurd h1.symm he
        · exact h1
      obtain ⟨y, hy, hyq⟩ := List.mem_map.1 hq2
      have hne : sameKey e.1 q = false := by
        rw [← hyq]
        exact hhead y hy
      rw [List.filter_cons_of_neg (by simp [hne])]
      exact ih htail hq2

theorem fetchAll_congr (net1 net2 : Network) (reqs : List Request)
    (h : ∀ q ∈ reqs, net2 q = net1 q) : fetchAll net2 reqs = fetchAll net1 reqs := by
  induction reqs with
  | nil => rfl
  | cons a reqs ih =>
    unfold fetchAll
    rw [h a (List.mem_cons_self _ _), ih (fun q hq => h q (List.mem_cons_of_mem _ hq))]

theorem CacheStorage.ensure_of_any (cs : CacheStorage) (n : String)
    (h : cs.any (fun c => c.1 == n) = true) : cs.ensure n = cs := by
  unfold CacheStorage.ensure
  rw [if_pos h]

theorem CacheStorage.any_ensure (cs : CacheStorage) (n : String) :
    (cs.ensure n).any (fun c => c.1 == n) = true := by
  unfold CacheStorage.ensure
  split
  · assumption
  · simp

theorem CacheStorage.ensure_ensure (cs : CacheStorage) (n : String) :
    (cs.ensure n).ensure n = cs.ensure n :=
  CacheStorage.ensure_of_any _ _ (CacheStorage.any_ensure cs n)

theorem doCacheAddAll_of_some (resolve : String → String) (net : Network) (w : World)
    (name : String) (urls : List String) (es : List (Request × Response))
    (h : fetchAll net (urls.map (newRequest resolve)) = some es) :
    doCacheAddAll resolve net w name urls =
      (.resolved,
        putAll name
          { caches := w.caches,
            log := w.log ++ (urls.map (newRequest resolve)).map Event.fetch } es) := by
  unfold doCacheAddAll
  simp [h]

theorem doCacheAddAll_of_none (resolve : String → String) (net : Network) (w : World)
    (name : String) (urls : List String)
    (h : fetchAll net (urls.map (newRequest resolve)) = none) :
    doCacheAddAll resolve net w name urls =
      (.rejected,
        { caches := w.caches,
          log := w.log ++ (urls.map (newRequest resolve)).map Event.fetch }) := by
  unfold doCacheAddAll
  simp [h]

theorem CacheStorage.generation_map_putAll (cs : CacheStorage) (name : String)
    (es : List (Request × Response)) :
    CacheStorage.generation
        (cs.map (fun c => if c.1 == name then (c.1, Generation.putAll c.2 es) else c)) name =
      (cs.generation name).map (fun g => Generation.putAll g es) := by
  induction cs with
  | nil => rfl
  | cons c cs ih =>
    obtain ⟨cn, cg⟩ := c
    rw [List.map_cons]
    by_cases h : (cn == name) = true
    · simp only [h, if_true]
      rw [CacheStorage.generation_cons, CacheStorage.generation_cons]
      simp [h]
    · have h2 : (cn == name) = false := by simpa using h
      simp only [h2, Bool.false_eq_true, if_false]
      rw [CacheStorage.generation_cons, CacheStorage.generation_cons, ih]
      simp [h2]

theorem CacheStorage.any_map_putAll (cs : CacheStorage) (name n : String)
    (es : List (Request × Response)) :
    (cs.map (fun c => if c.1 == name then (c.1, Generation.putAll c.2 es) else c)).any
        (fun c => c.1 == n) = cs.any (fun c => c.1 == n) := by
  induction cs with
  | nil => rfl
  | cons c cs ih =>
    rw [List.map_cons, List.any_cons, List.any_cons, ih]
    by_cases h : (c.1 == name) = true
    · simp [h]
    · simp [h]

theorem manifest_entries_pairwise (resolve : String → String) (urls : List String)
    (es : List (Request × Response))
    (hnodup : (urls.map resolve).Nodup)
    (hmap : es.map Prod.fst = urls.map (newRequest resolve)) :
    es.Pairwise (fun a b => sameKey a.1 b.1 = false) := by
  have h1 : (es.map (fun e => e.1.url)).Nodup := by
    have : es.map (fun e => e.1.url) = urls.map resolve := by
      have h2 : es.map (fun e => e.1.url) = (es.map Prod.fst).map (fun q => q.url) := by
        rw [List.map_map]
        rfl
      rw [h2, hmap, List.map_map]
      rfl
    rw [this]
    exact hnodup
  unfold List.Nodup at h1
  rw [List.pairwise_map] at h1
  refine h1.imp ?_
  intro a b hne
  cases hs : sameKey a.1 b.1
  · rfl
  · exact absurd ((sameKey_iff a.1 b.1).1 hs).1 hne

/-- Running the bulk population a second time, on a network that answers the
URLs as the first time, leaves the storage as the first run left it. -/
theorem populate_twice (resolve : String → String) (net1 net2 : Network) (w : World)
    (name : String) (urls : List String)
    (hnodup : (urls.map resolve).Nodup)
    (hsame : ∀ url ∈ urls, net2 (newRequest resolve url) = net1 (newRequest resolve url)) :
    (doCacheAddAll resolve net2
        (doCachesOpen (doCacheAddAll resolve net1 (doCachesOpen w name) name urls).2 name)
        name urls).2.caches =
      (doCacheAddAll resolve net1 (doCachesOpen w name) name urls).2.caches ∧
    ((∀ url ∈ urls, fetchSucceeds net1 (newRequest resolve url) = true) →
      ∃ g, (doCacheAddAll resolve net1 (doCachesOpen w name) name
          urls).2.caches.generation name = some g ∧
        ∀ url ∈ urls, entriesFor g (newRequest resolve url) = 1) := by
  have hcongr : fetchAll net2 (urls.map (newRequest resolve)) =
      fetchAll net1 (urls.map (newRequest resolve)) := by
    apply fetchAll_congr
    intro q hq
    obtain ⟨url, hu, rfl⟩ := List.mem_map.1 hq
    exact hsame url hu
  cases hf : fetchAll net1 (urls.map (newRequest resolve)) with
  | none =>
    rw [doCacheAddAll_of_none resolve net1 _ name urls hf]
    rw [doCacheAddAll_of_none resolve net2 _ name urls (hcongr.trans hf)]
    refine ⟨?_, ?_⟩
    · exact CacheStorage.ensure_ensure w.caches name
    · intro hall
      obtain ⟨es, hes, _, _⟩ := fetchAll_eq_some net1 (urls.map (newRequest resolve))
        (fun q hq => by
          obtain ⟨url, hu, rfl⟩ := List.mem_map.1 hq
          exact hall url hu)
      rw [hf] at hes
      cases hes
  | some es =>
    have hmap : es.map Prod.fst = urls.map (newRequest resolve) := by
      have hall : ∀ q ∈ urls.map (newRequest resolve), fetchSucceeds net1 q = true := by
        intro q hq
        cases hq1 : fetchSucceeds net1 q
        · rw [fetchAll_eq_none net1 _ ⟨q, hq, hq1⟩] at hf
          cases hf
        · rfl
      obtain ⟨es2, hes2, hmap2, _⟩ := fetchAll_eq_some net1 _ hall
      rw [hf] at hes2
      cases hes2
      exact hmap2
    have hpw := manifest_entries_pairwise resolve urls es hnodup hmap
    rw [doCacheAddAll_of_some resolve net1 _ name urls es hf]
    rw [doCacheAddAll_of_some resolve net2 _ name urls es (hcongr.trans hf)]
    have hfirst : ∀ l : List Event,
        (putAll name { caches := (doCachesOpen w name).caches, log := l } es).caches =
          (w.caches.ensure name).map
            (fun c => if c.1 == name then (c.1, Generation.putAll c.2 es) else c) := by
      intro l
      rw [putAll_caches]
      rfl
    have hens : CacheStorage.ensure ((w.caches.ensure name).map
        (fun c => if c.1 == name then (c.1, Generation.putAll c.2 es) else c)) name =
        (w.caches.ensure name).map
          (fun c => if c.1 == name then (c.1, Generation.putAll c.2 es) else c) := by
      apply CacheStorage.ensure_of_any
      rw [CacheStorage.any_map_putAll]
      exact CacheStorage.any_ensure w.caches name
    refine ⟨?_, ?_⟩
    · rw [putAll_caches, hfirst]
      show List.map _ (CacheStorage.ensure (putAll name _ es).caches name) = _
      rw [hfirst, hens, List.map_map]
      apply List.map_congr_left
      intro c _
      by_cases h : (c.1 == name) = true
      · simp [Function.comp, h, Generation.putAll_idempotent c.2 es hpw]
      · simp [Function.comp, h]
    · intro _
      have hgen : (doCachesOpen w name).caches.generation name =
          some ((w.caches.generation name).getD []) :=
        CacheStorage.generation_ensure_self w.caches name
      refine ⟨Generation.putAll ((w.caches.generation name).getD []) es, ?_, ?_⟩
      · rw [hfirst, CacheStorage.generation_map_putAll]
        show Option.map _ ((doCachesOpen w name).caches.generation name) = _
        rw [hgen]
        rfl
      · intro url hu
        have hq : newRequest resolve url ∈ es.map Prod.fst := by
          rw [hmap]
          exact List.mem_map_of_mem _ hu
        rw [Generation.putAll_eq _ es hpw]
        unfold entriesFor
        rw [List.filter_append, List.length_append, List.filter_filter]
        have h0 : ((w.caches.generation name).getD []).filter
            (fun x => sameKey x.1 (newRequest resolve url) &&
              es.all (fun e => !sameKey x.1 e.1)) = [] := by
          rw [List.filter_eq_nil_iff]
          intro x _ hx
          rw [Bool.and_eq_true, List.all_eq_true] at hx
          obtain ⟨y, hy, hyq⟩ := List.mem_map.1 hq
          have := hx.2 y hy
          rw [hyq, hx.1] at this
          cases this
        rw [h0, List.length_nil, Nat.zero_add]
        exact entriesFor_of_pairwise es (newRequest resolve url) hpw hq

/-! ## The classification made by the fetch listener -/

/-- C1. A GET request whose URL contains a `NETWORK_FIRST` pattern is answered
by `networkFirst`; nothing is assumed about `STATIC_FILES` or `isStatic`, so the
network-first rule wins over every static rule. -/
theorem onFetch_networkFirst (net : Network) (w : World) (req : Request)
    (hget : req.method = "GET")
    (hpat : ∃ p ∈ NETWORK_FIRST, includes req.url p = true) :
    onFetch net w req = respondWith (networkFirst net w req) := by
  have h : isNetworkFirst req.url = true := (isNetworkFirst_eq_true_iff req.url).2 hpat
  rw [onFetch_get net w req hget]
  simp [classify, h, Strategy.run]

/-- Witness for C1: a GitHub API URL that also satisfies `isStatic` is served
network-first. -/
theorem onFetch_networkFirst_witness :
    isStatic "https://api.github.com/users/Ceskard26/style.css" = true ∧
    onFetch offline emptyWorld (getRequest "https://api.github.com/users/Ceskard26/style.css") =
      respondWith
        (networkFirst offline emptyWorld
          (getRequest "https://api.github.com/users/Ceskard26/style.css")) :=
  ⟨by decide,
   onFetch_networkFirst offline emptyWorld
     (getRequest "https://api.github.com/users/Ceskard26/style.css") rfl
     ⟨"https://api.github.com/", by decide, by decide⟩⟩

/-- C2. A GET request whose URL is a member of `STATIC_FILES` and contains no
`NETWORK_FIRST` pattern is answered by `cacheFirst`. -/
theorem onFetch_manifest_cacheFirst (net : Network) (w : World) (req : Request)
    (hget : req.method = "GET")
    (hmem : req.url ∈ STATIC_FILES)
    (hpat : ∀ p ∈ NETWORK_FIRST, includes req.url p = false) :
    onFetch net w req = respondWith (cacheFirst net w req) := by
  have h1 : isNetworkFirst req.url = false := (isNetworkFirst_eq_false_iff req.url).2 hpat
  have h2 : isStatic req.url = true := by
    rw [isStatic_eq]
    have : STATIC_FILES.any (fun file => includes req.url file) = true :=
      List.any_eq_true.2 ⟨req.url, hmem, includes_self req.url⟩
    simp [this]
  rw [onFetch_get net w req hget]
  simp [classify, h1, h2, Strategy.run]

/-- Witness for C2: the Font Awesome style sheet of the manifest. -/
theorem onFetch_manifest_cacheFirst_witness :
    onFetch offline emptyWorld
        (getRequest "https://cdnjs.cloudflare.com/ajax/libs/font-awesome/6.4.0/css/all.min.css") =
      respondWith (cacheFirst offline emptyWorld
        (getRequest "https://cdnjs.cloudflare.com/ajax/libs/font-awesome/6.4.0/css/all.min.css")) :=
  onFetch_manifest_cacheFirst offline emptyWorld
    (getRequest "https://cdnjs.cloudflare.com/ajax/libs/font-awesome/6.4.0/css/all.min.css") rfl
    (by decide) (by decide)

/-- C3 at its failing input: `https://example.com/about` contains no
`NETWORK_FIRST` pattern, is not a member of `STATIC_FILES`, has no static
suffix and no trusted host, and the listener nevertheless answers it with
`cacheFirst`: the manifest entry `/` is a substring of the URL. With a stale
copy of the page in DYNAMIC and the network up, the listener serves the stale
copy without any fetch and without refreshing it, where
`staleWhileRevalidate` would fetch the page and store the fresh copy. -/
theorem onFetch_about_not_staleWhileRevalidate :
    isNetworkFirst "https://example.com/about" = false ∧
    "https://example.com/about" ∉ STATIC_FILES ∧
    endsWithStaticSuffix "https://example.com/about" = false ∧
    matchesTrustedHost "https://example.com/about" = false ∧
    includes "https://example.com/about" "/" = true ∧
    classify "https://example.com/about" = Strategy.cacheFirst ∧
    onFetch (always (okResponse "fresh"))
        { caches := [(DYNAMIC_CACHE, [(getRequest "https://example.com/about", okResponse "stale")])],
          log := [] }
        (getRequest "https://example.com/about") =
      (some (.fulfilled (some (okResponse "stale"))),
        { caches := [(DYNAMIC_CACHE, [(getRequest "https://example.com/about", okResponse "stale")])],
          log := [Event.cachesMatch (getRequest "https://example.com/about")] }) ∧
    staleWhileRevalidate (always (okResponse "fresh"))
        { caches := [(DYNAMIC_CACHE, [(getRequest "https://example.com/about", okResponse "stale")])],
          log := [] }
        (getRequest "https://example.com/about") =
      (.fulfilled (some (okResponse "stale")),
        { caches := [(DYNAMIC_CACHE, [(getRequest "https://example.com/about", okResponse "fresh")])],
          log := [Event.cachesOpen DYNAMIC_CACHE,
            Event.cacheMatch DYNAMIC_CACHE (getRequest "https://example.com/about"),
            Event.fetch (getRequest "https://example.com/about"),
            Event.cachePut DYNAMIC_CACHE (getRequest "https://example.com/about")
              (okResponse "fresh")] }) := by
  refine ⟨by decide, by decide, by decide, by decide, by decide, by decide, by decide, by decide⟩

/-- C4. The listener is a total dispatch. A request whose method is not GET gets
no response and leaves the world (caches and log) untouched. A GET request gets
a response: the listener responds with the promise of the strategy `classify`
computes from the URL alone, reaches the world that strategy reaches, and does
so for no other strategy. The listener supplies no response exactly when the
method is not GET. -/
theorem onFetch_dispatch (net : Network) (w : World) (req : Request) :
    (req.method ≠ "GET" → onFetch net w req = (none, w)) ∧
    (req.method = "GET" →
      (onFetch net w req).1 = some ((classify req.url).run net w req).1 ∧
      (onFetch net w req).2 = ((classify req.url).run net w req).2 ∧
      (onFetch net w req = (some (networkFirst net w req).1, (networkFirst net w req).2) ∨
        onFetch net w req = (some (cacheFirst net w req).1, (cacheFirst net w req).2) ∨
        onFetch net w req =
          (some (staleWhileRevalidate net w req).1, (staleWhileRevalidate net w req).2)) ∧
      ∀ s : Strategy,
        onFetch net w req = (some (s.run net w req).1, (s.run net w req).2) →
          s = classify req.url) ∧
    ((onFetch net w req).1 = none ↔ req.method ≠ "GET") := by
  have hget : req.method = "GET" →
      onFetch net w req =
        (some ((classify req.url).run net w req).1, ((classify req.url).run net w req).2) := by
    intro h
    rw [onFetch_get net w req h]
    rfl
  refine ⟨?_, ?_, ?_⟩
  · intro h
    simp [onFetch, h]
  · intro h
    refine ⟨by rw [hget h], by rw [hget h], ?_, ?_⟩
    · rw [hget h]
      cases classify req.url
      · exact Or.inl rfl
      · exact Or.inr (Or.inl rfl)
      · exact Or.inr (Or.inr rfl)
    · intro s hs
      rw [hget h] at hs
      exact (Strategy.run_injective net w req _ s hs).symm
  · constructor
    · intro h1 h2
      rw [hget h2] at h1
      cases h1
    · intro h
      simp [onFetch, h]

/-- Witness for C4: a POST request is not answered and nothing is called; a GET
request for the same URL is answered with the live response the chosen strategy
fetched. -/
theorem onFetch_dispatch_witness :
    onFetch (always (okResponse "x")) emptyWorld (postRequest "https://example.com/form") =
      (none, emptyWorld) ∧
    (onFetch (always (okResponse "x")) emptyWorld (getRequest "https://example.com/form")).1 =
      some (.fulfilled (some (okResponse "x"))) ∧
    (onFetch (always (okResponse "x")) emptyWorld (getRequest "https://example.com/form")).1 ≠
      none :=
  ⟨(onFetch_dispatch (always (okResponse "x")) emptyWorld
      (postRequest "https://example.com/form")).1 (by decide),
   ((onFetch_dispatch (always (okResponse "x")) emptyWorld
      (getRequest "https://example.com/form")).2.1 rfl).1.trans (by decide),
   fun h => ((onFetch_dispatch (always (okResponse "x")) emptyWorld
      (getRequest "https://example.com/form")).2.2.1 h) rfl⟩

/-! ## The cache-first strategy -/

/-- C5. When some generation holds an entry for the request, `cacheFirst`
returns the snapshot `caches.match` finds, which is an entry stored under the
request; it makes no network fetch and no cache write and leaves the caches as
they were, for every network. -/
theorem cacheFirst_cached (net : Network) (w : World) (req : Request)
    (hent : hasEntry w.caches req = true) :
    (∃ c ∈ w.caches, ∃ e ∈ c.2, sameKey e.1 req = true ∧
      (cacheFirst net w req).1 = .fulfilled (some e.2)) ∧
    (cacheFirst net w req).1 = .fulfilled (w.caches.lookupAny req) ∧
    (cacheFirst net w req).2.caches = w.caches ∧
    fetchCount (newEvents w (cacheFirst net w req).2) = 0 ∧
    cacheWrites (newEvents w (cacheFirst net w req).2) = [] := by
  obtain ⟨r, hr⟩ := CacheStorage.lookupAny_isSome_of_hasEntry w.caches req hent
  obtain ⟨c, hc, e, he, hk, hre⟩ := CacheStorage.lookupAny_some_mem w.caches req r hr
  rw [cacheFirst_hit net w req r hr, newEvents_append]
  refine ⟨⟨c, hc, e, he, hk, by rw [hre]⟩, by rw [hr], rfl, rfl, rfl⟩

/-- Witness for C5: a cached page is served from the cache although the network
would answer with a fresh copy. -/
theorem cacheFirst_cached_witness :
    (cacheFirst (always (okResponse "fresh"))
        { caches := [(STATIC_CACHE, [(getRequest "/styles.css", okResponse "cached")])],
          log := [] }
        (getRequest "/styles.css")).1 = .fulfilled (some (okResponse "cached")) ∧
    fetchCount (newEvents
        { caches := [(STATIC_CACHE, [(getRequest "/styles.css", okResponse "cached")])],
          log := [] }
        (cacheFirst (always (okResponse "fresh"))
          { caches := [(STATIC_CACHE, [(getRequest "/styles.css", okResponse "cached")])],
            log := [] }
          (getRequest "/styles.css")).2) = 0 :=
  ⟨(cacheFirst_cached (always (okResponse "fresh"))
      { caches := [(STATIC_CACHE, [(getRequest "/styles.css", okResponse "cached")])],
        log := [] }
      (getRequest "/styles.css") (by decide)).2.1,
   (cacheFirst_cached (always (okResponse "fresh"))
      { caches := [(STATIC_CACHE, [(getRequest "/styles.css", okResponse "cached")])],
        log := [] }
      (getRequest "/styles.css") (by decide)).2.2.2.1⟩

/-- C6, as stated, fails: a partial-content response (status 206) is in the
success range, and when the fetch of a request that no generation holds
resolves with it, `cacheFirst` returns it but no entry is written: the platform
refuses the `put`, and STATIC does not answer the request afterwards. -/
theorem cacheFirst_partial_content_not_stored :
    hasEntry emptyWorld.caches (getRequest "https://cesar.example/styles.css") = false ∧
    (partialResponse "part").ok = true ∧
    (cacheFirst (always (partialResponse "part")) emptyWorld
        (getRequest "https://cesar.example/styles.css")).1 =
      .fulfilled (some (partialResponse "part")) ∧
    cacheWrites (newEvents emptyWorld
      (cacheFirst (always (partialResponse "part")) emptyWorld
        (getRequest "https://cesar.example/styles.css")).2) = [] ∧
    (cacheFirst (always (partialResponse "part")) emptyWorld
        (getRequest "https://cesar.example/styles.css")).2.caches.lookupIn STATIC_CACHE
        (getRequest "https://cesar.example/styles.css") = none ∧
    newEvents emptyWorld
      (cacheFirst (always (partialResponse "part")) emptyWorld
        (getRequest "https://cesar.example/styles.css")).2 =
      [Event.cachesMatch (getRequest "https://cesar.example/styles.css"),
        Event.fetch (getRequest "https://cesar.example/styles.css"),
        Event.cachesOpen STATIC_CACHE,
        Event.cachePutRejected STATIC_CACHE (getRequest "https://cesar.example/styles.css")
          (partialResponse "part")] := by
  refine ⟨by decide, by decide, by decide, by decide, by decide, by decide⟩

/-- C6, amended. When no generation holds the request, the fetch resolves with
a response in the success range and the platform accepts the write (a GET
request for an http(s) URL, a response that is neither partial content nor
`Vary: *`), `cacheFirst` returns that response; the only cache write is one
`put` of the request and the response into STATIC, after which STATIC answers
the request with that response, answers every other key as before, and every
other generation (DYNAMIC among them) is unchanged. -/
theorem cacheFirst_miss_success (net : Network) (w : World) (req : Request) (resp : Response)
    (habs : hasEntry w.caches req = false) (hn : net req = some resp)
    (hok : resp.ok = true) (hacc : putAccepted req resp = true) :
    (cacheFirst net w req).1 = .fulfilled (some resp) ∧
    cacheWrites (newEvents w (cacheFirst net w req).2) =
      [Event.cachePut STATIC_CACHE req resp] ∧
    (cacheFirst net w req).2.caches.lookupIn STATIC_CACHE req = some resp ∧
    (∀ k, sameKey k req = false →
      (cacheFirst net w req).2.caches.lookupIn STATIC_CACHE k =
        w.caches.lookupIn STATIC_CACHE k) ∧
    (∀ name, name ≠ STATIC_CACHE →
      (cacheFirst net w req).2.caches.generation name = w.caches.generation name) ∧
    (cacheFirst net w req).2.caches.generation DYNAMIC_CACHE =
      w.caches.generation DYNAMIC_CACHE := by
  have hc : w.caches.lookupAny req = none :=
    (CacheStorage.lookupAny_eq_none_iff w.caches req).2 habs
  rw [cacheFirst_miss_stored net w req resp hc hn hok hacc, newEvents_append]
  refine ⟨rfl, rfl, ?_, ?_, ?_, ?_⟩
  · exact CacheStorage.lookupIn_open_put_self _ _ _ _
  · intro k hk
    exact CacheStorage.lookupIn_open_put_of_ne _ _ _ _ _ hk
  · intro name hname
    exact CacheStorage.generation_open_put_of_ne _ _ _ _ _ hname
  · exact CacheStorage.generation_open_put_of_ne _ _ _ _ _ (by decide)

/-- Witness for the amended C6: a first visit to the style sheet with the
network up. -/
theorem cacheFirst_miss_success_witness :
    (cacheFirst (always (okResponse "fresh")) emptyWorld
        (getRequest "https://cesar.example/styles.css")).1 =
      .fulfilled (some (okResponse "fresh")) ∧
    cacheWrites (newEvents emptyWorld
      (cacheFirst (always (okResponse "fresh")) emptyWorld
        (getRequest "https://cesar.example/styles.css")).2) =
      [Event.cachePut STATIC_CACHE (getRequest "https://cesar.example/styles.css")
        (okResponse "fresh")] ∧
    (cacheFirst (always (okResponse "fresh")) emptyWorld
        (getRequest "https://cesar.example/styles.css")).2.caches.lookupIn STATIC_CACHE
        (getRequest "https://cesar.example/styles.css") =
      some (okResponse "fresh") :=
  ⟨(cacheFirst_miss_success (always (okResponse "fresh")) emptyWorld
      (getRequest "https://cesar.example/styles.css")
      (okResponse "fresh") (by decide) rfl (by decide) (by decide)).1,
   (cacheFirst_miss_success (always (okResponse "fresh")) emptyWorld
      (getRequest "https://cesar.example/styles.css")
      (okResponse "fresh") (by decide) rfl (by decide) (by decide)).2.1,
   (cacheFirst_miss_success (always (okResponse "fresh")) emptyWorld
      (getRequest "https://cesar.example/styles.css")
      (okResponse "fresh") (by decide) rfl (by decide) (by decide)).2.2.1⟩

/-- C7. When no generation holds the request and the fetch rejects,
`cacheFirst` is fulfilled with the synthesised response of status 503 and body
`Offline content not available`, and no cache generation changes. -/
theorem cacheFirst_miss_offline (net : Network) (w : World) (req : Request)
    (habs : hasEntry w.caches req = false) (hn : net req = none) :
    (cacheFirst net w req).1 =
      .fulfilled (some { status := 503, headers := [], body := "Offline content not available" }) ∧
    (cacheFirst net w req).1 ≠ .rejected ∧
    (cacheFirst net w req).2.caches = w.caches ∧
    cacheWrites (newEvents w (cacheFirst net w req).2) = [] := by
  have hc : w.caches.lookupAny req = none :=
    (CacheStorage.lookupAny_eq_none_iff w.caches req).2 habs
  rw [cacheFirst_miss_fail net w req hc hn, newEvents_append]
  refine ⟨rfl, ?_, rfl, rfl⟩
  intro h
  cases h

/-- Witness for C7: a first visit to the style sheet with the network down. -/
theorem cacheFirst_miss_offline_witness :
    (cacheFirst offline emptyWorld (getRequest "/styles.css")).1 =
      .fulfilled (some { status := 503, headers := [], body := "Offline content not available" }) :=
  (cacheFirst_miss_offline offline emptyWorld (getRequest "/styles.css") (by decide) rfl).1

/-! ## The network-first strategy -/

/-- C8, as stated, fails: with an older list in DYNAMIC, a fetch that resolves
with a partial-content response (status 206, in the success range) is returned
by `networkFirst`, but no clone is stored: the platform refuses the `put`, and
DYNAMIC still answers the request with the older list. -/
theorem networkFirst_partial_content_not_stored :
    (partialResponse "part").ok = true ∧
    (networkFirst (always (partialResponse "part"))
        { caches := [(DYNAMIC_CACHE,
            [(getRequest "https://api.github.com/users/Ceskard26/repos", okResponse "old")])],
          log := [] }
        (getRequest "https://api.github.com/users/Ceskard26/repos")).1 =
      .fulfilled (some (partialResponse "part")) ∧
    (networkFirst (always (partialResponse "part"))
        { caches := [(DYNAMIC_CACHE,
            [(getRequest "https://api.github.com/users/Ceskard26/repos", okResponse "old")])],
          log := [] }
        (getRequest "https://api.github.com/users/Ceskard26/repos")).2 =
      { caches := [(DYNAMIC_CACHE,
          [(getRequest "https://api.github.com/users/Ceskard26/repos", okResponse "old")])],
        log := [Event.fetch (getRequest "https://api.github.com/users/Ceskard26/repos"),
          Event.cachesOpen DYNAMIC_CACHE,
          Event.cachePutRejected DYNAMIC_CACHE
            (getRequest "https://api.github.com/users/Ceskard26/repos")
            (partialResponse "part")] } ∧
    CacheStorage.lookupIn
        [(DYNAMIC_CACHE,
          [(getRequest "https://api.github.com/users/Ceskard26/repos", okResponse "old")])]
        DYNAMIC_CACHE (getRequest "https://api.github.com/users/Ceskard26/repos") =
      some (okResponse "old") ∧
    okResponse "old" ≠ partialResponse "part" := by
  refine ⟨by decide, by decide, by decide, by decide, by decide⟩

/-- C8, amended. The first platform call of `networkFirst` is the fetch of the
request, and it is its only fetch, whatever the caches hold. When that fetch
resolves with a response in the success range, `networkFirst` returns it and
every generation other than DYNAMIC (STATIC among them) is unchanged; when in
addition the platform accepts the write (a GET request for an http(s) URL, a
response that is neither partial content nor `Vary: *`), the only cache write is
one `put` of the request and the response into DYNAMIC, and DYNAMIC then
answers the request with that response. -/
theorem networkFirst_fetches_first (net : Network) (w : World) (req : Request) :
    (∃ rest, newEvents w (networkFirst net w req).2 = Event.fetch req :: rest ∧
      fetchCount rest = 0) ∧
    fetchCount (newEvents w (networkFirst net w req).2) = 1 ∧
    (∀ resp, net req = some resp → resp.ok = true →
      (networkFirst net w req).1 = .fulfilled (some resp) ∧
      (networkFirst net w req).2.caches.generation STATIC_CACHE =
        w.caches.generation STATIC_CACHE ∧
      (∀ name, name ≠ DYNAMIC_CACHE →
        (networkFirst net w req).2.caches.generation name = w.caches.generation name) ∧
      (putAccepted req resp = true →
        cacheWrites (newEvents w (networkFirst net w req).2) =
          [Event.cachePut DYNAMIC_CACHE req resp] ∧
        (networkFirst net w req).2.caches.lookupIn DYNAMIC_CACHE req = some resp)) := by
  refine ⟨?_, ?_, ?_⟩
  · cases hn : net req with
    | some r =>
      cases hok : r.ok
      · rw [networkFirst_notOk net w req r hn hok, newEvents_append]
        exact ⟨_, rfl, rfl⟩
      · rw [networkFirst_ok net w req r hn hok, newEvents_append]
        refine ⟨_, rfl, ?_⟩
        cases putAccepted req r <;> rfl
    | none =>
      cases hc : w.caches.lookupAny req with
      | some c =>
        rw [networkFirst_fail_hit net w req c hn hc, newEvents_append]
        exact ⟨_, rfl, rfl⟩
      | none =>
        rw [networkFirst_fail_miss net w req hn hc, newEvents_append]
        exact ⟨_, rfl, rfl⟩
  · cases hn : net req with
    | some r =>
      cases hok : r.ok
      · rw [networkFirst_notOk net w req r hn hok, newEvents_append]
        rfl
      · rw [networkFirst_ok net w req r hn hok, newEvents_append]
        cases putAccepted req r <;> rfl
    | none =>
      cases hc : w.caches.lookupAny req with
      | some c =>
        rw [networkFirst_fail_hit net w req c hn hc, newEvents_append]
        rfl
      | none =>
        rw [networkFirst_fail_miss net w req hn hc, newEvents_append]
        rfl
  · intro resp hn hok
    refine ⟨?_, ?_, ?_, ?_⟩
    · rw [networkFirst_ok net w req resp hn hok]
    · rw [networkFirst_ok net w req resp hn hok]
      show CacheStorage.generation (if putAccepted req resp then _ else _) STATIC_CACHE = _
      split
      · exact CacheStorage.generation_open_put_of_ne _ _ _ _ _ (by decide)
      · exact CacheStorage.generation_ensure_of_ne _ _ _ (by decide)
    · intro name hname
      rw [networkFirst_ok net w req resp hn hok]
      show CacheStorage.generation (if putAccepted req resp then _ else _) name = _
      split
      · exact CacheStorage.generation_open_put_of_ne _ _ _ _ _ hname
      · exact CacheStorage.generation_ensure_of_ne _ _ _ hname
    · intro hacc
      rw [networkFirst_stored net w req resp hn hok hacc, newEvents_append]
      exact ⟨rfl, CacheStorage.lookupIn_open_put_self _ _ _ _⟩

/-- Witness for the amended C8: the repository list is already cached, the
network answers with a fresh list, and the fresh list is returned and stored in
DYNAMIC. -/
theorem networkFirst_fetches_first_witness :
    (networkFirst (always (okResponse "fresh"))
        { caches := [(DYNAMIC_CACHE,
            [(getRequest "https://api.github.com/users/Ceskard26/repos", okResponse "old")])],
          log := [] }
        (getRequest "https://api.github.com/users/Ceskard26/repos")).1 =
      .fulfilled (some (okResponse "fresh")) ∧
    (networkFirst (always (okResponse "fresh"))
        { caches := [(DYNAMIC_CACHE,
            [(getRequest "https://api.github.com/users/Ceskard26/repos", okResponse "old")])],
          log := [] }
        (getRequest "https://api.github.com/users/Ceskard26/repos")).2.caches.lookupIn
        DYNAMIC_CACHE (getRequest "https://api.github.com/users/Ceskard26/repos") =
      some (okResponse "fresh") :=
  ⟨((networkFirst_fetches_first (always (okResponse "fresh"))
      { caches := [(DYNAMIC_CACHE,
          [(getRequest "https://api.github.com/users/Ceskard26/repos", okResponse "old")])],
        log := [] }
      (getRequest "https://api.github.com/users/Ceskard26/repos")).2.2
        (okResponse "fresh") rfl (by decide)).1,
   (((networkFirst_fetches_first (always (okResponse "fresh"))
      { caches := [(DYNAMIC_CACHE,
          [(getRequest "https://api.github.com/users/Ceskard26/repos", okResponse "old")])],
        log := [] }
      (getRequest "https://api.github.com/users/Ceskard26/repos")).2.2
        (okResponse "fresh") rfl (by decide)).2.2.2 (by decide)).2⟩

/-- C9, as stated, fails: with the network down and DYNAMIC empty, a GitHub API
request that STATIC holds is answered with the STATIC snapshot (status 200),
not with the 503 offline payload. -/
theorem networkFirst_api_offline_static_hit :
    includes (getRequest "https://api.github.com/users/Ceskard26/repos").url
      "api.github.com" = true ∧
    offline (getRequest "https://api.github.com/users/Ceskard26/repos") = none ∧
    CacheStorage.generation
      [(STATIC_CACHE,
          [(getRequest "https://api.github.com/users/Ceskard26/repos", okResponse "repos")]),
        (DYNAMIC_CACHE, [])] DYNAMIC_CACHE = some [] ∧
    (networkFirst offline
        { caches :=
            [(STATIC_CACHE,
                [(getRequest "https://api.github.com/users/Ceskard26/repos", okResponse "repos")]),
              (DYNAMIC_CACHE, [])],
          log := [] }
        (getRequest "https://api.github.com/users/Ceskard26/repos")).1 =
      .fulfilled (some { status := 200, headers := [], body := "repos" }) ∧
    (networkFirst offline
        { caches :=
            [(STATIC_CACHE,
                [(getRequest "https://api.github.com/users/Ceskard26/repos", okResponse "repos")]),
              (DYNAMIC_CACHE, [])],
          log := [] }
        (getRequest "https://api.github.com/users/Ceskard26/repos")).1 ≠
      .fulfilled (some offlineApiResponse) := by
  refine ⟨by decide, rfl, by decide, by decide, by decide⟩

/-- C9, amended. For a request whose URL contains `api.github.com`, when the
fetch rejects and no generation at all holds the request, `networkFirst` is
fulfilled with a response of status 503, header `Content-Type:
application/json` and the serialisation of an object whose field `offline` is
`true`. -/
theorem networkFirst_api_offline (net : Network) (w : World) (req : Request)
    (hurl : includes req.url "api.github.com" = true) (hn : net req = none)
    (habs : hasEntry w.caches req = false) :
    (networkFirst net w req).1 =
      .fulfilled (some
        { status := 503,
          headers := [("Content-Type", "application/json")],
          body := JSON.stringify offlineObject }) ∧
    List.lookup "offline" offlineObject = some (JSValue.bool true) ∧
    JSON.stringify offlineObject =
      "\x7b\"message\":\"Offline - GitHub data unavailable\",\"offline\":true\x7d" := by
  have hc : w.caches.lookupAny req = none :=
    (CacheStorage.lookupAny_eq_none_iff w.caches req).2 habs
  rw [networkFirst_fail_miss net w req hn hc, hurl]
  exact ⟨rfl, by decide, by decide⟩

/-- Witness for the amended C9: the repository list, nothing cached, network
down. -/
theorem networkFirst_api_offline_witness :
    (networkFirst offline emptyWorld
        (getRequest "https://api.github.com/users/Ceskard26/repos")).1 =
      .fulfilled (some
        { status := 503,
          headers := [("Content-Type", "application/json")],
          body := JSON.stringify offlineObject }) :=
  (networkFirst_api_offline offline emptyWorld
    (getRequest "https://api.github.com/users/Ceskard26/repos") (by decide) rfl (by decide)).1

/-- C10, as stated, fails: with the network down, a request held by both STATIC
and DYNAMIC is answered with the STATIC snapshot, not with the DYNAMIC one. -/
theorem networkFirst_offline_not_dynamic :
    offline (getRequest "https://calendly.com/cesar") = none ∧
    CacheStorage.lookupIn
      [(STATIC_CACHE, [(getRequest "https://calendly.com/cesar", okResponse "static copy")]),
        (DYNAMIC_CACHE, [(getRequest "https://calendly.com/cesar", okResponse "dynamic copy")])]
      DYNAMIC_CACHE (getRequest "https://calendly.com/cesar") =
      some (okResponse "dynamic copy") ∧
    (networkFirst offline
        { caches :=
            [(STATIC_CACHE, [(getRequest "https://calendly.com/cesar", okResponse "static copy")]),
              (DYNAMIC_CACHE,
                [(getRequest "https://calendly.com/cesar", okResponse "dynamic copy")])],
          log := [] }
        (getRequest "https://calendly.com/cesar")).1 =
      .fulfilled (some (okResponse "static copy")) ∧
    okResponse "static copy" ≠ okResponse "dynamic copy" := by
  refine ⟨rfl, by decide, by decide, by decide⟩

/-- C10, amended. When the fetch rejects and some generation holds the request,
`networkFirst` returns the snapshot `caches.match` finds: the entry of the
first generation, in creation order, that holds the request. This is the
DYNAMIC snapshot when no other generation holds the request. No cache
generation is modified. -/
theorem networkFirst_offline_fallback (net : Network) (w : World) (req : Request)
    (hn : net req = none) (hent : hasEntry w.caches req = true) :
    (networkFirst net w req).1 = .fulfilled (w.caches.lookupAny req) ∧
    (∃ c ∈ w.caches, ∃ e ∈ c.2, sameKey e.1 req = true ∧
      (networkFirst net w req).1 = .fulfilled (some e.2)) ∧
    (∀ r, w.caches.lookupIn DYNAMIC_CACHE req = some r →
      (∀ c ∈ w.caches, c.1 ≠ DYNAMIC_CACHE → c.2.lookup req = none) →
      (networkFirst net w req).1 = .fulfilled (some r)) ∧
    (networkFirst net w req).2.caches = w.caches ∧
    cacheWrites (newEvents w (networkFirst net w req).2) = [] := by
  obtain ⟨r, hr⟩ := CacheStorage.lookupAny_isSome_of_hasEntry w.caches req hent
  obtain ⟨c, hc, e, he, hk, hre⟩ := CacheStorage.lookupAny_some_mem w.caches req r hr
  rw [networkFirst_fail_hit net w req r hn hr, newEvents_append]
  refine ⟨by rw [hr], ⟨c, hc, e, he, hk, by rw [hre]⟩, ?_, rfl, rfl⟩
  intro r2 hdyn honly
  have h2 := CacheStorage.lookupAny_of_only w.caches DYNAMIC_CACHE req r2 honly hdyn
  rw [hr] at h2
  rw [h2]

/-- Witness for the amended C10: DYNAMIC alone holds the request, the network is
down, and the DYNAMIC snapshot is returned. -/
theorem networkFirst_offline_fallback_witness :
    (networkFirst offline
        { caches :=
            [(STATIC_CACHE, []),
              (DYNAMIC_CACHE,
                [(getRequest "https://calendly.com/cesar", okResponse "dynamic copy")])],
          log := [] }
        (getRequest "https://calendly.com/cesar")).1 =
      .fulfilled (some (okResponse "dynamic copy")) :=
  (networkFirst_offline_fallback offline
      { caches :=
          [(STATIC_CACHE, []),
            (DYNAMIC_CACHE,
              [(getRequest "https://calendly.com/cesar", okResponse "dynamic copy")])],
        log := [] }
      (getRequest "https://calendly.com/cesar") rfl (by decide)).2.2.1
    (okResponse "dynamic copy") (by decide) (by decide)

/-- C11. When no generation holds the request and the fetch rejects,
`networkFirst` is fulfilled with a response of status 503. It is the JSON
offline payload exactly when the URL contains `api.github.com`, the one API
pattern the function tests; for every other URL it is the plain response
`Network error occurred`. -/
theorem networkFirst_offline_miss (net : Network) (w : World) (req : Request)
    (habs : hasEntry w.caches req = false) (hn : net req = none) :
    (∃ r, (networkFirst net w req).1 = .fulfilled (some r) ∧ r.status = 503) ∧
    ((networkFirst net w req).1 = .fulfilled (some offlineApiResponse) ↔
      includes req.url "api.github.com" = true) ∧
    (includes req.url "api.github.com" = false →
      (networkFirst net w req).1 =
        .fulfilled (some { status := 503, headers := [], body := "Network error occurred" })) := by
  have hc : w.caches.lookupAny req = none :=
    (CacheStorage.lookupAny_eq_none_iff w.caches req).2 habs
  rw [networkFirst_fail_miss net w req hn hc]
  by_cases hu : includes req.url "api.github.com" = true
  · rw [if_pos hu]
    refine ⟨⟨_, rfl, rfl⟩, ⟨fun _ => hu, fun _ => rfl⟩, fun h => ?_⟩
    rw [hu] at h
    cases h
  · rw [if_neg hu]
    refine ⟨⟨_, rfl, rfl⟩, ⟨fun h => ?_, fun h => absurd h hu⟩, fun _ => rfl⟩
    have h2 : networkErrorResponse = offlineApiResponse := by
      injection h with h1
      injection h1
    exact absurd h2 (by decide)

/-- Witness for C11: a Calendly page, nothing cached, network down: the plain
503 response. -/
theorem networkFirst_offline_miss_witness :
    (networkFirst offline emptyWorld (getRequest "https://calendly.com/cesar")).1 =
      .fulfilled (some { status := 503, headers := [], body := "Network error occurred" }) :=
  (networkFirst_offline_miss offline emptyWorld (getRequest "https://calendly.com/cesar")
    (by decide) rfl).2.2 (by decide)

/-! ## The stale-while-revalidate strategy -/

/-- C12. When DYNAMIC holds an entry for the request, `staleWhileRevalidate`
returns that snapshot, and the returned value is the same for every network,
whether the background fetch succeeds, answers with a non-success status or
rejects. -/
theorem staleWhileRevalidate_cached (net : Network) (w : World) (req : Request) (c : Response)
    (hc : w.caches.lookupIn DYNAMIC_CACHE req = some c) :
    (staleWhileRevalidate net w req).1 = .fulfilled (some c) ∧
    ∀ net2 : Network,
      (staleWhileRevalidate net2 w req).1 = (staleWhileRevalidate net w req).1 := by
  refine ⟨staleWhileRevalidate_of_cached net w req c hc, fun net2 => ?_⟩
  rw [staleWhileRevalidate_of_cached net w req c hc,
    staleWhileRevalidate_of_cached net2 w req c hc]

/-- Witness for C12: a cached page is returned although the network has a fresh
copy. -/
theorem staleWhileRevalidate_cached_witness :
    (staleWhileRevalidate (always (okResponse "fresh"))
        { caches := [(DYNAMIC_CACHE, [(getRequest "https://example.com/page", okResponse "stale")])],
          log := [] }
        (getRequest "https://example.com/page")).1 = .fulfilled (some (okResponse "stale")) :=
  (staleWhileRevalidate_cached (always (okResponse "fresh"))
    { caches := [(DYNAMIC_CACHE, [(getRequest "https://example.com/page", okResponse "stale")])],
      log := [] }
    (getRequest "https://example.com/page") (okResponse "stale") (by decide)).1

/-- C13, as stated, fails twice. With no generation in the storage and the
network down, `staleWhileRevalidate` does not leave the storage as it was: the
DYNAMIC generation now exists. And with a stale page in DYNAMIC, a background
fetch that resolves with a partial-content response (status 206, in the success
range) is not stored: the platform refuses the `put` and DYNAMIC still answers
with the stale page. -/
theorem staleWhileRevalidate_refresh_fails :
    (staleWhileRevalidate offline emptyWorld
        (getRequest "https://example.com/page")).2.caches = [(DYNAMIC_CACHE, [])] ∧
    emptyWorld.caches = [] ∧
    (staleWhileRevalidate offline emptyWorld
        (getRequest "https://example.com/page")).2.caches ≠ emptyWorld.caches ∧
    (partialResponse "part").ok = true ∧
    (staleWhileRevalidate (always (partialResponse "part"))
        { caches := [(DYNAMIC_CACHE, [(getRequest "https://example.com/page", okResponse "stale")])],
          log := [] }
        (getRequest "https://example.com/page")).2.caches.lookupIn DYNAMIC_CACHE
        (getRequest "https://example.com/page") = some (okResponse "stale") ∧
    okResponse "stale" ≠ partialResponse "part" := by
  refine ⟨by decide, by decide, by decide, by decide, by decide, by decide⟩

/-- C13, amended. When the background fetch of `staleWhileRevalidate` resolves
with a response in the success range and the platform accepts the write (a GET
request for an http(s) URL, a response that is neither partial content nor
`Vary: *`), the only cache write is one `put` of the request and the response
into DYNAMIC; DYNAMIC afterwards answers the request with that response,
whatever it held before, answers every other key as before, and every other
generation (STATIC among them) is unchanged. When the fetch rejects, nothing is
written: every generation that existed is unchanged, every lookup answers as
before, and the storage differs from the prior one at most by the empty DYNAMIC
generation that `caches.open` created. -/
theorem staleWhileRevalidate_refresh (net : Network) (w : World) (req : Request) :
    (∀ r, net req = some r → r.ok = true → putAccepted req r = true →
      cacheWrites (newEvents w (staleWhileRevalidate net w req).2) =
        [Event.cachePut DYNAMIC_CACHE req r] ∧
      (staleWhileRevalidate net w req).2.caches.lookupIn DYNAMIC_CACHE req = some r ∧
      (∀ k, sameKey k req = false →
        (staleWhileRevalidate net w req).2.caches.lookupIn DYNAMIC_CACHE k =
          w.caches.lookupIn DYNAMIC_CACHE k) ∧
      (staleWhileRevalidate net w req).2.caches.generation STATIC_CACHE =
        w.caches.generation STATIC_CACHE ∧
      (∀ name, name ≠ DYNAMIC_CACHE →
        (staleWhileRevalidate net w req).2.caches.generation name =
          w.caches.generation name)) ∧
    (net req = none →
      cacheWrites (newEvents w (staleWhileRevalidate net w req).2) = [] ∧
      (staleWhileRevalidate net w req).2.caches =
        (if w.caches.any (fun c => c.1 == DYNAMIC_CACHE) then w.caches
         else w.caches ++ [(DYNAMIC_CACHE, [])]) ∧
      (∀ name g, w.caches.generation name = some g →
        (staleWhileRevalidate net w req).2.caches.generation name = some g) ∧
      (∀ name k, (staleWhileRevalidate net w req).2.caches.lookupIn name k =
        w.caches.lookupIn name k)) := by
  constructor
  · intro r hn hok hacc
    rw [staleWhileRevalidate_stored net w req r hn hok hacc, newEvents_append]
    refine ⟨rfl, ?_, ?_, ?_, ?_⟩
    · exact CacheStorage.lookupIn_open_put_self _ _ _ _
    · intro k hk
      exact CacheStorage.lookupIn_open_put_of_ne _ _ _ _ _ hk
    · exact CacheStorage.generation_open_put_of_ne _ _ _ _ _ (by decide)
    · intro name hname
      exact CacheStorage.generation_open_put_of_ne _ _ _ _ _ hname
  · intro hn
    rw [staleWhileRevalidate_fail net w req hn, newEvents_append]
    refine ⟨rfl, rfl, ?_, ?_⟩
    · intro name g hg
      exact CacheStorage.generation_ensure_of_some _ _ _ _ hg
    · intro name k
      exact CacheStorage.lookupIn_ensure _ _ _ _

/-- Witness for the amended C13: a stale page is replaced in DYNAMIC by the
fresh copy. -/
theorem staleWhileRevalidate_refresh_witness :
    (staleWhileRevalidate (always (okResponse "fresh"))
        { caches := [(DYNAMIC_CACHE, [(getRequest "https://example.com/page", okResponse "stale")])],
          log := [] }
        (getRequest "https://example.com/page")).2.caches.lookupIn DYNAMIC_CACHE
        (getRequest "https://example.com/page") = some (okResponse "fresh") ∧
    cacheWrites (newEvents emptyWorld
      (staleWhileRevalidate offline emptyWorld (getRequest "https://example.com/page")).2) = [] :=
  ⟨((staleWhileRevalidate_refresh (always (okResponse "fresh"))
    { caches := [(DYNAMIC_CACHE, [(getRequest "https://example.com/page", okResponse "stale")])],
      log := [] }
    (getRequest "https://example.com/page")).1 (okResponse "fresh") rfl (by decide)
      (by decide)).2.1,
   ((staleWhileRevalidate_refresh offline emptyWorld
      (getRequest "https://example.com/page")).2 rfl).1⟩

/-- C14 at its failing input: with nothing cached and the network down,
`staleWhileRevalidate` is fulfilled with `undefined`, not with a response,
while `cacheFirst` and `networkFirst` are fulfilled with a 503 response. -/
theorem staleWhileRevalidate_offline_miss_undefined :
    (staleWhileRevalidate offline emptyWorld (getRequest "https://example.com/page")).1 =
      .fulfilled none ∧
    (cacheFirst offline emptyWorld (getRequest "https://example.com/page")).1 =
      .fulfilled (some offlineContentResponse) ∧
    (networkFirst offline emptyWorld (getRequest "https://example.com/page")).1 =
      .fulfilled (some networkErrorResponse) := by
  refine ⟨by decide, by decide, by decide⟩

/-- C15, as stated, fails: with nothing cached and the network down,
`staleWhileRevalidate` yields `undefined` and leaves an empty DYNAMIC
generation, while `networkFirst` yields the 503 response and leaves the
storage empty. -/
theorem staleWhileRevalidate_offline_differs_from_networkFirst :
    hasEntry emptyWorld.caches (getRequest "https://example.com/page") = false ∧
    (staleWhileRevalidate offline emptyWorld (getRequest "https://example.com/page")).1 ≠
      (networkFirst offline emptyWorld (getRequest "https://example.com/page")).1 ∧
    (staleWhileRevalidate offline emptyWorld (getRequest "https://example.com/page")).2.caches =
      [(DYNAMIC_CACHE, [])] ∧
    (networkFirst offline emptyWorld (getRequest "https://example.com/page")).2.caches = [] := by
  refine ⟨by decide, by decide, by decide, by decide⟩

/-- C15, amended. When no generation holds the request and the fetch resolves
with a response, `staleWhileRevalidate` returns the same result as
`networkFirst`, the live response, and afterwards every lookup in every
generation answers as after `networkFirst`; when the response is in the success
range the two final storages are equal. -/
theorem staleWhileRevalidate_degrades_to_networkFirst (net : Network) (w : World)
    (req : Request) (r : Response)
    (habs : hasEntry w.caches req = false) (hn : net req = some r) :
    (staleWhileRevalidate net w req).1 = (networkFirst net w req).1 ∧
    (staleWhileRevalidate net w req).1 = .fulfilled (some r) ∧
    (∀ name k, (staleWhileRevalidate net w req).2.caches.lookupIn name k =
      (networkFirst net w req).2.caches.lookupIn name k) ∧
    (r.ok = true →
      (staleWhileRevalidate net w req).2.caches = (networkFirst net w req).2.caches) := by
  have hc : w.caches.lookupIn DYNAMIC_CACHE req = none :=
    CacheStorage.lookupIn_eq_none_of_not_hasEntry w.caches DYNAMIC_CACHE req habs
  obtain ⟨h1, h2⟩ := staleWhileRevalidate_of_miss net w req r hc hn
  rw [h1, h2]
  cases hok : r.ok
  · rw [networkFirst_notOk net w req r hn hok]
    refine ⟨rfl, rfl, ?_, fun h => by cases h⟩
    intro name k
    simp only [Bool.false_eq_true, if_false]
    exact CacheStorage.lookupIn_ensure _ _ _ _
  · rw [networkFirst_ok net w req r hn hok]
    exact ⟨rfl, rfl, fun _ _ => rfl, fun _ => rfl⟩

/-- Witness for the amended C15: a first visit with the network up. -/
theorem staleWhileRevalidate_degrades_to_networkFirst_witness :
    (staleWhileRevalidate (always (okResponse "fresh")) emptyWorld
        (getRequest "https://example.com/page")).1 =
      (networkFirst (always (okResponse "fresh")) emptyWorld
        (getRequest "https://example.com/page")).1 :=
  (staleWhileRevalidate_degrades_to_networkFirst (always (okResponse "fresh")) emptyWorld
    (getRequest "https://example.com/page") (okResponse "fresh") (by decide) rfl).1

/-! ## The lifecycle handlers -/

/-- C16. The activate listener calls `caches.delete` for exactly the generation
names that differ from both `STATIC_CACHE` and `DYNAMIC_CACHE`. When no deletion
fails, the names that survive are the prior names that are `STATIC_CACHE` or
`DYNAMIC_CACHE`, the surviving generations hold what they held, and every other
generation is gone. -/
theorem onActivate_deletes_superseded (deleteFails : String → Bool) (w : World) :
    deleteCalls (newEvents w (onActivate deleteFails w).2) =
      (w.caches.map Prod.fst).filter
        (fun n => n != STATIC_CACHE && n != DYNAMIC_CACHE) ∧
    ((∀ name, deleteFails name = false) →
      (onActivate deleteFails w).2.caches.map Prod.fst =
        (w.caches.map Prod.fst).filter (fun n => n == STATIC_CACHE || n == DYNAMIC_CACHE) ∧
      (∀ name, name = STATIC_CACHE ∨ name = DYNAMIC_CACHE →
        (onActivate deleteFails w).2.caches.generation name = w.caches.generation name) ∧
      (∀ name, name ≠ STATIC_CACHE → name ≠ DYNAMIC_CACHE →
        (onActivate deleteFails w).2.caches.generation name = none)) := by
  have hsup : (fun n : String => n != STATIC_CACHE && n != DYNAMIC_CACHE) = superseded := rfl
  rw [hsup]
  constructor
  · rw [onActivate_eq]
    split
    · rw [newEvents_append]
      exact deleteCalls_map _
    · rw [newEvents_append]
      have hcons : ∀ l, deleteCalls (Event.cachesKeys :: l) = deleteCalls l := fun _ => rfl
      rw [hcons, deleteCalls_append, deleteCalls_map]
      exact List.append_nil _
  · intro hno
    have hany : ((w.caches.map Prod.fst).filter superseded).any deleteFails = false := by
      rw [List.any_eq_false]
      intro n _
      simp [hno n]
    have hkeep : (fun c : String × Generation => !(superseded c.1 && !deleteFails c.1)) =
        (fun c => (fun n => !superseded n) c.1) := by
      funext c
      simp [hno c.1]
    rw [onActivate_eq, hany]
    simp only [Bool.false_eq_true, if_false, hkeep]
    refine ⟨?_, ?_, ?_⟩
    · rw [List.filter_map]
      congr 1
      apply List.filter_congr
      intro c _
      simp only [Function.comp, superseded, bne]
      cases (c.1 == STATIC_CACHE) <;> cases (c.1 == DYNAMIC_CACHE) <;> rfl
    · intro name hname
      rw [CacheStorage.generation_filter w.caches (fun n => !superseded n) name]
      have : superseded name = false := by
        rcases hname with h | h <;> rw [h] <;> decide
      simp [this]
    · intro name h1 h2
      rw [CacheStorage.generation_filter w.caches (fun n => !superseded n) name]
      have : superseded name = true := by
        simp [superseded, h1, h2]
      simp [this]

/-- Witness for C16: with the generations of version 0.9.0 next to the current
ones, exactly the two older generations are deleted. -/
theorem onActivate_deletes_superseded_witness :
    deleteCalls (newEvents twoVersions (onActivate (fun _ => false) twoVersions).2) =
      ["cesar-static-v0.9.0", "cesar-dynamic-v0.9.0"] ∧
    (onActivate (fun _ => false) twoVersions).2.caches.map Prod.fst =
      [STATIC_CACHE, DYNAMIC_CACHE] :=
  ⟨(onActivate_deletes_superseded (fun _ => false) twoVersions).1.trans (by decide),
   ((onActivate_deletes_superseded (fun _ => false) twoVersions).2 (fun _ => rfl)).1.trans
     (by decide)⟩

/-- C17 at its failing input: the manifest file cannot be fetched during the
install. The bulk population rejects and nothing is stored, yet the `catch` of
the install listener turns the rejection into a fulfilled promise: the promise
handed to `event.waitUntil` is fulfilled, not rejected, so the install succeeds
with an empty STATIC generation; `skipWaiting` is not called. On the same
network `updateCache`, which runs the same population without a `catch`,
rejects. -/
theorem onInstall_failure_not_rejected :
    "/manifest.json" ∈ STATIC_FILES ∧
    fetchSucceeds (failingOn "https://cesar.example/manifest.json" (okResponse "asset"))
      (newRequest (resolveAt "https://cesar.example") "/manifest.json") = false ∧
    (onInstall (resolveAt "https://cesar.example")
      (failingOn "https://cesar.example/manifest.json" (okResponse "asset")) emptyWorld).1 =
      .resolved ∧
    (onInstall (resolveAt "https://cesar.example")
      (failingOn "https://cesar.example/manifest.json" (okResponse "asset")) emptyWorld).1 ≠
      .rejected ∧
    (onInstall (resolveAt "https://cesar.example")
      (failingOn "https://cesar.example/manifest.json" (okResponse "asset"))
      emptyWorld).2.caches = [(STATIC_CACHE, [])] ∧
    Event.skipWaiting ∉
      (onInstall (resolveAt "https://cesar.example")
        (failingOn "https://cesar.example/manifest.json" (okResponse "asset")) emptyWorld).2.log ∧
    (updateCache (resolveAt "https://cesar.example")
      (failingOn "https://cesar.example/manifest.json" (okResponse "asset")) emptyWorld).1 =
      .rejected := by
  refine ⟨by decide, by decide, by decide, by decide, by decide, by decide, by decide⟩

/-- C18. The population run by the install listener is all-or-nothing. When the
fetch of one manifest URL rejects or answers with a response `cache.addAll`
refuses (a status outside the success range, partial content, `Vary: *`), the
listener writes nothing: the storage is the prior one with STATIC opened, and
STATIC answers every request as before. When every manifest URL is fetched
successfully, STATIC afterwards answers the request of every manifest URL with
the response fetched for it. -/
theorem onInstall_all_or_nothing (resolve : String → String) (net : Network) (w : World) :
    ((∃ url ∈ STATIC_FILES, fetchSucceeds net (newRequest resolve url) = false) →
      cacheWrites (newEvents w (onInstall resolve net w).2) = [] ∧
      (onInstall resolve net w).2.caches = w.caches.ensure STATIC_CACHE ∧
      ∀ k, (onInstall resolve net w).2.caches.lookupIn STATIC_CACHE k =
        w.caches.lookupIn STATIC_CACHE k) ∧
    ((∀ url ∈ STATIC_FILES, fetchSucceeds net (newRequest resolve url) = true) →
      ∀ url ∈ STATIC_FILES,
        (onInstall resolve net w).2.caches.lookupIn STATIC_CACHE (newRequest resolve url) =
          net (newRequest resolve url) ∧
        (net (newRequest resolve url)).isSome = true) := by
  constructor
  · intro hfail
    rw [onInstall_failure resolve net w hfail, newEvents_append]
    refine ⟨cacheWrites_map_fetch _, rfl, fun k => ?_⟩
    exact CacheStorage.lookupIn_ensure _ _ _ _
  · intro hall url hu
    rw [onInstall_caches]
    refine ⟨((populate_spec resolve net w STATIC_CACHE STATIC_FILES).2.2.2 hall).2 url hu, ?_⟩
    have := hall url hu
    unfold fetchSucceeds at this
    cases hn : net (newRequest resolve url) with
    | none => simp [hn] at this
    | some r => rfl

/-- Witness for C18: with one manifest file unreachable nothing is stored, with
the network up the home page is stored. -/
theorem onInstall_all_or_nothing_witness :
    (onInstall (resolveAt "https://cesar.example")
      (failingOn "https://cesar.example/manifest.json" (okResponse "asset"))
      emptyWorld).2.caches = emptyWorld.caches.ensure STATIC_CACHE ∧
    (onInstall (resolveAt "https://cesar.example") (always (okResponse "asset"))
      emptyWorld).2.caches.lookupIn STATIC_CACHE
        (newRequest (resolveAt "https://cesar.example") "/") =
      always (okResponse "asset") (newRequest (resolveAt "https://cesar.example") "/") :=
  ⟨((onInstall_all_or_nothing (resolveAt "https://cesar.example")
      (failingOn "https://cesar.example/manifest.json" (okResponse "asset")) emptyWorld).1
      ⟨"/manifest.json", by decide, by decide⟩).2.1,
   ((onInstall_all_or_nothing (resolveAt "https://cesar.example") (always (okResponse "asset"))
      emptyWorld).2 (fun _ _ => rfl) "/" (by decide)).1⟩

/-- C19, as stated, fails: when the deletion of one superseded generation fails,
the other superseded generation is deleted, but the promise of the activate
listener rejects and `clients.claim` is not called. -/
theorem onActivate_failure_rejects :
    (onActivate (fun n => n == "cesar-static-v0.9.0") twoVersions).1 = .rejected ∧
    Event.clientsClaim ∉
      newEvents twoVersions (onActivate (fun n => n == "cesar-static-v0.9.0") twoVersions).2 ∧
    (onActivate (fun n => n == "cesar-static-v0.9.0") twoVersions).2.caches.map Prod.fst =
      ["cesar-static-v0.9.0", STATIC_CACHE, DYNAMIC_CACHE] := by
  refine ⟨by decide, by decide, by decide⟩

/-- C19, amended. When the deletion of a superseded generation fails, every
other superseded generation whose deletion does not fail is still deleted and
the current generations are unchanged, but the promise of the activate listener
rejects and `clients.claim` is not called. -/
theorem onActivate_delete_failure (deleteFails : String → Bool) (w : World)
    (hfail : ∃ c ∈ w.caches, superseded c.1 = true ∧ deleteFails c.1 = true) :
    (∀ name, superseded name = true → deleteFails name = false →
      (onActivate deleteFails w).2.caches.generation name = none) ∧
    (∀ name, name = STATIC_CACHE ∨ name = DYNAMIC_CACHE →
      (onActivate deleteFails w).2.caches.generation name = w.caches.generation name) ∧
    (onActivate deleteFails w).1 = .rejected ∧
    Event.clientsClaim ∉ newEvents w (onActivate deleteFails w).2 := by
  have hany : ((w.caches.map Prod.fst).filter superseded).any deleteFails = true := by
    obtain ⟨c, hc, hs, hf⟩ := hfail
    rw [List.any_eq_true]
    exact ⟨c.1, List.mem_filter.2 ⟨List.mem_map_of_mem Prod.fst hc, hs⟩, hf⟩
  rw [onActivate_eq, if_pos hany, newEvents_append]
  refine ⟨?_, ?_, rfl, ?_⟩
  · intro name hs hf
    rw [CacheStorage.generation_filter w.caches
      (fun n => !(superseded n && !deleteFails n)) name]
    simp [hs, hf]
  · intro name hname
    rw [CacheStorage.generation_filter w.caches
      (fun n => !(superseded n && !deleteFails n)) name]
    have : superseded name = false := by
      rcases hname with h | h <;> rw [h] <;> decide
    simp [this]
  · intro h
    rcases List.mem_cons.1 h with h1 | h1
    · cases h1
    · obtain ⟨q, _, hq⟩ := List.mem_map.1 h1
      cases hq

/-- Witness for the amended C19: the deletion of the older static generation
fails, the older dynamic generation is deleted all the same. -/
theorem onActivate_delete_failure_witness :
    (onActivate (fun n => n == "cesar-static-v0.9.0") twoVersions).2.caches.generation
      "cesar-dynamic-v0.9.0" = none ∧
    (onActivate (fun n => n == "cesar-static-v0.9.0") twoVersions).1 = .rejected :=
  ⟨(onActivate_delete_failure (fun n => n == "cesar-static-v0.9.0") twoVersions
      ⟨("cesar-static-v0.9.0",
          [(getRequest "https://cesar.example/", okResponse "old home")]),
        by decide, by decide, by decide⟩).1 "cesar-dynamic-v0.9.0" (by decide) (by decide),
   (onActivate_delete_failure (fun n => n == "cesar-static-v0.9.0") twoVersions
      ⟨("cesar-static-v0.9.0",
          [(getRequest "https://cesar.example/", okResponse "old home")]),
        by decide, by decide, by decide⟩).2.2.1⟩

/-- C20. A `CACHE_UPDATE` message runs `updateCache`, which fetches every
`STATIC_FILES` URL again and leaves DYNAMIC, and every generation other than
STATIC, as it was (existence and entries), for every prior world and every
network; when the fetches succeed, STATIC afterwards answers the request of
every manifest URL with the response just fetched. -/
theorem updateCache_refreshes_static (resolve : String → String) (net : Network) (w : World) :
    onMessage resolve net w (some { type := some "CACHE_UPDATE" }) =
      (some (updateCache resolve net w).1, (updateCache resolve net w).2) ∧
    fetchCalls (newEvents w (updateCache resolve net w).2) =
      STATIC_FILES.map (newRequest resolve) ∧
    (updateCache resolve net w).2.caches.generation DYNAMIC_CACHE =
      w.caches.generation DYNAMIC_CACHE ∧
    (∀ name, name ≠ STATIC_CACHE →
      (updateCache resolve net w).2.caches.generation name = w.caches.generation name) ∧
    ((∀ url ∈ STATIC_FILES, fetchSucceeds net (newRequest resolve url) = true) →
      ∀ url ∈ STATIC_FILES,
        (updateCache resolve net w).2.caches.lookupIn STATIC_CACHE (newRequest resolve url) =
          net (newRequest resolve url)) := by
  obtain ⟨h1, h2, _, h4⟩ := populate_spec resolve net w STATIC_CACHE STATIC_FILES
  refine ⟨?_, h1, h2 DYNAMIC_CACHE (by decide), h2, fun hall => (h4 hall).2⟩
  simp [onMessage]

/-- Witness for C20: the cached home page is replaced by the copy just fetched
and the DYNAMIC entry stays. -/
theorem updateCache_refreshes_static_witness :
    (updateCache (resolveAt "https://cesar.example") (always (okResponse "new"))
      twoVersions).2.caches.lookupIn STATIC_CACHE
        (newRequest (resolveAt "https://cesar.example") "/") =
      always (okResponse "new") (newRequest (resolveAt "https://cesar.example") "/") :=
  (updateCache_refreshes_static (resolveAt "https://cesar.example") (always (okResponse "new"))
    twoVersions).2.2.2.2 (fun _ _ => rfl) "/" (by decide)

/-! ## The message listener and the reach of the manifest rule -/

/-- C22. The message listener looks at the type of the message only. For
`SKIP_WAITING` it calls `skipWaiting` and leaves the caches alone. For
`CACHE_UPDATE` it hands the promise of `updateCache` to `event.waitUntil` and
does not call `skipWaiting`. Without data, or with any other type, it calls
nothing and the world is unchanged. -/
theorem onMessage_dispatch (resolve : String → String) (net : Network) (w : World) :
    onMessage resolve net w (some { type := some "SKIP_WAITING" }) =
      (none, { caches := w.caches, log := w.log ++ [Event.skipWaiting] }) ∧
    (onMessage resolve net w (some { type := some "CACHE_UPDATE" }) =
        (some (updateCache resolve net w).1, (updateCache resolve net w).2) ∧
      Event.skipWaiting ∉ newEvents w (updateCache resolve net w).2) ∧
    onMessage resolve net w none = (none, w) ∧
    (∀ d : MessageData, d.type ≠ some "SKIP_WAITING" → d.type ≠ some "CACHE_UPDATE" →
      onMessage resolve net w (some d) = (none, w)) := by
  refine ⟨?_, ⟨?_, ?_⟩, ?_, ?_⟩
  · simp [onMessage]
  · simp [onMessage]
  · obtain ⟨es, hlog⟩ := updateCache_log resolve net w
    rw [newEvents_of_log w _ _ hlog]
    intro h
    rcases List.mem_cons.1 h with h1 | h1
    · cases h1
    · rcases List.mem_append.1 h1 with h2 | h2
      · obtain ⟨q, _, hq⟩ := List.mem_map.1 h2
        cases hq
      · obtain ⟨q, _, hq⟩ := List.mem_map.1 h2
        cases hq
  · simp [onMessage]
  · intro d h1 h2
    simp [onMessage, h1, h2]

/-- Witness for C22: a message of an unknown type changes nothing. -/
theorem onMessage_dispatch_witness :
    onMessage (resolveAt "https://cesar.example") offline twoVersions
      (some { type := some "PING" }) = (none, twoVersions) :=
  (onMessage_dispatch (resolveAt "https://cesar.example") offline twoVersions).2.2.2
    { type := some "PING" } (by decide) (by decide)

/-- C23. The manifest entry `/` is contained in every URL with a slash: a GET
request whose URL contains `/` and no `NETWORK_FIRST` pattern is answered by
`cacheFirst`. So `staleWhileRevalidate` answers only requests whose URL has no
slash, and never a request whose URL starts with `http://` or `https://`. -/
theorem onFetch_slash_cacheFirst (net : Network) (w : World) (req : Request)
    (hget : req.method = "GET") :
    (includes req.url "/" = true → (∀ p ∈ NETWORK_FIRST, includes req.url p = false) →
      onFetch net w req = respondWith (cacheFirst net w req)) ∧
    (onFetch net w req = respondWith (staleWhileRevalidate net w req) →
      includes req.url "/" = false) ∧
    (startsWith req.url "http://" = true ∨ startsWith req.url "https://" = true →
      onFetch net w req ≠ respondWith (staleWhileRevalidate net w req)) := by
  have hswr : onFetch net w req = respondWith (staleWhileRevalidate net w req) →
      includes req.url "/" = false := by
    intro h
    rw [onFetch_get net w req hget] at h
    have hc : classify req.url = Strategy.staleWhileRevalidate :=
      Strategy.run_injective net w req _ Strategy.staleWhileRevalidate h
    have hs : isStatic req.url = false := by
      unfold classify at hc
      by_cases h1 : isNetworkFirst req.url = true
      · simp [h1] at hc
      · by_cases h2 : isStatic req.url = true
        · simp [h1, h2] at hc
        · simpa using h2
    rw [isStatic_eq] at hs
    simp only [Bool.or_eq_false_iff] at hs
    have hany := hs.1.1
    rw [List.any_eq_false] at hany
    have := hany "/" (by decide)
    simpa using this
  refine ⟨?_, hswr, ?_⟩
  · intro hslash hpat
    have h1 : isNetworkFirst req.url = false := (isNetworkFirst_eq_false_iff req.url).2 hpat
    have h2 : isStatic req.url = true := by
      rw [isStatic_eq]
      have : STATIC_FILES.any (fun file => includes req.url file) = true :=
        List.any_eq_true.2 ⟨"/", by decide, hslash⟩
      simp [this]
    rw [onFetch_get net w req hget]
    simp [classify, h1, h2, Strategy.run]
  · intro habs h
    have hno := hswr h
    have hyes : includes req.url "/" = true := by
      rcases habs with h1 | h1
      · exact startsWith_includes_slash req.url "http://" (by decide) h1
      · exact startsWith_includes_slash req.url "https://" (by decide) h1
    rw [hyes] at hno
    cases hno

/-- Witness for C23: an ordinary page of another site is served cache-first. -/
theorem onFetch_slash_cacheFirst_witness :
    onFetch offline emptyWorld (getRequest "https://example.com/blog/post") =
      respondWith (cacheFirst offline emptyWorld (getRequest "https://example.com/blog/post")) :=
  (onFetch_slash_cacheFirst offline emptyWorld (getRequest "https://example.com/blog/post")
    rfl).1 (by decide) (by decide)

/-! ## Only successful responses are cached -/

/-- C24, as stated, fails in its last part: with a snapshot in DYNAMIC, a 404
answer of the network is not what `staleWhileRevalidate` returns to the caller;
it returns the cached snapshot. -/
theorem staleWhileRevalidate_notFound_not_returned :
    always { status := 404, headers := [], body := "not found" }
      (getRequest "https://example.com/page") =
      some { status := 404, headers := [], body := "not found" } ∧
    Response.ok { status := 404, headers := [], body := "not found" } = false ∧
    (staleWhileRevalidate (always { status := 404, headers := [], body := "not found" })
        { caches := [(DYNAMIC_CACHE, [(getRequest "https://example.com/page", okResponse "stale")])],
          log := [] }
        (getRequest "https://example.com/page")).1 = .fulfilled (some (okResponse "stale")) ∧
    (staleWhileRevalidate (always { status := 404, headers := [], body := "not found" })
        { caches := [(DYNAMIC_CACHE, [(getRequest "https://example.com/page", okResponse "stale")])],
          log := [] }
        (getRequest "https://example.com/page")).1 ≠
      .fulfilled (some { status := 404, headers := [], body := "not found" }) := by
  refine ⟨rfl, by decide, by decide, by decide⟩

/-- C24, amended. When every entry of every generation holds a response in the
success range, this still holds after the install listener, `updateCache`, the
message listener, the activate listener and each of the three strategies, for
every network. A response outside the success range causes no cache write in
any strategy; `networkFirst` returns it, and `cacheFirst` and
`staleWhileRevalidate` return it when they have no cached snapshot to return
instead. -/
theorem only_successful_responses_cached (net : Network) (w : World) (req : Request) :
    (allCachedOk w.caches = true →
      ∀ (resolve : String → String) (deleteFails : String → Bool) (data : Option MessageData),
        allCachedOk (onInstall resolve net w).2.caches = true ∧
        allCachedOk (updateCache resolve net w).2.caches = true ∧
        allCachedOk (onMessage resolve net w data).2.caches = true ∧
        allCachedOk (onActivate deleteFails w).2.caches = true ∧
        allCachedOk (cacheFirst net w req).2.caches = true ∧
        allCachedOk (networkFirst net w req).2.caches = true ∧
        allCachedOk (staleWhileRevalidate net w req).2.caches = true) ∧
    (∀ r, net req = some r → r.ok = false →
      cacheWrites (newEvents w (cacheFirst net w req).2) = [] ∧
      cacheWrites (newEvents w (networkFirst net w req).2) = [] ∧
      cacheWrites (newEvents w (staleWhileRevalidate net w req).2) = [] ∧
      (networkFirst net w req).1 = .fulfilled (some r) ∧
      (w.caches.lookupAny req = none → (cacheFirst net w req).1 = .fulfilled (some r)) ∧
      (w.caches.lookupIn DYNAMIC_CACHE req = none →
        (staleWhileRevalidate net w req).1 = .fulfilled (some r))) := by
  constructor
  · intro h resolve deleteFails data
    refine ⟨?_, allCachedOk_updateCache resolve net w h, allCachedOk_onMessage resolve net w data h,
      allCachedOk_onActivate deleteFails w h, allCachedOk_cacheFirst net w req h,
      allCachedOk_networkFirst net w req h, allCachedOk_staleWhileRevalidate net w req h⟩
    rw [onInstall_caches]
    exact allCachedOk_doCacheAddAll resolve net w STATIC_CACHE STATIC_FILES h
  · intro r hn hok
    refine ⟨?_, ?_, ?_, ?_, ?_, ?_⟩
    · cases hc : w.caches.lookupAny req with
      | some c =>
        rw [cacheFirst_hit net w req c hc, newEvents_append]
        rfl
      | none =>
        rw [cacheFirst_miss_notOk net w req r hc hn hok, newEvents_append]
        rfl
    · rw [networkFirst_notOk net w req r hn hok, newEvents_append]
      rfl
    · rw [staleWhileRevalidate_notOk net w req r hn hok, newEvents_append]
      rfl
    · rw [networkFirst_notOk net w req r hn hok]
    · intro hc
      rw [cacheFirst_miss_notOk net w req r hc hn hok]
    · intro hc
      exact (staleWhileRevalidate_of_miss net w req r hc hn).1

/-- Witness for the amended C24: a 404 answer on a first visit is returned by
`cacheFirst` and nothing is stored. -/
theorem only_successful_responses_cached_witness :
    allCachedOk
      (cacheFirst (always { status := 404, headers := [], body := "not found" }) twoVersions
        (getRequest "https://cesar.example/missing.png")).2.caches = true ∧
    (cacheFirst (always { status := 404, headers := [], body := "not found" }) twoVersions
        (getRequest "https://cesar.example/missing.png")).1 =
      .fulfilled (some { status := 404, headers := [], body := "not found" }) :=
  ⟨((only_successful_responses_cached
      (always { status := 404, headers := [], body := "not found" }) twoVersions
      (getRequest "https://cesar.example/missing.png")).1 (by decide)
      (resolveAt "https://cesar.example") (fun _ => false) none).2.2.2.2.1,
   ((only_successful_responses_cached
      (always { status := 404, headers := [], body := "not found" }) twoVersions
      (getRequest "https://cesar.example/missing.png")).2
      { status := 404, headers := [], body := "not found" } rfl (by decide)).2.2.2.2.1
      (by decide)⟩

/-! ## Repeating the cache update -/

/-- C21. Let the manifest URLs resolve to pairwise different URLs, and let the
network answer every manifest request the second time as the first time. Then a
second `updateCache` leaves the cache storage, STATIC included, exactly as the
first one left it; and when the fetches succeed, STATIC then holds exactly one
entry for every `STATIC_FILES` URL. -/
theorem updateCache_idempotent (resolve : String → String) (net1 net2 : Network) (w : World)
    (hnodup : (STATIC_FILES.map resolve).Nodup)
    (hsame : ∀ url ∈ STATIC_FILES,
      net2 (newRequest resolve url) = net1 (newRequest resolve url)) :
    (updateCache resolve net2 (updateCache resolve net1 w).2).2.caches =
      (updateCache resolve net1 w).2.caches ∧
    ((∀ url ∈ STATIC_FILES, fetchSucceeds net1 (newRequest resolve url) = true) →
      ∃ g, (updateCache resolve net2 (updateCache resolve net1 w).2).2.caches.generation
          STATIC_CACHE = some g ∧
        ∀ url ∈ STATIC_FILES, entriesFor g (newRequest resolve url) = 1) := by
  obtain ⟨h1, h2⟩ := populate_twice resolve net1 net2 w STATIC_CACHE STATIC_FILES hnodup hsame
  have hu : ∀ (net : Network) (v : World), updateCache resolve net v =
      doCacheAddAll resolve net (doCachesOpen v STATIC_CACHE) STATIC_CACHE STATIC_FILES :=
    fun _ _ => rfl
  rw [hu net2, hu net1]
  refine ⟨h1, fun hall => ?_⟩
  rw [h1]
  exact h2 hall

/-- Witness for C21: two updates in a row on a network that is up. -/
theorem updateCache_idempotent_witness :
    (updateCache (resolveAt "https://cesar.example") (always (okResponse "asset"))
      (updateCache (resolveAt "https://cesar.example") (always (okResponse "asset"))
        twoVersions).2).2.caches =
    (updateCache (resolveAt "https://cesar.example") (always (okResponse "asset"))
      twoVersions).2.caches :=
  (updateCache_idempotent (resolveAt "https://cesar.example") (always (okResponse "asset"))
    (always (okResponse "asset")) twoVersions (by decide) (fun _ _ => rfl)).1

end ServiceWorker

namespace PortfolioPage

/-! ## The typing animation -/

theorem phrases_nonempty (p : Nat) (ph : String) (h : phrases.get? p = some ph) :
    0 < ph.length := by
  have hall : ∀ x ∈ phrases, 0 < x.length := by decide
  exact hall ph (List.get?_mem h)

theorem phrases_get?_mod (p : Nat) : ∃ ph, phrases.get? (p % phrases.length) = some ph := by
  have hlt : p % phrases.length < phrases.length := Nat.mod_lt _ (by decide)
  exact ⟨phrases.get ⟨_, hlt⟩, List.get?_eq_get hlt⟩

theorem substring_zero (s : String) : substring s 0 = "" := rfl

theorem substring_length (s : String) : substring s (s.length : Int) = s := by
  unfold substring
  cases s with
  | mk data => simp [String.length]

theorem type_typing (p : Nat) (c : Int) (t ph : String) (hph : phrases.get? p = some ph)
    (hne : c + 1 ≠ (ph.length : Int)) :
    type { phraseIndex := p, charIndex := c, isDeleting := false, text := t } =
      some { phraseIndex := p, charIndex := c + 1, isDeleting := false,
             text := substring ph (c + 1) } := by
  have hph2 : phrases[p]? = some ph := by simpa using hph
  simp [type, hph2, hne]

theorem type_typing_last (p : Nat) (c : Int) (t ph : String) (hph : phrases.get? p = some ph)
    (heq : c + 1 = (ph.length : Int)) :
    type { phraseIndex := p, charIndex := c, isDeleting := false, text := t } =
      some { phraseIndex := p, charIndex := c + 1, isDeleting := true,
             text := substring ph (c + 1) } := by
  have hph2 : phrases[p]? = some ph := by simpa using hph
  simp [type, hph2, heq]

theorem type_deleting (p : Nat) (c : Int) (t ph : String) (hph : phrases.get? p = some ph)
    (hne : c - 1 ≠ 0) :
    type { phraseIndex := p, charIndex := c, isDeleting := true, text := t } =
      some { phraseIndex := p, charIndex := c - 1, isDeleting := true,
             text := substring ph (c - 1) } := by
  have hph2 : phrases[p]? = some ph := by simpa using hph
  simp [type, hph2, hne]

theorem type_deleting_last (p : Nat) (c : Int) (t ph : String) (hph : phrases.get? p = some ph)
    (heq : c - 1 = 0) :
    type { phraseIndex := p, charIndex := c, isDeleting := true, text := t } =
      some { phraseIndex := (p + 1) % phrases.length, charIndex := c - 1, isDeleting := false,
             text := substring ph (c - 1) } := by
  have hph2 : phrases[p]? = some ph := by simpa using hph
  simp [type, hph2, heq]

/-- One step of the animation keeps the bounds on the indices and shows the
prefix of the current phrase. -/
theorem type_keeps_invariant (s : TypingState) (ph : String)
    (hph : phrases.get? s.phraseIndex = some ph)
    (h0 : 0 ≤ s.charIndex) (hle : s.charIndex ≤ (ph.length : Int))
    (hdel : s.isDeleting = true → 1 ≤ s.charIndex)
    (htyp : s.isDeleting = false → s.charIndex < (ph.length : Int)) :
    ∃ s2 ph2, type s = some s2 ∧ phrases.get? s2.phraseIndex = some ph2 ∧
      0 ≤ s2.charIndex ∧ s2.charIndex ≤ (ph2.length : Int) ∧
      (s2.isDeleting = true → 1 ≤ s2.charIndex) ∧
      (s2.isDeleting = false → s2.charIndex < (ph2.length : Int)) ∧
      s2.text = substring ph2 s2.charIndex := by
  obtain ⟨p, c, d, t⟩ := s
  simp only at hph h0 hle hdel htyp
  cases d with
  | false =>
    have hlt := htyp rfl
    by_cases heq : c + 1 = (ph.length : Int)
    · refine ⟨_, ph, type_typing_last p c t ph hph heq, hph, ?_, ?_, ?_, ?_, rfl⟩
      · show 0 ≤ c + 1
        omega
      · show c + 1 ≤ (ph.length : Int)
        omega
      · intro _
        show 1 ≤ c + 1
        omega
      · intro h
        cases h
    · refine ⟨_, ph, type_typing p c t ph hph heq, hph, ?_, ?_, ?_, ?_, rfl⟩
      · show 0 ≤ c + 1
        omega
      · show c + 1 ≤ (ph.length : Int)
        omega
      · intro h
        cases h
      · intro _
        show c + 1 < (ph.length : Int)
        omega
  | true =>
    have h1 := hdel rfl
    by_cases heq : c - 1 = 0
    · obtain ⟨ph2, hph2⟩ := phrases_get?_mod (p + 1)
      have hpos := phrases_nonempty _ ph2 hph2
      refine ⟨_, ph2, type_deleting_last p c t ph hph heq, hph2, ?_, ?_, ?_, ?_, ?_⟩
      · show 0 ≤ c - 1
        omega
      · show c - 1 ≤ (ph2.length : Int)
        omega
      · intro h
        cases h
      · intro _
        show c - 1 < (ph2.length : Int)
        omega
      · show substring ph (c - 1) = substring ph2 (c - 1)
        rw [heq, substring_zero, substring_zero]
    · refine ⟨_, ph, type_deleting p c t ph hph heq, hph, ?_, ?_, ?_, ?_, rfl⟩
      · show 0 ≤ c - 1
        omega
      · show c - 1 ≤ (ph.length : Int)
        omega
      · intro _
        show 1 ≤ c - 1
        omega
      · intro h
        cases h

theorem typeSteps_succ (n : Nat) (s s1 : TypingState) (h : type s = some s1) :
    typeSteps (n + 1) s = typeSteps n s1 := by
  simp [typeSteps, h]

theorem typeSteps_add (a b : Nat) (s s1 : TypingState) (h : typeSteps a s = some s1) :
    typeSteps (a + b) s = typeSteps b s1 := by
  induction a generalizing s with
  | zero =>
    simp only [typeSteps, Option.some.injEq] at h
    rw [Nat.zero_add, h]
  | succ a ih =>
    cases ht : type s with
    | none => simp [typeSteps, ht] at h
    | some s2 =>
      rw [typeSteps_succ a s s2 ht] at h
      rw [Nat.add_right_comm, typeSteps_succ (a + b) s s2 ht]
      exact ih s2 h

theorem typeSteps_keeps_invariant (n : Nat) (s : TypingState) (ph : String)
    (hph : phrases.get? s.phraseIndex = some ph)
    (h0 : 0 ≤ s.charIndex) (hle : s.charIndex ≤ (ph.length : Int))
    (hdel : s.isDeleting = true → 1 ≤ s.charIndex)
    (htyp : s.isDeleting = false → s.charIndex < (ph.length : Int)) :
    ∃ s2 ph2, typeSteps (n + 1) s = some s2 ∧ phrases.get? s2.phraseIndex = some ph2 ∧
      0 ≤ s2.charIndex ∧ s2.charIndex ≤ (ph2.length : Int) ∧
      (s2.isDeleting = true → 1 ≤ s2.charIndex) ∧
      s2.text = substring ph2 s2.charIndex := by
  induction n generalizing s ph with
  | zero =>
    obtain ⟨s2, ph2, ht, h1, h2, h3, h4, _, h6⟩ := type_keeps_invariant s ph hph h0 hle hdel htyp
    exact ⟨s2, ph2, by rw [typeSteps_succ 0 s s2 ht]; rfl, h1, h2, h3, h4, h6⟩
  | succ n ih =>
    obtain ⟨s1, ph1, ht, h1, h2, h3, h4, h5, _⟩ := type_keeps_invariant s ph hph h0 hle hdel htyp
    obtain ⟨s2, ph2, hs, g1, g2, g3, g4, g5⟩ := ih s1 ph1 h1 h2 h3 h4 h5
    exact ⟨s2, ph2, by rw [typeSteps_succ (n + 1) s s1 ht]; exact hs, g1, g2, g3, g4, g5⟩

/-- Typing: from `c` characters shown, `k` steps with `c + k` the length of the
phrase show the whole phrase and switch to deleting. -/
theorem typeSteps_typing (k : Nat) (p : Nat) (c : Nat) (t ph : String)
    (hph : phrases.get? p = some ph) (hk : c + (k + 1) = ph.length) :
    typeSteps (k + 1)
        { phraseIndex := p, charIndex := (c : Int), isDeleting := false, text := t } =
      some { phraseIndex := p, charIndex := (ph.length : Int), isDeleting := true,
             text := ph } := by
  induction k generalizing c t with
  | zero =>
    have heq : (c : Int) + 1 = (ph.length : Int) := by omega
    rw [typeSteps_succ 0 _ _ (type_typing_last p c t ph hph heq)]
    simp only [typeSteps]
    rw [heq, substring_length]
  | succ k ih =>
    have hne : (c : Int) + 1 ≠ (ph.length : Int) := by omega
    rw [typeSteps_succ (k + 1) _ _ (type_typing p c t ph hph hne)]
    have hc : (c : Int) + 1 = ((c + 1 : Nat) : Int) := by omega
    rw [hc]
    exact ih (c + 1) _ (by omega)

/-- Deleting: from `k + 1` characters shown, `k + 1` steps empty the element and
move on to the next phrase. -/
theorem typeSteps_deleting (k : Nat) (p : Nat) (t ph : String)
    (hph : phrases.get? p = some ph) :
    typeSteps (k + 1)
        { phraseIndex := p, charIndex := ((k + 1 : Nat) : Int), isDeleting := true, text := t } =
      some { phraseIndex := (p + 1) % phrases.length, charIndex := 0, isDeleting := false,
             text := "" } := by
  induction k generalizing t with
  | zero =>
    have heq : ((0 + 1 : Nat) : Int) - 1 = 0 := by omega
    rw [typeSteps_succ 0 _ _ (type_deleting_last p _ t ph hph heq)]
    simp only [typeSteps]
    rw [heq, substring_zero]
  | succ k ih =>
    have hne : ((k + 1 + 1 : Nat) : Int) - 1 ≠ 0 := by omega
    rw [typeSteps_succ (k + 1) _ _ (type_deleting p _ t ph hph hne)]
    have hc : ((k + 1 + 1 : Nat) : Int) - 1 = ((k + 1 : Nat) : Int) := by omega
    rw [hc]
    exact ih _

/-- C25. From the start `(0, 0, false)`, every number of calls of `type()` runs
without error and reaches a state with `phraseIndex` below the number of
phrases, `charIndex` between 0 and the length of the current phrase, and
`charIndex` at least 1 when deleting; after the first call the element shows
the prefix of length `charIndex` of the current phrase. From the start of a
phrase, as many steps as the phrase is long type it out in full and switch to
deleting, and as many more steps delete it and start the next phrase, the first
one after the last. -/
theorem typing_animation_invariant (pageText : String) (n : Nat) :
    (∃ s ph, typeSteps n (typingStart pageText) = some s ∧
      s.phraseIndex < phrases.length ∧ phrases.get? s.phraseIndex = some ph ∧
      0 ≤ s.charIndex ∧ s.charIndex ≤ (ph.length : Int) ∧
      (s.isDeleting = true → 1 ≤ s.charIndex) ∧
      (1 ≤ n → s.text = substring ph s.charIndex)) ∧
    (∀ (p : Nat) (ph t : String), phrases.get? p = some ph →
      typeSteps ph.length
          { phraseIndex := p, charIndex := 0, isDeleting := false, text := t } =
        some { phraseIndex := p, charIndex := (ph.length : Int), isDeleting := true,
               text := ph } ∧
      typeSteps (ph.length + ph.length)
          { phraseIndex := p, charIndex := 0, isDeleting := false, text := t } =
        some { phraseIndex := (p + 1) % phrases.length, charIndex := 0, isDeleting := false,
               text := "" }) := by
  constructor
  · have hlen : (0 : Int) < ("Cloud Builder & AWS Enthusiast".length : Int) := by decide
    cases n with
    | zero =>
      refine ⟨typingStart pageText, "Cloud Builder & AWS Enthusiast", rfl, ?_, rfl, ?_, ?_,
        ?_, ?_⟩
      · show 0 < phrases.length
        decide
      · show (0 : Int) ≤ 0
        omega
      · show (0 : Int) ≤ ("Cloud Builder & AWS Enthusiast".length : Int)
        omega
      · intro h
        cases h
      · intro h
        omega
    | succ n =>
      obtain ⟨s2, ph2, hs, g1, g2, g3, g4, g5⟩ :=
        typeSteps_keeps_invariant n (typingStart pageText) "Cloud Builder & AWS Enthusiast"
          rfl (show (0 : Int) ≤ 0 by omega)
          (show (0 : Int) ≤ ("Cloud Builder & AWS Enthusiast".length : Int) by omega)
          (fun h => by cases h) (fun _ => hlen)
      refine ⟨s2, ph2, hs, ?_, g1, g2, g3, g4, fun _ => g5⟩
      rw [List.get?_eq_some] at g1
      exact g1.1
  · intro p ph t hph
    have hpos := phrases_nonempty p ph hph
    obtain ⟨k, hk⟩ : ∃ k, ph.length = k + 1 := ⟨ph.length - 1, by omega⟩
    have h1 : typeSteps ph.length
        { phraseIndex := p, charIndex := 0, isDeleting := false, text := t } =
        some { phraseIndex := p, charIndex := (ph.length : Int), isDeleting := true,
               text := ph } := by
      rw [hk]
      have := typeSteps_typing k p 0 t ph hph (by omega)
      rw [hk] at this
      exact this
    refine ⟨h1, ?_⟩
    rw [typeSteps_add ph.length ph.length _ _ h1]
    rw [hk]
    exact typeSteps_deleting k p ph ph hph

/-- Witness for C25: the first phrase has 30 characters; after 60 steps it has
been typed and deleted and the second phrase starts. -/
theorem typing_animation_invariant_witness :
    typeSteps ("Cloud Builder & AWS Enthusiast".length + "Cloud Builder & AWS Enthusiast".length)
        { phraseIndex := 0, charIndex := 0, isDeleting := false, text := "x" } =
      some { phraseIndex := (0 + 1) % phrases.length, charIndex := 0, isDeleting := false,
             text := "" } :=
  ((typing_animation_invariant "x" 1).2 0 "Cloud Builder & AWS Enthusiast" "x" rfl).2

/-! ## The testimonial carousel -/

theorem moveTestimonial_current (n : Nat) (s : Carousel) (d : Int)
    (hn : 1 ≤ n) (h0 : 0 ≤ s.currentTestimonial) (hlt : s.currentTestimonial < (n : Int))
    (hd : d = -1 ∨ d = 0 ∨ d = 1) :
    (moveTestimonial n s d).currentTestimonial = (s.currentTestimonial + d) % (n : Int) := by
  have hcur : (moveTestimonial n s d).currentTestimonial =
      if s.currentTestimonial + d ≥ (n : Int) then 0
      else if s.currentTestimonial + d < 0 then (n : Int) - 1
      else s.currentTestimonial + d := rfl
  rw [hcur]
  by_cases h1 : s.currentTestimonial + d ≥ (n : Int)
  · rw [if_pos h1]
    have : s.currentTestimonial + d = (n : Int) := by omega
    rw [this, Int.emod_self]
  · rw [if_neg h1]
    by_cases h2 : s.currentTestimonial + d < 0
    · rw [if_pos h2]
      have h3 : s.currentTestimonial + d = -1 := by omega
      rw [h3, ← Int.add_emod_self, Int.emod_eq_of_lt (by omega) (by omega)]
      omega
    · rw [if_neg h2, Int.emod_eq_of_lt (by omega) (by omega)]

/-- C26. With `n ≥ 1` cards, a current index `c` in `[0, n-1]` and a direction
in `{-1, 0, 1}`, `moveTestimonial` sets the current index to `(c + d) mod n`,
which is again in `[0, n-1]`; the track is translated by that many card widths
and a dot is active exactly when its position is that index. -/
theorem moveTestimonial_mod (n : Nat) (s : Carousel) (d : Int)
    (hn : 1 ≤ n) (h0 : 0 ≤ s.currentTestimonial) (hlt : s.currentTestimonial < (n : Int))
    (hd : d = -1 ∨ d = 0 ∨ d = 1) :
    (moveTestimonial n s d).currentTestimonial = (s.currentTestimonial + d) % (n : Int) ∧
    0 ≤ (moveTestimonial n s d).currentTestimonial ∧
    (moveTestimonial n s d).currentTestimonial < (n : Int) ∧
    (moveTestimonial n s d).translate = (s.currentTestimonial + d) % (n : Int) * 100 ∧
    (moveTestimonial n s d).dots.length = s.dots.length ∧
    (∀ i, i < s.dots.length →
      ((moveTestimonial n s d).dots.get? i = some true ↔
        (i : Int) = (s.currentTestimonial + d) % (n : Int)) ∧
      ((moveTestimonial n s d).dots.get? i = some false ↔
        (i : Int) ≠ (s.currentTestimonial + d) % (n : Int))) := by
  have hc := moveTestimonial_current n s d hn h0 hlt hd
  have hpos : (0 : Int) < (n : Int) := by omega
  have hdots : (moveTestimonial n s d).dots =
      (List.range s.dots.length).map
        (fun (index : Nat) =>
          decide ((index : Int) = (moveTestimonial n s d).currentTestimonial)) := rfl
  have htr : (moveTestimonial n s d).translate =
      (moveTestimonial n s d).currentTestimonial * 100 := rfl
  refine ⟨hc, ?_, ?_, ?_, ?_, ?_⟩
  · rw [hc]
    exact Int.emod_nonneg _ (by omega)
  · rw [hc]
    exact Int.emod_lt_of_pos _ hpos
  · rw [htr, hc]
  · rw [hdots, List.length_map, List.length_range]
  · intro i hi
    rw [hdots, hc]
    simp [List.getElem?_map, List.getElem?_range, hi]

/-- Witness for C26: from the last of three cards, one step forward wraps to the
first card. -/
theorem moveTestimonial_mod_witness :
    (moveTestimonial 3 { currentTestimonial := 2, translate := 200, dots := [false, false, true] }
      1).currentTestimonial = (2 + 1) % ((3 : Nat) : Int) :=
  (moveTestimonial_mod 3 { currentTestimonial := 2, translate := 200, dots := [false, false, true] }
    1 (by decide) (by decide) (by decide) (by decide)).1

/-- The body of the method `currentTestimonial(index)` does make card
`index - 1` the current one, when it is run. -/
theorem currentTestimonialBody_selects (n : Nat) (app : PortfolioApp) (index : Int)
    (h1 : 1 ≤ index) (hn : index ≤ (n : Int)) :
    (currentTestimonialBody n app index).currentTestimonial = Member.number (index - 1) ∧
    (currentTestimonialBody n app index).translate = (index - 1) * 100 := by
  have hmove := moveTestimonial_mod n
    { currentTestimonial := index - 1, translate := app.translate, dots := app.dots } 0
    (by omega) (show 0 ≤ index - 1 by omega) (show index - 1 < (n : Int) by omega)
    (Or.inr (Or.inl rfl))
  have hcur : (moveTestimonial n
      { currentTestimonial := index - 1, translate := app.translate, dots := app.dots }
      0).currentTestimonial = index - 1 := by
    rw [hmove.1]
    show (index - 1 + 0) % (n : Int) = index - 1
    rw [Int.add_zero, Int.emod_eq_of_lt (by omega) (by omega)]
  constructor
  · show Member.number _ = _
    rw [hcur]
  · show (moveTestimonial n _ 0).translate = _
    have htr : (moveTestimonial n
        { currentTestimonial := index - 1, translate := app.translate, dots := app.dots }
        0).translate = (moveTestimonial n
        { currentTestimonial := index - 1, translate := app.translate, dots := app.dots }
        0).currentTestimonial * 100 := rfl
    rw [htr, hcur]

/-- C27 at its failing input: once `new PortfolioApp()` has run, the own
property `currentTestimonial` holds a number and hides the method of the same
name, so the global `currentTestimonial(index)` throws for every number of
cards, every state of the page and every index. -/
theorem currentTestimonial_after_init_throws (cards : Nat) (translate : Int)
    (dots : List Bool) (index : Int) :
    currentTestimonial cards (newPortfolioApp translate dots) index =
      Except.error "TypeError: app.currentTestimonial is not a function" := rfl

/-! ## The validation of the contact form -/

theorem Value.and_truthy (a b : Value) : (a.and b).truthy = (a.truthy && b.truthy) := by
  unfold Value.and
  by_cases h : a.truthy = true
  · simp [h]
  · simp [h]

/-- A list of classes that the class `[^\s@]` accepts throughout. -/
theorem notSpaceAt_rmatch_iff (x : List CharClass) :
    notSpaceAt.rmatch x = true ↔ x = [CharClass.dot] ∨ x = [CharClass.other] := by
  unfold notSpaceAt
  rw [RegularExpression.add_rmatch_iff, RegularExpression.char_rmatch_iff,
    RegularExpression.char_rmatch_iff]

theorem star_notSpaceAt_rmatch_iff (x : List CharClass) :
    (RegularExpression.star notSpaceAt).rmatch x = true ↔
      ∀ c ∈ x, c = CharClass.dot ∨ c = CharClass.other := by
  rw [RegularExpression.star_rmatch_iff]
  constructor
  · rintro ⟨S, rfl, hS⟩ c hc
    rw [List.mem_flatten] at hc
    obtain ⟨t, ht, hct⟩ := hc
    rcases (notSpaceAt_rmatch_iff t).1 (hS t ht).2 with h | h
    · rw [h, List.mem_singleton] at hct
      exact Or.inl hct
    · rw [h, List.mem_singleton] at hct
      exact Or.inr hct
  · intro h
    refine ⟨x.map (fun c => [c]), ?_, ?_⟩
    · clear h
      induction x with
      | nil => rfl
      | cons a x ih =>
        rw [List.map_cons, List.flatten_cons, ← ih]
        rfl
    · intro t ht
      obtain ⟨c, hc, rfl⟩ := List.mem_map.1 ht
      refine ⟨by simp, (notSpaceAt_rmatch_iff [c]).2 ?_⟩
      rcases h c hc with h1 | h1
      · exact Or.inl (by rw [h1])
      · exact Or.inr (by rw [h1])

theorem oneOrMore_notSpaceAt_rmatch_iff (x : List CharClass) :
    (oneOrMore notSpaceAt).rmatch x = true ↔
      x ≠ [] ∧ ∀ c ∈ x, c = CharClass.dot ∨ c = CharClass.other := by
  unfold oneOrMore
  rw [RegularExpression.mul_rmatch_iff]
  constructor
  · rintro ⟨t, u, rfl, ht, hu⟩
    rw [star_notSpaceAt_rmatch_iff] at hu
    rcases (notSpaceAt_rmatch_iff t).1 ht with h | h
    · subst h
      refine ⟨by simp, ?_⟩
      intro c hc
      rcases List.mem_append.1 hc with h1 | h1
      · rw [List.mem_singleton] at h1
        exact Or.inl h1
      · exact hu c h1
    · subst h
      refine ⟨by simp, ?_⟩
      intro c hc
      rcases List.mem_append.1 hc with h1 | h1
      · rw [List.mem_singleton] at h1
        exact Or.inr h1
      · exact hu c h1
  · rintro ⟨hne, hall⟩
    cases x with
    | nil => exact absurd rfl hne
    | cons a x =>
      refine ⟨[a], x, rfl, (notSpaceAt_rmatch_iff [a]).2 ?_, (star_notSpaceAt_rmatch_iff x).2 ?_⟩
      · rcases hall a (List.mem_cons_self _ _) with h | h
        · exact Or.inl (by rw [h])
        · exact Or.inr (by rw [h])
      · intro c hc
        exact hall c (List.mem_cons_of_mem _ hc)

/-- The words of classes that `emailRegex` accepts. -/
theorem emailRegex_rmatch_iff (w : List CharClass) :
    emailRegex.rmatch w = true ↔
      ∃ l x y, w = l ++ CharClass.at :: (x ++ CharClass.dot :: y) ∧
        (l ≠ [] ∧ ∀ c ∈ l, c = CharClass.dot ∨ c = CharClass.other) ∧
        (x ≠ [] ∧ ∀ c ∈ x, c = CharClass.dot ∨ c = CharClass.other) ∧
        (y ≠ [] ∧ ∀ c ∈ y, c = CharClass.dot ∨ c = CharClass.other) := by
  unfold emailRegex
  constructor
  · intro h
    rw [RegularExpression.mul_rmatch_iff] at h
    obtain ⟨l, r1, rfl, hl, h1⟩ := h
    rw [RegularExpression.mul_rmatch_iff] at h1
    obtain ⟨a, r2, rfl, ha, h2⟩ := h1
    rw [RegularExpression.mul_rmatch_iff] at h2
    obtain ⟨x, r3, rfl, hx, h3⟩ := h2
    rw [RegularExpression.mul_rmatch_iff] at h3
    obtain ⟨b, y, rfl, hb, hy⟩ := h3
    rw [RegularExpression.char_rmatch_iff] at ha hb
    subst ha
    subst hb
    exact ⟨l, x, y, rfl, (oneOrMore_notSpaceAt_rmatch_iff l).1 hl,
      (oneOrMore_notSpaceAt_rmatch_iff x).1 hx, (oneOrMore_notSpaceAt_rmatch_iff y).1 hy⟩
  · rintro ⟨l, x, y, rfl, hl, hx, hy⟩
    rw [RegularExpression.mul_rmatch_iff]
    refine ⟨l, _, rfl, (oneOrMore_notSpaceAt_rmatch_iff l).2 hl, ?_⟩
    rw [RegularExpression.mul_rmatch_iff]
    refine ⟨[CharClass.at], _, rfl, (RegularExpression.char_rmatch_iff _ _).2 rfl, ?_⟩
    rw [RegularExpression.mul_rmatch_iff]
    refine ⟨x, _, rfl, (oneOrMore_notSpaceAt_rmatch_iff x).2 hx, ?_⟩
    rw [RegularExpression.mul_rmatch_iff]
    exact ⟨[CharClass.dot], y, rfl, (RegularExpression.char_rmatch_iff _ _).2 rfl,
      (oneOrMore_notSpaceAt_rmatch_iff y).2 hy⟩

theorem isWhitespace_dot : isWhitespace '.' = false := by decide

theorem charClass_eq_at_iff (c : Char) : charClass c = CharClass.at ↔ c = '@' := by
  unfold charClass
  by_cases h1 : c = '@'
  · simp [h1]
  · by_cases h2 : isWhitespace c = true
    · simp [h1, h2]
    · by_cases h3 : c = '.'
      · simp [h1, h3, isWhitespace_dot]
      · simp [h1, h2, h3]

theorem charClass_eq_dot_iff (c : Char) : charClass c = CharClass.dot ↔ c = '.' := by
  unfold charClass
  by_cases h1 : c = '@'
  · have h3 : c ≠ '.' := by rw [h1]; decide
    simp [h1, h3]
  · by_cases h2 : isWhitespace c = true
    · have h3 : c ≠ '.' := by
        intro h
        rw [h, isWhitespace_dot] at h2
        cases h2
      simp [h1, h2, h3]
    · by_cases h3 : c = '.'
      · simp [h1, h3, isWhitespace_dot]
      · simp [h1, h2, h3]

theorem charClass_plain_iff (c : Char) :
    (charClass c = CharClass.dot ∨ charClass c = CharClass.other) ↔
      (isWhitespace c = false ∧ c ≠ '@') := by
  unfold charClass
  by_cases h1 : c = '@'
  · simp [h1]
  · by_cases h2 : isWhitespace c = true
    · simp [h1, h2]
    · by_cases h3 : c = '.'
      · simp [h1, h3, isWhitespace_dot]
      · simp [h1, h2, h3]

theorem plain_map_iff (l : List Char) :
    (∀ k ∈ l.map charClass, k = CharClass.dot ∨ k = CharClass.other) ↔
      ∀ c ∈ l, isWhitespace c = false ∧ c ≠ '@' := by
  constructor
  · intro h c hc
    exact (charClass_plain_iff c).1 (h _ (List.mem_map_of_mem _ hc))
  · intro h k hk
    obtain ⟨c, hc, rfl⟩ := List.mem_map.1 hk
    exact (charClass_plain_iff c).2 (h c hc)

/-- The strings `emailRegex.test` accepts: `L@X.Y` with `L`, `X` and `Y` not
empty and free of white space and `@`. -/
theorem emailRegexTest_iff (s : String) :
    emailRegexTest s = true ↔
      ∃ L X Y : List Char, s.data = L ++ '@' :: (X ++ '.' :: Y) ∧
        (L ≠ [] ∧ ∀ c ∈ L, isWhitespace c = false ∧ c ≠ '@') ∧
        (X ≠ [] ∧ ∀ c ∈ X, isWhitespace c = false ∧ c ≠ '@') ∧
        (Y ≠ [] ∧ ∀ c ∈ Y, isWhitespace c = false ∧ c ≠ '@') := by
  unfold emailRegexTest
  rw [emailRegex_rmatch_iff]
  constructor
  · rintro ⟨l, x, y, hw, ⟨hl0, hl⟩, ⟨hx0, hx⟩, ⟨hy0, hy⟩⟩
    rw [List.map_eq_append_iff] at hw
    obtain ⟨L, R, hs, rfl, hR⟩ := hw
    rw [List.map_eq_cons_iff] at hR
    obtain ⟨a, R2, rfl, ha, hR2⟩ := hR
    rw [List.map_eq_append_iff] at hR2
    obtain ⟨X, R3, rfl, rfl, hR3⟩ := hR2
    rw [List.map_eq_cons_iff] at hR3
    obtain ⟨b, Y, rfl, hb, rfl⟩ := hR3
    rw [charClass_eq_at_iff] at ha
    rw [charClass_eq_dot_iff] at hb
    subst ha
    subst hb
    refine ⟨L, X, Y, hs, ⟨?_, (plain_map_iff L).1 hl⟩, ⟨?_, (plain_map_iff X).1 hx⟩,
      ⟨?_, (plain_map_iff Y).1 hy⟩⟩
    · intro h
      exact hl0 (by rw [h]; rfl)
    · intro h
      exact hx0 (by rw [h]; rfl)
    · intro h
      exact hy0 (by rw [h]; rfl)
  · rintro ⟨L, X, Y, hs, ⟨hl0, hl⟩, ⟨hx0, hx⟩, ⟨hy0, hy⟩⟩
    refine ⟨L.map charClass, X.map charClass, Y.map charClass, ?_,
      ⟨?_, (plain_map_iff L).2 hl⟩, ⟨?_, (plain_map_iff X).2 hx⟩, ⟨?_, (plain_map_iff Y).2 hy⟩⟩
    · rw [hs, List.map_append, List.map_cons, List.map_append, List.map_cons,
        (charClass_eq_at_iff '@').2 rfl, (charClass_eq_dot_iff '.').2 rfl]
    · intro h
      exact hl0 (List.map_eq_nil_iff.1 h)
    · intro h
      exact hx0 (List.map_eq_nil_iff.1 h)
    · intro h
      exact hy0 (List.map_eq_nil_iff.1 h)

theorem jsLength_pos_of_two (s : String) (h : 2 ≤ jsLength s) : s.data.isEmpty = false := by
  cases hd : s.data with
  | nil =>
    unfold jsLength at h
    rw [hd] at h
    simp at h
  | cons a l => rfl

/-- C28. `validateForm(data)` is truthy exactly when the name has at least 2
UTF-16 code units, the message at least 10, and the e-mail address is `L@D` with
`L` not empty, no white space and no `@` in `L` and in `D`, and a `.` in `D`
that is neither its first nor its last character. -/
theorem validateForm_truthy_iff (data : FormData) :
    (validateForm data).truthy = true ↔
      2 ≤ jsLength data.name ∧ 10 ≤ jsLength data.message ∧
      ∃ L D : List Char, data.email.data = L ++ '@' :: D ∧ L ≠ [] ∧
        (∀ c ∈ L, isWhitespace c = false ∧ c ≠ '@') ∧
        (∀ c ∈ D, isWhitespace c = false ∧ c ≠ '@') ∧
        ∃ X Y : List Char, D = X ++ '.' :: Y ∧ X ≠ [] ∧ Y ≠ [] := by
  have hshape : emailRegexTest data.email = true ↔
      ∃ L D : List Char, data.email.data = L ++ '@' :: D ∧ L ≠ [] ∧
        (∀ c ∈ L, isWhitespace c = false ∧ c ≠ '@') ∧
        (∀ c ∈ D, isWhitespace c = false ∧ c ≠ '@') ∧
        ∃ X Y : List Char, D = X ++ '.' :: Y ∧ X ≠ [] ∧ Y ≠ [] := by
    rw [emailRegexTest_iff]
    constructor
    · rintro ⟨L, X, Y, hs, ⟨hl0, hl⟩, ⟨hx0, hx⟩, ⟨hy0, hy⟩⟩
      refine ⟨L, X ++ '.' :: Y, hs, hl0, hl, ?_, X, Y, rfl, hx0, hy0⟩
      intro c hc
      rcases List.mem_append.1 hc with h | h
      · exact hx c h
      · rcases List.mem_cons.1 h with h1 | h1
        · rw [h1]
          exact ⟨by decide, by decide⟩
        · exact hy c h1
    · rintro ⟨L, D, hs, hl0, hl, hd, X, Y, rfl, hx0, hy0⟩
      refine ⟨L, X, Y, hs, ⟨hl0, hl⟩, ⟨hx0, ?_⟩, ⟨hy0, ?_⟩⟩
      · intro c hc
        exact hd c (List.mem_append_left _ hc)
      · intro c hc
        exact hd c (List.mem_append_right _ (List.mem_cons_of_mem _ hc))
  rw [← hshape]
  have hstr : ∀ t : String, (Value.str t).truthy = !t.data.isEmpty := fun _ => rfl
  have hbool : ∀ b : Bool, (Value.bool b).truthy = b := fun _ => rfl
  unfold validateForm
  simp only [Value.and_truthy, hstr, hbool, Bool.and_eq_true, decide_eq_true_eq,
    Bool.not_eq_true']
  constructor
  · rintro ⟨⟨⟨⟨⟨_, h2⟩, _⟩, h4⟩, _⟩, h6⟩
    exact ⟨h2, h6, h4⟩
  · rintro ⟨h2, h6, h4⟩
    refine ⟨⟨⟨⟨⟨jsLength_pos_of_two _ h2, h2⟩, ?_⟩, h4⟩, jsLength_pos_of_two _ (by omega)⟩, h6⟩
    obtain ⟨L, X, Y, hs, _⟩ := (emailRegexTest_iff data.email).1 h4
    rw [hs]
    cases L <;> rfl

/-- Witness for C28: a two-letter name, a plain address and an eleven-letter
message pass the validation. -/
theorem validateForm_truthy_iff_witness :
    (validateForm { name := "Al", email := "a@b.co", message := "hello world" }).truthy = true :=
  (validateForm_truthy_iff { name := "Al", email := "a@b.co", message := "hello world" }).2
    ⟨by decide, by decide, ['a'], ['b', '.', 'c', 'o'], rfl, by decide, by decide, by decide,
      ['b'], ['c', 'o'], rfl, by decide, by decide⟩

end PortfolioPage
